import Mathlib

/-!
# Fee mediation step of the ante chain (`x/auth/ante/fee.go`)

A shallow embedding of `DeductFeeDecorator.AnteHandle`, `checkDeductFee` and
`DeductFees`.  Collaborators (account keeper, bank keeper, fee-grant keeper,
fee checker, the `next` handler) are parameters; their mutable state is
threaded explicitly as a value of an arbitrary type `S`, and every
collaborator call is appended to a trace so that statements such as "the bank
keeper is never called" can be expressed.
-/

namespace CosmosSDK

/-! ## Data model -/

abbrev Byte := Fin 256

/-- Go `[]byte`: `none` is the nil slice, `some bs` a non-nil slice. -/
abbrev Bytes := Option (List Byte)

/-- Go `len(b)` on a byte slice. -/
def Bytes.len (b : Bytes) : Nat := (b.getD []).length

/-- Go `bytes.Equal`: compares contents, a nil slice equals an empty one. -/
def bytesEqual (a b : Bytes) : Bool := a.getD [] == b.getD []

/-- One `sdk.Coin`: a denomination and an integer amount. -/
structure Coin where
  Denom : String
  Amount : Int
deriving DecidableEq, Repr

/-- The `sdk.Coins` slice type. -/
abbrev Coins := List Coin

/-- An `sdk.Msg`, reduced to its type URL and encoded body. -/
structure Msg where
  typeURL : String
  body : List Byte
deriving DecidableEq, Repr

/-- Go error values. `sentinel` is a registered error such as
`sdkerrors.ErrInsufficientFee`; `wrap` is both `errorsmod.Wrap/Wrapf` and
`fmt.Errorf` with `%w` (the cause stays reachable for `errors.Is`); `errorf`
is `fmt.Errorf` without a wrapped cause. -/
inductive Err where
  | sentinel (name : String)
  | wrap (cause : Err) (msg : String)
  | errorf (msg : String)
deriving DecidableEq, Repr

/-- The text of `err.Error()`; a wrapped error prints as `msg: cause`. -/
def Err.Error : Err → String
  | .sentinel name => name
  | .wrap cause msg => msg ++ ": " ++ cause.Error
  | .errorf msg => msg

/-- Go `errors.Is(e, target)`: `target` occurs on the unwrap chain of `e`. -/
def Err.Is : Err → Err → Bool
  | .wrap cause msg, target => (Err.wrap cause msg == target) || cause.Is target
  | e, target => e == target

def ErrTxDecode : Err := .sentinel "ErrTxDecode"
def ErrInvalidGasLimit : Err := .sentinel "ErrInvalidGasLimit"
def ErrInsufficientFee : Err := .sentinel "ErrInsufficientFee"
def ErrInsufficientFunds : Err := .sentinel "ErrInsufficientFunds"
def ErrInvalidRequest : Err := .sentinel "ErrInvalidRequest"

/-- The execution modes of `transaction.ExecMode`. -/
inductive ExecMode where
  | Check
  | ReCheck
  | Simulate
  | PrepareProposal
  | ProcessProposal
  | VoteExtension
  | VerifyVoteExtension
  | Finalize
deriving DecidableEq, Repr

/-- The values a transaction exposes through the `sdk.FeeTx` interface. -/
structure FeeTx where
  GetGas : Nat
  GetFee : Coins
  FeePayer : Bytes
  FeeGranter : Bytes
deriving DecidableEq, Repr

/-- An `sdk.Tx`. `feeTx` is the outcome of the type assertion
`tx.(sdk.FeeTx)`: `none` when the transaction does not implement `FeeTx`. -/
structure Tx where
  GetMsgs : List Msg
  feeTx : Option FeeTx
deriving DecidableEq, Repr

/-- The part of `sdk.Context` that the fee step reads or writes. -/
structure Context where
  BlockHeight : Int
  Priority : Int
  mode : ExecMode
deriving DecidableEq, Repr

/-- The method `ctx.WithPriority(p)`: a copy of the context with the priority replaced. -/
def Context.WithPriority (ctx : Context) (p : Int) : Context :=
  { ctx with Priority := p }

/-- An `sdk.Attribute`. -/
structure Attribute where
  Key : String
  Value : String
deriving DecidableEq, Repr

/-- An `sdk.Event`. -/
structure Event where
  EventType : String
  Attributes : List Attribute
deriving DecidableEq, Repr

def EventTypeTx : String := "tx"
def AttributeKeyFee : String := "fee"
def AttributeKeyFeePayer : String := "fee_payer"

/-- Every collaborator call the fee step can make, with its arguments; the two
state-changing keeper calls also record the error they returned (`none` is
Go's nil). `EmitEvents` is `ctx.EventManager().EmitEvents`. -/
inductive Call where
  | ExecMode (ctx : Context)
  | txFeeChecker (ctx : Context) (tx : Tx)
  | GetModuleAddress (moduleName : String)
  | UseGrantedFees (ctx : Context) (granter grantee : Bytes) (fee : Coins) (msgs : List Msg)
      (err : Option Err)
  | BytesToString (bz : Bytes)
  | SendCoinsFromAccountToModule (ctx : Context) (senderAddr : Bytes)
      (recipientModule : String) (amt : Coins) (err : Option Err)
  | EmitEvents (events : List Event)
  | next (ctx : Context) (tx : Tx) (simulate : Bool)
deriving DecidableEq, Repr

/-- The result of running a piece of the fee step: the returned value, the
collaborator state afterwards and the collaborator calls made, in order. -/
structure Out (S α : Type) where
  ret : α
  state : S
  trace : List Call

/-- The same result, with the calls `pre` made before it put in front of its trace. -/
def Out.after {S α : Type} (o : Out S α) (pre : List Call) : Out S α :=
  { o with trace := pre ++ o.trace }

/-! ## Collaborators -/

/-- The methods of `sdk.Coins` and `sdk.AccAddress` and the module-name
constant that `fee.go` uses; they are declared outside the translated file
and are taken as parameters. -/
structure Types where
  IsZero : Coins → Bool
  IsValid : Coins → Bool
  CoinsString : Coins → String
  AccAddressString : Bytes → String
  FeeCollectorName : String

/-- The account keeper as used by `fee.go`: the execution mode of the
transaction service, the module-address lookup and the address codec. -/
structure AccountKeeper where
  execModeOf : Context → ExecMode
  GetModuleAddress : String → Bytes
  BytesToString : Bytes → Except Err String

/-- The bank keeper as used by `fee.go`: a call returns an error or nil, and
the state it leaves behind. -/
structure BankKeeper (S : Type) where
  SendCoinsFromAccountToModule : S → Context → Bytes → String → Coins → Option Err × S

/-- The fee-grant keeper as used by `fee.go`. -/
structure FeegrantKeeper (S : Type) where
  UseGrantedFees : S → Context → Bytes → Bytes → Coins → List Msg → Option Err × S

/-- The type `TxFeeChecker`: `(ctx, tx) ↦ (effective fee, priority)` or an error. -/
abbrev TxFeeChecker (S : Type) := S → Context → Tx → Except Err (Coins × Int) × S

/-- The type `sdk.AnteHandler`: `(ctx, tx, simulate) ↦ (newCtx, err)`. -/
abbrev AnteHandler (S : Type) := S → Context → Tx → Bool → (Context × Option Err) × S

structure DeductFeeDecorator (S : Type) where
  accountKeeper : AccountKeeper
  bankKeeper : BankKeeper S
  feegrantKeeper : Option (FeegrantKeeper S)
  txFeeChecker : TxFeeChecker S

/-- The constructor `NewDeductFeeDecorator`: a nil fee checker is replaced by
the default one (`checkTxFeeWithValidatorMinGasPrices`, passed in as
`defaultChecker`). -/
def NewDeductFeeDecorator {S : Type} (defaultChecker : TxFeeChecker S) (ak : AccountKeeper)
    (bk : BankKeeper S) (fk : Option (FeegrantKeeper S)) (tfc : Option (TxFeeChecker S)) :
    DeductFeeDecorator S :=
  { accountKeeper := ak
    bankKeeper := bk
    feegrantKeeper := fk
    txFeeChecker := match tfc with
      | none => defaultChecker
      | some c => c }

/-! ## The fee step -/

/-- The function `DeductFees` (fee.go, lines 137-148). -/
def DeductFees {S : Type} (T : Types) (bankKeeper : BankKeeper S) (s : S) (ctx : Context)
    (acc : Bytes) (fees : Coins) : Out S (Option Err) :=
  if !T.IsValid fees then
    ⟨some (.wrap ErrInsufficientFee ("invalid fee amount: " ++ T.CoinsString fees)), s, []⟩
  else
    match bankKeeper.SendCoinsFromAccountToModule s ctx acc T.FeeCollectorName fees with
    | (some err, s1) =>
      ⟨some (.wrap err "failed to deduct fees"), s1,
        [.SendCoinsFromAccountToModule ctx acc T.FeeCollectorName fees (some err)]⟩
    | (none, s1) =>
      ⟨none, s1, [.SendCoinsFromAccountToModule ctx acc T.FeeCollectorName fees none]⟩

/-- The error built when `UseGrantedFees` fails (fee.go, lines 101-109):
the collaborator's error wrapped with a message naming granter and payer, or
with the codec's error text when an address cannot be rendered. The second
component lists the codec calls made. -/
def grantDeniedError (ak : AccountKeeper) (err : Err) (feeGranter feePayer : Bytes) :
    Err × List Call :=
  match ak.BytesToString feeGranter with
  | .error acErr =>
    (.wrap err (acErr.Error ++ ", feeGranter does not allow to pay fees"),
      [.BytesToString feeGranter])
  | .ok granterAddr =>
    match ak.BytesToString feePayer with
    | .error acErr =>
      (.wrap err (acErr.Error ++ ", feeGranter does not allow to pay fees"),
        [.BytesToString feeGranter, .BytesToString feePayer])
    | .ok payerAddr =>
      (.wrap err (granterAddr ++ " does not allow to pay fees for " ++ payerAddr),
        [.BytesToString feeGranter, .BytesToString feePayer])

/-- The fee event of fee.go, lines 124-130. -/
def feeEvent (T : Types) (fee : Coins) (deductFeesFrom : Bytes) : Event :=
  { EventType := EventTypeTx
    Attributes :=
      [ ⟨AttributeKeyFee, T.CoinsString fee⟩,
        ⟨AttributeKeyFeePayer, T.AccAddressString deductFeesFrom⟩ ] }

/-- Lines 116-133 of `checkDeductFee`: deduct a non-zero fee from
`deductFeesFrom`, then emit the fee event. -/
def deductAndEmit {S : Type} (T : Types) (dfd : DeductFeeDecorator S) (s : S) (ctx : Context)
    (fee : Coins) (deductFeesFrom : Bytes) : Out S (Option Err) :=
  if !T.IsZero fee then
    let d := DeductFees T dfd.bankKeeper s ctx deductFeesFrom fee
    match d.ret with
    | some err => ⟨some err, d.state, d.trace⟩
    | none => ⟨none, d.state, d.trace ++ [.EmitEvents [feeEvent T fee deductFeesFrom]]⟩
  else
    ⟨none, s, [.EmitEvents [feeEvent T fee deductFeesFrom]]⟩

/-- The method `DeductFeeDecorator.checkDeductFee` (fee.go, lines 76-134). -/
def checkDeductFee {S : Type} (T : Types) (dfd : DeductFeeDecorator S) (s : S) (ctx : Context)
    (sdkTx : Tx) (fee : Coins) : Out S (Option Err) :=
  match sdkTx.feeTx with
  | none => ⟨some (.wrap ErrTxDecode "Tx must implement the FeeTx interface"), s, []⟩
  | some feeTx =>
    let addr := dfd.accountKeeper.GetModuleAddress T.FeeCollectorName
    if addr.len == 0 then
      ⟨some (.errorf ("fee collector module account (" ++ T.FeeCollectorName ++
          ") has not been set")), s, [.GetModuleAddress T.FeeCollectorName]⟩
    else
      let feePayer := feeTx.FeePayer
      match feeTx.FeeGranter with
      | none =>
        (deductAndEmit T dfd s ctx fee feePayer).after [.GetModuleAddress T.FeeCollectorName]
      | some g =>
        let feeGranterAddr : Bytes := some g
        match dfd.feegrantKeeper with
        | none =>
          ⟨some (.wrap ErrInvalidRequest "fee grants are not enabled"), s,
            [.GetModuleAddress T.FeeCollectorName]⟩
        | some fk =>
          if !bytesEqual feeGranterAddr feePayer then
            match fk.UseGrantedFees s ctx feeGranterAddr feePayer fee sdkTx.GetMsgs with
            | (some err, s1) =>
              let r := grantDeniedError dfd.accountKeeper err feeGranterAddr feePayer
              ⟨some r.1, s1,
                [.GetModuleAddress T.FeeCollectorName,
                 .UseGrantedFees ctx feeGranterAddr feePayer fee sdkTx.GetMsgs (some err)] ++
                  r.2⟩
            | (none, s1) =>
              (deductAndEmit T dfd s1 ctx fee feeGranterAddr).after
                [.GetModuleAddress T.FeeCollectorName,
                 .UseGrantedFees ctx feeGranterAddr feePayer fee sdkTx.GetMsgs none]
          else
            (deductAndEmit T dfd s ctx fee feeGranterAddr).after
              [.GetModuleAddress T.FeeCollectorName]

/-- The method `DeductFeeDecorator.AnteHandle` (fee.go, lines 43-74). The
incoming simulate flag is the unnamed third parameter of the source. -/
def AnteHandle {S : Type} (T : Types) (dfd : DeductFeeDecorator S) (s : S) (ctx : Context)
    (tx : Tx) (_simulate : Bool) (next : AnteHandler S) : Out S (Context × Option Err) :=
  match tx.feeTx with
  | none => ⟨(ctx, some (.wrap ErrTxDecode "Tx must implement the FeeTx interface")), s, []⟩
  | some feeTx =>
    let execMode := dfd.accountKeeper.execModeOf ctx
    if execMode != ExecMode.Simulate && decide (ctx.BlockHeight > 0) && feeTx.GetGas == 0 then
      ⟨(ctx, some (.wrap ErrInvalidGasLimit "must provide positive gas")), s, [.ExecMode ctx]⟩
    else
      let checked : Out S (Except Err (Coins × Int)) :=
        if execMode != ExecMode.Simulate then
          let r := dfd.txFeeChecker s ctx tx
          ⟨r.1, r.2, [.txFeeChecker ctx tx]⟩
        else
          ⟨.ok (feeTx.GetFee, 0), s, []⟩
      match checked.ret with
      | .error err => ⟨(ctx, some err), checked.state, [.ExecMode ctx] ++ checked.trace⟩
      | .ok (fee, priority) =>
        let d := checkDeductFee T dfd checked.state ctx tx fee
        match d.ret with
        | some err => ⟨(ctx, some err), d.state, [.ExecMode ctx] ++ checked.trace ++ d.trace⟩
        | none =>
          let newCtx := ctx.WithPriority priority
          let n := next d.state newCtx tx false
          ⟨n.1, n.2, [.ExecMode ctx] ++ checked.trace ++ d.trace ++ [.next newCtx tx false]⟩

/-! ## Classifying trace entries -/

def Call.isTxFeeChecker : Call → Bool
  | .txFeeChecker .. => true
  | _ => false

def Call.isUseGrantedFees : Call → Bool
  | .UseGrantedFees .. => true
  | _ => false

def Call.isSend : Call → Bool
  | .SendCoinsFromAccountToModule .. => true
  | _ => false

def Call.isEmitEvents : Call → Bool
  | .EmitEvents .. => true
  | _ => false

def Call.isNext : Call → Bool
  | .next .. => true
  | _ => false

/-- A state-changing keeper call that returned nil, so that its effect on the
keeper's state stands. -/
def Call.applied : Call → Bool
  | .UseGrantedFees _ _ _ _ _ none => true
  | .SendCoinsFromAccountToModule _ _ _ _ none => true
  | _ => false

/-- The account `checkDeductFee` debits: the fee granter when the transaction
names one, otherwise the fee payer (fee.go, lines 89 and 113). -/
def deductFeesFrom (feeTx : FeeTx) : Bytes :=
  match feeTx.FeeGranter with
  | some g => some g
  | none => feeTx.FeePayer

/-! ## A concrete instance

A small executable environment on which the definitions above can be
evaluated: a ledger that records the transfers and fee-grant uses applied to
it, a bank that refuses one account, a fee-grant keeper that refuses one
granter, and a fee checker that replaces the stated fee. -/

/-- Modelled from the spec: the `IsZero` method of `sdk.Coins` is declared
outside the translated file; "effective fee is exactly zero" is read as
every coin of the set having amount zero. -/
def coinsIsZero (c : Coins) : Bool := c.all (fun x => x.Amount == 0)

/-- Modelled from the spec: the `IsValid` method of `sdk.Coins` is declared
outside the translated file; the spec's "well-formed (non-negative amounts,
unique denominations)". -/
def coinsIsValid (c : Coins) : Bool :=
  c.all (fun x => decide (0 ≤ x.Amount)) && decide ((c.map Coin.Denom).Nodup)

/-- A rendering of a coin set: the denominations, comma separated. -/
def coinsString (c : Coins) : String := String.intercalate "," (c.map Coin.Denom)

/-- A rendering of an address: its length in bytes. -/
def accAddressString (b : Bytes) : String := String.mk (List.replicate b.len 'x')

def demoTypes : Types :=
  { IsZero := coinsIsZero
    IsValid := coinsIsValid
    CoinsString := coinsString
    AccAddressString := accAddressString
    FeeCollectorName := "fee_collector" }

/-- The collaborator state of the concrete instance. -/
structure Ledger where
  transfers : List (Bytes × String × Coins)
  grantsUsed : List (Bytes × Bytes × Coins)
deriving DecidableEq, Repr

def emptyLedger : Ledger := ⟨[], []⟩

def alice : Bytes := some [1]
def bob : Bytes := some [2]
def pauper : Bytes := some [9]
def miser : Bytes := some [7]

/-- The account keeper of the concrete instance: the fee collector has an address. -/
def demoAccountKeeper : AccountKeeper :=
  { execModeOf := fun ctx => ctx.mode
    GetModuleAddress := fun name => if name == "fee_collector" then some [254] else none
    BytesToString := fun b => .ok (accAddressString b) }

/-- An account keeper whose fee-collector module account has not been set. -/
def bareAccountKeeper : AccountKeeper :=
  { execModeOf := fun ctx => ctx.mode
    GetModuleAddress := fun _ => none
    BytesToString := fun b => .ok (accAddressString b) }

/-- A bank in which `pauper` has no funds and every other transfer is recorded. -/
def demoBank : BankKeeper Ledger :=
  { SendCoinsFromAccountToModule := fun s _ sender module amt =>
      if sender == pauper then (some (.wrap ErrInsufficientFunds "spendable balance"), s)
      else (none, { s with transfers := s.transfers ++ [(sender, module, amt)] }) }

/-- A fee-grant keeper in which `miser` grants nothing and every other use is recorded. -/
def demoFeegrant : FeegrantKeeper Ledger :=
  { UseGrantedFees := fun s _ granter grantee fee _ =>
      if granter == miser then (some (.sentinel "ErrNoAllowance"), s)
      else (none, { s with grantsUsed := s.grantsUsed ++ [(granter, grantee, fee)] }) }

/-- A fee checker that rejects an empty stated fee and otherwise charges a
flat three `stake` with priority seven. -/
def demoChecker : TxFeeChecker Ledger := fun s _ tx =>
  match tx.feeTx with
  | some f => if f.GetFee.isEmpty then (.error (.wrap ErrInsufficientFee "no fee"), s)
              else (.ok ([⟨"stake", 3⟩], 7), s)
  | none => (.error ErrTxDecode, s)

def demoNext : AnteHandler Ledger := fun s ctx _ _ => ((ctx, none), s)

def demoDecorator : DeductFeeDecorator Ledger :=
  NewDeductFeeDecorator demoChecker demoAccountKeeper demoBank (some demoFeegrant) none

/-- The concrete decorator with no fee-grant keeper configured. -/
def demoDecoratorNoGrants : DeductFeeDecorator Ledger :=
  NewDeductFeeDecorator demoChecker demoAccountKeeper demoBank none none

/-- The concrete decorator over an account keeper without a fee-collector account. -/
def bareDecoratorNoGrants : DeductFeeDecorator Ledger :=
  NewDeductFeeDecorator demoChecker bareAccountKeeper demoBank none none

/-- The concrete decorator with fee grants enabled, over an account keeper
without a fee-collector account. -/
def bareDecorator : DeductFeeDecorator Ledger :=
  NewDeductFeeDecorator demoChecker bareAccountKeeper demoBank (some demoFeegrant) none

def demoCtx (height : Int) (mode : ExecMode) : Context :=
  { BlockHeight := height, Priority := 0, mode := mode }

def demoTx (gas : Nat) (fee : Coins) (payer granter : Bytes) : Tx :=
  { GetMsgs := [⟨"/cosmos.bank.v1beta1.MsgSend", [1, 2, 3]⟩]
    feeTx := some ⟨gas, fee, payer, granter⟩ }

def tenStake : Coins := [⟨"stake", 10⟩]

/-- A fee that is exactly zero. -/
def zeroStake : Coins := [⟨"stake", 0⟩]

/-- A fee that is neither zero nor well-formed: a negative amount. -/
def minusOneStake : Coins := [⟨"stake", -1⟩]

/-! ## The delegated-authorization subsystem

The grant store and the grant manager (`x/authz`) are not among the translated
files; only their tests are. The definitions below follow sections 3 and 4 of
the specification. -/

namespace Authz

/-- Modelled from the spec: the account address type of `x/authz`, which is
declared outside the translated files. An address is what the address codec
(an external collaborator) hands to the grant manager; it is kept in its string
form, which is never empty. -/
structure Address where
  str : String
  nonempty : str ≠ ""
deriving DecidableEq

/-- Modelled from the spec: the entity `Grant` of section 3, missing from the
translated files: an authorization and an optional expiration timestamp. -/
structure Grant (A : Type) where
  authorization : A
  expiration : Option Nat
deriving DecidableEq

/-- Modelled from the spec: the entity `GrantKey` of section 3:
`(granter, grantee, messageType)`. -/
abbrev GrantKey := Address × Address × String

/-- Modelled from the spec: the entity `ExpirationIndexEntry` of section 3:
`(expiration, granter, grantee, messageType)`. -/
structure ExpirationIndexEntry where
  expiration : Nat
  granter : Address
  grantee : Address
  messageType : String
deriving DecidableEq

/-- Modelled from the spec: the grant key `(granter, grantee, messageType)` that an
expiration-index entry of section 3 points to. -/
def ExpirationIndexEntry.key (e : ExpirationIndexEntry) : GrantKey :=
  (e.granter, e.grantee, e.messageType)

/-- Modelled from the spec: the Grant Store of section 4.2, missing from the
translated files: the mapping from grant keys to grants (at most one grant per
key) and the secondary index of expirations, kept in ascending order. -/
structure GrantStore (A : Type) where
  grants : List (GrantKey × Grant A)
  expirationIndex : List ExpirationIndexEntry
deriving DecidableEq

/-- Modelled from the spec: `get(key) → optional grant` of section 4.2. -/
def GrantStore.get {A : Type} (st : GrantStore A) (key : GrantKey) : Option (Grant A) :=
  st.grants.lookup key

/-- Modelled from the spec: `put(key, grant)` of section 4.2; a grant already
stored under the key is replaced. -/
def GrantStore.put {A : Type} (st : GrantStore A) (key : GrantKey) (g : Grant A) :
    GrantStore A :=
  { st with grants := (key, g) :: st.grants.filter (fun kv => kv.1 != key) }

/-- Modelled from the spec: `delete(key)` of section 4.2. -/
def GrantStore.delete {A : Type} (st : GrantStore A) (key : GrantKey) : GrantStore A :=
  { st with grants := st.grants.filter (fun kv => kv.1 != key) }

/-- Modelled from the spec: insertion into the secondary index of section 3,
which is "sorted by expiration". -/
def insertByExpiration (e : ExpirationIndexEntry) :
    List ExpirationIndexEntry → List ExpirationIndexEntry
  | [] => [e]
  | x :: xs => if e.expiration ≤ x.expiration then e :: x :: xs else x :: insertByExpiration e xs

/-- Modelled from the spec: writing the expiration-index entry of a key
(section 4.3, Grant). -/
def GrantStore.writeIndexEntry {A : Type} (st : GrantStore A) (key : GrantKey)
    (expiration : Nat) : GrantStore A :=
  { st with expirationIndex :=
      insertByExpiration ⟨expiration, key.1, key.2.1, key.2.2⟩ st.expirationIndex }

/-- Modelled from the spec: removing the expiration-index entry of a key "if
one exists" (section 4.3, Revoke). -/
def GrantStore.removeIndexEntry {A : Type} (st : GrantStore A) (key : GrantKey) :
    GrantStore A :=
  { st with expirationIndex := st.expirationIndex.filter (fun e => e.key != key) }

/-- Modelled from the spec: "delete the Grant (and index entry)" of section 4.3. -/
def GrantStore.deleteGrant {A : Type} (st : GrantStore A) (key : GrantKey) : GrantStore A :=
  (st.delete key).removeIndexEntry key

/-- Modelled from the spec: the store step of Grant in section 4.3. The new
grant "fully replaces the prior one" (section 3): the index entry of a grant
previously stored under the key is removed, the grant is put, and if an
expiration is present its index entry is written. -/
def GrantStore.saveGrant {A : Type} (st : GrantStore A) (key : GrantKey) (g : Grant A) :
    GrantStore A :=
  match g.expiration with
  | some e => ((st.removeIndexEntry key).put key g).writeIndexEntry key e
  | none => (st.removeIndexEntry key).put key g

/-- Modelled from the spec: the result of `Accept` in section 4.1:
`{allow, consumeGrant, updatedCapability}`. -/
structure Decision (A : Type) where
  allow : Bool
  consumeGrant : Bool
  updatedCapability : Option A
deriving DecidableEq

/-- Modelled from the spec: what the grant manager consumes of messages and
capabilities, all declared outside the translated files. For a message: its
type and the address it designates as signer (section 4.3, Exec, step 2). For
a capability of any variant: the contract of section 4.1, `MessageType`,
`ValidateBasic` (true when the constraints are consistent) and the pure
decision function `Accept`. `isGrantManagement` tells the message types of
grant management (grant and revoke of capabilities). -/
structure Registry (M A : Type) where
  typeOf : M → String
  signerOf : M → Address
  MessageType : A → String
  ValidateBasic : A → Bool
  Accept : A → M → Decision A
  isGrantManagement : String → Bool

/-- Modelled from the spec: the message router of section 6, an external
collaborator: `dispatch(message) → result or failure`, acting on a state `R`
of its own. -/
structure Router (R M : Type) where
  dispatch : R → M → Except Err R

/-- Modelled from the spec: the error taxonomy of sections 4.3 and 7 for the
grant manager; `DispatchFailed` carries the failure of the message router. -/
inductive AuthzError where
  | InvalidGrantee
  | ValidationFailed
  | ExpirationInPast
  | DisallowedTarget
  | NotFound
  | Expired
  | Denied
  | DisallowedNested
  | EmptyGrantee
  | EmptyMessages
  | DispatchFailed (cause : Err)
deriving DecidableEq

/-- Modelled from the spec: the text of each error, declared outside the
translated files. The texts are those `msg_server_test.go` expects; for the
kinds the tests do not exercise, the name the specification gives the kind. -/
def AuthzError.message : AuthzError → String
  | .InvalidGrantee => "grantee and granter should be different"
  | .ValidationFailed => "ValidationFailed"
  | .ExpirationInPast => "expiration must be after the current block time"
  | .DisallowedTarget => "authz msgGrant is not allowed"
  | .NotFound => "authorization not found"
  | .Expired => "Expired"
  | .Denied => "Denied"
  | .DisallowedNested => "DisallowedNested"
  | .EmptyGrantee => "empty address string is not allowed"
  | .EmptyMessages => "messages cannot be empty"
  | .DispatchFailed cause => cause.Error

/-- Modelled from the spec: "`grant.expiration` is present and has passed"
(section 4.3, Exec, step 2) at block time `now`. -/
def Grant.expired {A : Type} (g : Grant A) (now : Nat) : Bool :=
  match g.expiration with
  | some e => decide (e < now)
  | none => false

namespace GrantManager

/-- Modelled from the spec: the operation Grant of section 4.3, missing from
the translated files. In the order of the spec: `granter != grantee`,
`ValidateBasic`, the expiration strictly in the future or absent, the
capability not targeting a grant-management message type; then the store
step. -/
def Grant {M A : Type} (reg : Registry M A) (st : GrantStore A) (now : Nat)
    (granter grantee : Address) (authorization : A) (expiration : Option Nat) :
    Except AuthzError (GrantStore A) :=
  if granter = grantee then .error .InvalidGrantee
  else if !reg.ValidateBasic authorization then .error .ValidationFailed
  else if (match expiration with
      | some e => !decide (now < e)
      | none => false) then .error .ExpirationInPast
  else if reg.isGrantManagement (reg.MessageType authorization) then .error .DisallowedTarget
  else .ok (st.saveGrant (granter, grantee, reg.MessageType authorization)
    ⟨authorization, expiration⟩)

/-- Modelled from the spec: step 2 of Exec in section 4.3 for one message.
A message whose signer is the grantee is self-executed and always allowed.
Otherwise the grant under `(granter, grantee, typeOf m)` is looked up
(`NotFound`), checked for expiry (`Expired`) and asked to `Accept` (`Denied`);
it is deleted when the decision consumes it, else overwritten with the updated
capability under the same expiration when there is one; and a message of a
grant-management type is rejected (`DisallowedNested`). -/
def authorizeMsg {M A : Type} (reg : Registry M A) (now : Nat) (grantee : Address)
    (st : GrantStore A) (m : M) : Except AuthzError (GrantStore A) :=
  let granter := reg.signerOf m
  if granter = grantee then .ok st
  else
    let key : GrantKey := (granter, grantee, reg.typeOf m)
    match st.get key with
    | none => .error .NotFound
    | some grant =>
      if grant.expired now then .error .Expired
      else
        let decision := reg.Accept grant.authorization m
        if !decision.allow then .error .Denied
        else
          let st1 :=
            if decision.consumeGrant then st.deleteGrant key
            else match decision.updatedCapability with
              | some a => st.put key { grant with authorization := a }
              | none => st
          if reg.isGrantManagement (reg.typeOf m) then .error .DisallowedNested
          else .ok st1

/-- Modelled from the spec: step 2 of Exec for the whole batch, "for each
message in order". -/
def authorizeAll {M A : Type} (reg : Registry M A) (now : Nat) (grantee : Address) :
    GrantStore A → List M → Except AuthzError (GrantStore A)
  | st, [] => .ok st
  | st, m :: ms =>
    match authorizeMsg reg now grantee st m with
    | .error e => .error e
    | .ok st1 => authorizeAll reg now grantee st1 ms

/-- Modelled from the spec: step 3 of Exec, the external execution "one
message at a time, via the message router", stopping at the first failure.
The second component lists the messages handed to the router. -/
def dispatchAll {R M : Type} (router : Router R M) : R → List M → Except Err R × List M
  | r, [] => (.ok r, [])
  | r, m :: ms =>
    match router.dispatch r m with
    | .error e => (.error e, [m])
    | .ok r1 => ((dispatchAll router r1 ms).1, m :: (dispatchAll router r1 ms).2)

/-- Modelled from the spec: the outcome of Exec (section 4.3): the error if
any, the grant store and the router state that stand after the call, and the
messages handed to the router. -/
structure ExecOut (R M A : Type) where
  err : Option AuthzError
  store : GrantStore A
  router : R
  dispatched : List M

/-- Modelled from the spec: the operation Exec of section 4.3, missing from
the translated files. Step 1 rejects an empty grantee, then an empty batch;
step 2 authorizes every message in order; only then step 3 dispatches them.
The call is all-or-nothing: on any failure the grant store and the router
state it was given stand. -/
def Exec {R M A : Type} (reg : Registry M A) (router : Router R M) (st : GrantStore A) (r : R)
    (now : Nat) (grantee : String) (msgs : List M) : ExecOut R M A :=
  if h : grantee = "" then ⟨some .EmptyGrantee, st, r, []⟩
  else if msgs.isEmpty then ⟨some .EmptyMessages, st, r, []⟩
  else
    match authorizeAll reg now ⟨grantee, h⟩ st msgs with
    | .error e => ⟨some e, st, r, []⟩
    | .ok st1 =>
      match dispatchAll router r msgs with
      | (.error e, sent) => ⟨some (.DispatchFailed e), st, r, sent⟩
      | (.ok r1, sent) => ⟨none, st1, r1, sent⟩

end GrantManager

/-- Modelled from the spec: `iterateByGranter(granter)` of section 4.2, the
grants stored under a granter with their keys. -/
def GrantStore.iterateByGranter {A : Type} (st : GrantStore A) (granter : Address) :
    List (GrantKey × Grant A) :=
  st.grants.filter (fun kv => kv.1.1 == granter)

/-- Modelled from the spec: `iterateByGrantee(grantee)` of section 4.2. -/
def GrantStore.iterateByGrantee {A : Type} (st : GrantStore A) (grantee : Address) :
    List (GrantKey × Grant A) :=
  st.grants.filter (fun kv => kv.1.2.1 == grantee)

/-- Modelled from the spec: `iterateExpiring(upTo)` of section 4.2, the keys of
the index entries whose expiration is at most `upTo`, in index order. -/
def GrantStore.iterateExpiring {A : Type} (st : GrantStore A) (upTo : Nat) : List GrantKey :=
  (st.expirationIndex.filter (fun e => decide (e.expiration ≤ upTo))).map
    ExpirationIndexEntry.key

/-- Modelled from the spec: deleting the grant and the index entry of every key
of a list, one key after the other (section 4.3, RevokeAll and
PruneExpiredGrants). -/
def GrantStore.deleteGrants {A : Type} (st : GrantStore A) (keys : List GrantKey) :
    GrantStore A :=
  keys.foldl (fun s key => s.deleteGrant key) st

/-- Modelled from the spec: the secondary index agrees with the grants, as it
does in every store the grant manager writes: each index entry points to a
stored grant with that expiration, and each stored grant with an expiration
has its index entry. -/
def GrantStore.Indexed {A : Type} (st : GrantStore A) : Prop :=
  (∀ e ∈ st.expirationIndex, ∃ g, st.get e.key = some g ∧ g.expiration = some e.expiration) ∧
  (∀ (key : GrantKey) (g : Grant A) (exp : Nat), st.get key = some g →
    g.expiration = some exp →
    (⟨exp, key.1, key.2.1, key.2.2⟩ : ExpirationIndexEntry) ∈ st.expirationIndex)

namespace GrantManager

/-- Modelled from the spec: "all-or-nothing per call" (section 4.3): the store
that stands after an operation is its result when it succeeds and the store it
was given when it fails. -/
def storeAfter {A : Type} (st : GrantStore A) (res : Except AuthzError (GrantStore A)) :
    GrantStore A :=
  match res with
  | .ok st1 => st1
  | .error _ => st

/-- Modelled from the spec: the operation Revoke of section 4.3, missing from
the translated files: `NotFound` if no grant is stored under the key, else the
grant is deleted and its index entry removed. -/
def Revoke {A : Type} (st : GrantStore A) (granter grantee : Address) (messageType : String) :
    Except AuthzError (GrantStore A) :=
  match st.get (granter, grantee, messageType) with
  | none => .error .NotFound
  | some _ => .ok (st.deleteGrant (granter, grantee, messageType))

/-- Modelled from the spec: the operation RevokeAll of section 4.3, missing
from the translated files: the grants under the granter are enumerated;
`NotFound` if there is none, otherwise every one of them is deleted with its
index entry. -/
def RevokeAll {A : Type} (st : GrantStore A) (granter : Address) :
    Except AuthzError (GrantStore A) :=
  let matched := st.iterateByGranter granter
  if matched.isEmpty then .error .NotFound
  else .ok (st.deleteGrants (matched.map Prod.fst))

/-- Modelled from the spec: the operation PruneExpiredGrants of section 4.3,
missing from the translated files: every key of `iterateExpiring(asOf)` has its
grant and its index entry deleted. The pruner is not used: any caller is
permitted. -/
def PruneExpiredGrants {A : Type} (st : GrantStore A) (asOf : Nat) (_pruner : String) :
    GrantStore A :=
  st.deleteGrants (st.iterateExpiring asOf)

end GrantManager

/-! ### The capability variants named by the specification -/

/-- Modelled from the spec: a message as the capabilities below see it, the
message types being declared outside the translated files: its type URL, the
address it designates as signer (the sender of a transfer), and for a value
transfer the recipient and the amount. -/
structure Message where
  typeURL : String
  signer : Address
  toAddress : Address
  amount : Coins
deriving DecidableEq

/-- Modelled from the spec: the type URL of the value-transfer message, the
constant `bankSendAuthMsgType` that `msg_server_test.go` uses and that is
declared outside the translated files. -/
def bankSendAuthMsgType : String := "/cosmos.bank.v1beta1.MsgSend"

/-- Modelled from the spec: the type URLs of the grant-management messages
("grant/revoke of authorization capabilities", section 3), declared outside
the translated files. -/
def grantManagementTypes : List String :=
  ["/cosmos.authz.v1beta1.MsgGrant", "/cosmos.authz.v1beta1.MsgRevoke"]

/-- Modelled from the spec: the capability variants of section 3, missing from
the translated files: the generic one ("allow any call matching the type
URL") and the value-transfer one with a running spend limit and an optional
allow-list of recipients. -/
inductive Authorization where
  | generic (msgType : String)
  | send (spendLimit : Coins) (allowList : List Address)
deriving DecidableEq

/-- Modelled from the spec: the total amount a coin set holds of one
denomination, for the running limit of the value-transfer capability. -/
def coinsAmountOf (c : Coins) (denom : String) : Int :=
  ((c.filter (fun x => x.Denom == denom)).map Coin.Amount).sum

/-- Modelled from the spec: the "decremented running limit" of section 3, what
is left of a limit after an amount is spent, denomination by denomination. -/
def coinsSub (limit amt : Coins) : Coins :=
  limit.map (fun c => ⟨c.Denom, c.Amount - coinsAmountOf amt c.Denom⟩)

/-- Modelled from the spec: the running limit covers an amount when every
denomination spent occurs in the limit and nothing is left negative. -/
def coinsCovers (limit amt : Coins) : Bool :=
  amt.all (fun c => limit.any (fun l => l.Denom == c.Denom)) &&
    (coinsSub limit amt).all (fun c => decide (0 ≤ c.Amount))

/-- Modelled from the spec: `Accept` of the value-transfer capability, missing
from the translated files. A transfer is allowed when its recipient is on the
allow-list (an empty list allows every recipient) and the running limit covers
its amount. A limit fully consumed consumes the grant; otherwise the
capability is updated with the reduced limit. -/
def acceptSend (spendLimit : Coins) (allowList : List Address) (m : Message) :
    Decision Authorization :=
  if m.typeURL != bankSendAuthMsgType then ⟨false, false, none⟩
  else if !(allowList.isEmpty || allowList.contains m.toAddress) then ⟨false, false, none⟩
  else if !coinsCovers spendLimit m.amount then ⟨false, false, none⟩
  else if coinsIsZero (coinsSub spendLimit m.amount) then ⟨true, true, none⟩
  else ⟨true, false, some (.send (coinsSub spendLimit m.amount) allowList)⟩

/-- Modelled from the spec: the capability contract of section 4.1 for the two
variants. The generic capability allows any call matching its type URL; a
value-transfer capability is consistent when its limit is a well-formed coin
set. -/
def bankRegistry : Registry Message Authorization :=
  { typeOf := fun m => m.typeURL
    signerOf := fun m => m.signer
    MessageType := fun a =>
      match a with
      | .generic t => t
      | .send _ _ => bankSendAuthMsgType
    ValidateBasic := fun a =>
      match a with
      | .generic _ => true
      | .send limit _ => coinsIsValid limit
    Accept := fun a m =>
      match a with
      | .generic t => ⟨m.typeURL == t, false, none⟩
      | .send limit allowList => acceptSend limit allowList m
    isGrantManagement := fun t => grantManagementTypes.contains t }

/-! ### A concrete instance -/

def granterA : Address := ⟨"cosmos1granter", by decide⟩
def granteeB : Address := ⟨"cosmos1grantee", by decide⟩

def emptyStore : GrantStore Authorization := ⟨[], []⟩

def tenSteak : Coins := [⟨"steak", 10⟩]

/-- The transfer of the test: ten steak from the granter to the grantee. -/
def sendTenSteak : Message := ⟨bankSendAuthMsgType, granterA, granteeB, tenSteak⟩

/-- A router that executes every message, keeping a log of them. -/
def logRouter : Router (List Message) Message :=
  { dispatch := fun r m => .ok (r ++ [m]) }

/-- A router in which every transfer fails for lack of funds. -/
def brokeRouter : Router (List Message) Message :=
  { dispatch := fun _ _ => .error (.wrap ErrInsufficientFunds "spendable balance") }

/-- The store after the grant of the test: a send authorization of ten steak
from the granter to the grantee, with no expiration. -/
def storeWithSendGrant : GrantStore Authorization :=
  emptyStore.saveGrant (granterA, granteeB, bankSendAuthMsgType) ⟨.send tenSteak [], none⟩

/-- The second account of the tests, as a granter. -/
def granterC : Address := ⟨"cosmos1other", by decide⟩

/-- The store of the prune test: at block time 100 two send authorizations
are granted, each expiring at 160. -/
def storeWithExpiringGrants : GrantStore Authorization :=
  (emptyStore.saveGrant (granterA, granteeB, bankSendAuthMsgType)
      ⟨.send tenSteak [], some 160⟩).saveGrant
    (granteeB, granterA, bankSendAuthMsgType) ⟨.send tenSteak [], some 160⟩

end Authz

/-! ## The circuit keeper (`x/circuit/keeper/keeper.go`) -/

namespace Circuit

/-- Modelled from the spec: the underlying keyed byte-store, an external
collaborator declared outside the translated file (`storetypes.KVStore`): a
mapping from byte keys to byte values, absent where it is `none`. -/
abbrev KVStore := List Byte → Option (List Byte)

/-- The store with no entry. -/
def KVStore.empty : KVStore := fun _ => none

/-- Modelled from the spec: `store.Get(key)` of the keyed byte-store; nil for an
absent key. -/
def KVStore.Get (store : KVStore) (key : List Byte) : Bytes := store key

/-- Modelled from the spec: `store.Has(key)` of the keyed byte-store. -/
def KVStore.Has (store : KVStore) (key : List Byte) : Bool := (store key).isSome

/-- Modelled from the spec: `store.Set(key, value)` of the keyed byte-store. -/
def KVStore.Set (store : KVStore) (key value : List Byte) : KVStore :=
  fun k => if k = key then some value else store k

/-- Modelled from the spec: `store.Delete(key)` of the keyed byte-store. -/
def KVStore.Delete (store : KVStore) (key : List Byte) : KVStore :=
  fun k => if k = key then none else store k

/-- The codec `codec.Codec` as the keeper uses it on `types.Permissions`, both
declared outside the translated file and taken as parameters: `Marshal`, and
`Unmarshal` of a byte slice into a fresh value. -/
structure Codec (P : Type) where
  Marshal : P → Except Err (List Byte)
  Unmarshal : Bytes → Except Err P

/-- The key constructors `types.CreateAddressPrefix` and
`types.CreateDisableMsgPrefix`, declared outside the translated file and taken
as parameters. -/
structure KeyPrefixes where
  CreateAddressPrefix : List Byte → List Byte
  CreateDisableMsgPrefix : String → List Byte

/-- The struct `Keeper`; the store behind `key` is passed to each method. -/
structure Keeper (P : Type) where
  cdc : Codec P
  authority : Bytes

/-- The constructor `NewKeeper`. -/
def NewKeeper {P : Type} (cdc : Codec P) (authority : Bytes) : Keeper P :=
  { cdc := cdc, authority := authority }

/-- The method `Keeper.GetAuthority`. -/
def Keeper.GetAuthority {P : Type} (k : Keeper P) : Bytes := k.authority

/-- The method `Keeper.GetPermissions` (keeper.go, lines 30-41): the bytes
stored under `address` itself are unmarshalled. -/
def Keeper.GetPermissions {P : Type} (k : Keeper P) (store : KVStore) (address : List Byte) :
    Except Err P :=
  let bz := store.Get address
  match k.cdc.Unmarshal bz with
  | .error err => .error err
  | .ok perms => .ok perms

/-- The method `Keeper.SetPermissions` (keeper.go, lines 43-56): the marshalled
permissions are stored under `CreateAddressPrefix(address)`. -/
def Keeper.SetPermissions {P : Type} (keys : KeyPrefixes) (k : Keeper P) (store : KVStore)
    (address : List Byte) (perms : P) : Except Err KVStore :=
  match k.cdc.Marshal perms with
  | .error err => .error err
  | .ok bz =>
    let key := keys.CreateAddressPrefix address
    .ok (store.Set key bz)

/-- The method `Keeper.IsMsgDisabled` (keeper.go, lines 58-61). -/
def Keeper.IsMsgDisabled (keys : KeyPrefixes) (store : KVStore) (msgURL : String) : Bool :=
  store.Has (keys.CreateDisableMsgPrefix msgURL)

/-- The method `Keeper.DisableMsg` (keeper.go, lines 63-65). -/
def Keeper.DisableMsg (keys : KeyPrefixes) (store : KVStore) (msgURL : String) : KVStore :=
  store.Set (keys.CreateDisableMsgPrefix msgURL) []

/-- The method `Keeper.EnableMsg` (keeper.go, lines 67-69). -/
def Keeper.EnableMsg (keys : KeyPrefixes) (store : KVStore) (msgURL : String) : KVStore :=
  store.Delete (keys.CreateDisableMsgPrefix msgURL)

/-! ### A concrete instance -/

/-- A permissions value: a level and an encoded list of message types. -/
structure DemoPermissions where
  Level : Byte
  Limit : List Byte
deriving DecidableEq, Repr

/-- A codec that writes the level followed by the limit and reads them back;
an empty or nil slice decodes to the zero value. -/
def demoCodec : Codec DemoPermissions :=
  { Marshal := fun p => .ok (p.Level :: p.Limit)
    Unmarshal := fun bz =>
      match bz with
      | some (l :: rest) => .ok ⟨l, rest⟩
      | _ => .ok ⟨0, []⟩ }

/-- Key constructors that put a one-byte prefix in front: 1 for the
permissions of an address, 2 for a disabled message type. -/
def demoPrefixes : KeyPrefixes :=
  { CreateAddressPrefix := fun address => 1 :: address
    CreateDisableMsgPrefix := fun msgURL => 2 :: msgURL.toList.map (fun ch => Fin.ofNat ch.toNat) }

def demoKeeper : Keeper DemoPermissions := NewKeeper demoCodec none

end Circuit

end CosmosSDK

/-! ## Shared facts about the fee step -/

namespace CosmosSDK

variable {S : Type}

/-- `DeductFees` on a fee that fails `IsValid`: the invalid-fee error, no call. -/
theorem DeductFees_of_invalid (T : Types) (bk : BankKeeper S) (s : S) (ctx : Context)
    (acc : Bytes) (fees : Coins) (hv : T.IsValid fees = false) :
    DeductFees T bk s ctx acc fees =
      ⟨some (.wrap ErrInsufficientFee ("invalid fee amount: " ++ T.CoinsString fees)), s, []⟩ := by
  simp [DeductFees, hv]

/-- `DeductFees` on a fee that passes `IsValid`: one bank call, whose error (if
any) comes back wrapped. -/
theorem DeductFees_of_valid (T : Types) (bk : BankKeeper S) (s : S) (ctx : Context)
    (acc : Bytes) (fees : Coins) (hv : T.IsValid fees = true) :
    DeductFees T bk s ctx acc fees =
      ⟨(bk.SendCoinsFromAccountToModule s ctx acc T.FeeCollectorName fees).1.map
          (fun e => Err.wrap e "failed to deduct fees"),
        (bk.SendCoinsFromAccountToModule s ctx acc T.FeeCollectorName fees).2,
        [.SendCoinsFromAccountToModule ctx acc T.FeeCollectorName fees
          (bk.SendCoinsFromAccountToModule s ctx acc T.FeeCollectorName fees).1]⟩ := by
  simp only [DeductFees, hv, Bool.not_true, Bool.false_eq_true, if_false]
  rcases h : bk.SendCoinsFromAccountToModule s ctx acc T.FeeCollectorName fees with ⟨e, s1⟩
  cases e <;> simp

/-- The three ways `deductAndEmit` can run on a non-zero fee, and the zero-fee case. -/
theorem deductAndEmit_eq (T : Types) (dfd : DeductFeeDecorator S) (s : S) (ctx : Context)
    (fee : Coins) (acct : Bytes) :
    deductAndEmit T dfd s ctx fee acct =
      if T.IsZero fee then ⟨none, s, [.EmitEvents [feeEvent T fee acct]]⟩
      else if T.IsValid fee then
        match dfd.bankKeeper.SendCoinsFromAccountToModule s ctx acct T.FeeCollectorName fee with
        | (some e, s1) =>
          ⟨some (.wrap e "failed to deduct fees"), s1,
            [.SendCoinsFromAccountToModule ctx acct T.FeeCollectorName fee (some e)]⟩
        | (none, s1) =>
          ⟨none, s1, [.SendCoinsFromAccountToModule ctx acct T.FeeCollectorName fee none,
            .EmitEvents [feeEvent T fee acct]]⟩
      else ⟨some (.wrap ErrInsufficientFee ("invalid fee amount: " ++ T.CoinsString fee)), s, []⟩ := by
  unfold deductAndEmit
  cases hz : T.IsZero fee
  · cases hv : T.IsValid fee
    · simp [DeductFees, hv]
    · simp only [DeductFees, hv]
      rcases h : dfd.bankKeeper.SendCoinsFromAccountToModule s ctx acct T.FeeCollectorName fee
        with ⟨e, s1⟩
      cases e <;> simp
  · simp

/-- `checkDeductFee` on a transaction without the `FeeTx` fields. -/
theorem checkDeductFee_of_not_feeTx (T : Types) (dfd : DeductFeeDecorator S) (s : S)
    (ctx : Context) (tx : Tx) (fee : Coins) (htx : tx.feeTx = none) :
    checkDeductFee T dfd s ctx tx fee =
      ⟨some (.wrap ErrTxDecode "Tx must implement the FeeTx interface"), s, []⟩ := by
  simp [checkDeductFee, htx]

/-- `checkDeductFee` when the fee-collector module account has no address. -/
theorem checkDeductFee_of_no_collector (T : Types) (dfd : DeductFeeDecorator S) (s : S)
    (ctx : Context) (tx : Tx) (fee : Coins) (f : FeeTx) (htx : tx.feeTx = some f)
    (hcol : (dfd.accountKeeper.GetModuleAddress T.FeeCollectorName).len = 0) :
    checkDeductFee T dfd s ctx tx fee =
      ⟨some (.errorf ("fee collector module account (" ++ T.FeeCollectorName ++
          ") has not been set")), s, [.GetModuleAddress T.FeeCollectorName]⟩ := by
  simp [checkDeductFee, htx, hcol]

/-- `checkDeductFee` when no fee granter is named: deduct from the payer. -/
theorem checkDeductFee_of_no_granter (T : Types) (dfd : DeductFeeDecorator S) (s : S)
    (ctx : Context) (tx : Tx) (fee : Coins) (f : FeeTx) (htx : tx.feeTx = some f)
    (hcol : (dfd.accountKeeper.GetModuleAddress T.FeeCollectorName).len ≠ 0)
    (hg : f.FeeGranter = none) :
    checkDeductFee T dfd s ctx tx fee =
      (deductAndEmit T dfd s ctx fee f.FeePayer).after [.GetModuleAddress T.FeeCollectorName] := by
  simp [checkDeductFee, htx, hcol, hg]

/-- `checkDeductFee` when a granter is named and no fee-grant keeper is configured. -/
theorem checkDeductFee_of_grants_disabled (T : Types) (dfd : DeductFeeDecorator S) (s : S)
    (ctx : Context) (tx : Tx) (fee : Coins) (f : FeeTx) (g : List Byte)
    (htx : tx.feeTx = some f)
    (hcol : (dfd.accountKeeper.GetModuleAddress T.FeeCollectorName).len ≠ 0)
    (hg : f.FeeGranter = some g) (hk : dfd.feegrantKeeper = none) :
    checkDeductFee T dfd s ctx tx fee =
      ⟨some (.wrap ErrInvalidRequest "fee grants are not enabled"), s,
        [.GetModuleAddress T.FeeCollectorName]⟩ := by
  simp [checkDeductFee, htx, hcol, hg, hk]

/-- `checkDeductFee` when the named granter is byte-equal to the payer. -/
theorem checkDeductFee_of_granter_eq_payer (T : Types) (dfd : DeductFeeDecorator S) (s : S)
    (ctx : Context) (tx : Tx) (fee : Coins) (f : FeeTx) (g : List Byte)
    (fk : FeegrantKeeper S) (htx : tx.feeTx = some f)
    (hcol : (dfd.accountKeeper.GetModuleAddress T.FeeCollectorName).len ≠ 0)
    (hg : f.FeeGranter = some g) (hk : dfd.feegrantKeeper = some fk)
    (heq : bytesEqual (some g) f.FeePayer = true) :
    checkDeductFee T dfd s ctx tx fee =
      (deductAndEmit T dfd s ctx fee (some g)).after [.GetModuleAddress T.FeeCollectorName] := by
  simp [checkDeductFee, htx, hcol, hg, hk, heq]

/-- `checkDeductFee` when the granter differs from the payer and the fee-grant
keeper rejects. -/
theorem checkDeductFee_of_grant_rejected (T : Types) (dfd : DeductFeeDecorator S) (s : S)
    (ctx : Context) (tx : Tx) (fee : Coins) (f : FeeTx) (g : List Byte)
    (fk : FeegrantKeeper S) (err : Err) (s1 : S) (htx : tx.feeTx = some f)
    (hcol : (dfd.accountKeeper.GetModuleAddress T.FeeCollectorName).len ≠ 0)
    (hg : f.FeeGranter = some g) (hk : dfd.feegrantKeeper = some fk)
    (hne : bytesEqual (some g) f.FeePayer = false)
    (hr : fk.UseGrantedFees s ctx (some g) f.FeePayer fee tx.GetMsgs = (some err, s1)) :
    checkDeductFee T dfd s ctx tx fee =
      ⟨some (grantDeniedError dfd.accountKeeper err (some g) f.FeePayer).1, s1,
        [.GetModuleAddress T.FeeCollectorName,
         .UseGrantedFees ctx (some g) f.FeePayer fee tx.GetMsgs (some err)] ++
          (grantDeniedError dfd.accountKeeper err (some g) f.FeePayer).2⟩ := by
  simp [checkDeductFee, htx, hcol, hg, hk, hne, hr]

/-- `checkDeductFee` when the granter differs from the payer and the fee-grant
keeper accepts. -/
theorem checkDeductFee_of_grant_accepted (T : Types) (dfd : DeductFeeDecorator S) (s : S)
    (ctx : Context) (tx : Tx) (fee : Coins) (f : FeeTx) (g : List Byte)
    (fk : FeegrantKeeper S) (s1 : S) (htx : tx.feeTx = some f)
    (hcol : (dfd.accountKeeper.GetModuleAddress T.FeeCollectorName).len ≠ 0)
    (hg : f.FeeGranter = some g) (hk : dfd.feegrantKeeper = some fk)
    (hne : bytesEqual (some g) f.FeePayer = false)
    (hr : fk.UseGrantedFees s ctx (some g) f.FeePayer fee tx.GetMsgs = (none, s1)) :
    checkDeductFee T dfd s ctx tx fee =
      (deductAndEmit T dfd s1 ctx fee (some g)).after
        [.GetModuleAddress T.FeeCollectorName,
         .UseGrantedFees ctx (some g) f.FeePayer fee tx.GetMsgs none] := by
  simp [checkDeductFee, htx, hcol, hg, hk, hne, hr]

/-- The codec calls made while building the grant-denied error are
`BytesToString` calls, and the error wraps the keeper's error. -/
theorem grantDeniedError_spec (ak : AccountKeeper) (err : Err) (a b : Bytes) :
    (∃ msg, (grantDeniedError ak err a b).1 = .wrap err msg) ∧
    (∀ c ∈ (grantDeniedError ak err a b).2, ∃ bz, c = .BytesToString bz) := by
  unfold grantDeniedError
  cases ak.BytesToString a with
  | error e => simp
  | ok x =>
    cases ak.BytesToString b with
    | error e => simp
    | ok y => simp

/-- Every call made by lines 116-133 is the bank transfer of `fee` from
`acct` to the fee collector, or the emission of the fee event. -/
theorem deductAndEmit_trace_mem (T : Types) (dfd : DeductFeeDecorator S) (s : S) (ctx : Context)
    (fee : Coins) (acct : Bytes) (c : Call)
    (hc : c ∈ (deductAndEmit T dfd s ctx fee acct).trace) :
    (∃ r, c = .SendCoinsFromAccountToModule ctx acct T.FeeCollectorName fee r) ∨
    c = .EmitEvents [feeEvent T fee acct] := by
  rw [deductAndEmit_eq] at hc
  split at hc
  · simp at hc; exact Or.inr hc
  · split at hc
    · split at hc
      · simp at hc; exact Or.inl ⟨_, hc⟩
      · simp at hc
        rcases hc with h | h
        · exact Or.inl ⟨_, h⟩
        · exact Or.inr h
    · simp at hc

/-- Every call made by `checkDeductFee` is one of: the module-address lookup;
`UseGrantedFees` on (granter, payer, `fee`, the messages of the transaction);
an address-codec call; the bank transfer of `fee` from the resolved account to
the fee collector; the emission of the fee event for `fee` and that account. -/
theorem checkDeductFee_trace_mem (T : Types) (dfd : DeductFeeDecorator S) (s : S)
    (ctx : Context) (tx : Tx) (fee : Coins) (c : Call)
    (hc : c ∈ (checkDeductFee T dfd s ctx tx fee).trace) :
    ∃ f, tx.feeTx = some f ∧
      (c = .GetModuleAddress T.FeeCollectorName ∨
       (∃ r, c = .UseGrantedFees ctx f.FeeGranter f.FeePayer fee tx.GetMsgs r) ∨
       (∃ bz, c = .BytesToString bz) ∨
       (∃ r, c = .SendCoinsFromAccountToModule ctx (deductFeesFrom f) T.FeeCollectorName fee r) ∨
       c = .EmitEvents [feeEvent T fee (deductFeesFrom f)]) := by
  cases htx : tx.feeTx with
  | none => rw [checkDeductFee_of_not_feeTx T dfd s ctx tx fee htx] at hc; simp at hc
  | some f =>
    refine ⟨f, rfl, ?_⟩
    by_cases hcol : (dfd.accountKeeper.GetModuleAddress T.FeeCollectorName).len = 0
    · rw [checkDeductFee_of_no_collector T dfd s ctx tx fee f htx hcol] at hc
      simp at hc; exact Or.inl hc
    · cases hg : f.FeeGranter with
      | none =>
        rw [checkDeductFee_of_no_granter T dfd s ctx tx fee f htx hcol hg] at hc
        simp only [Out.after, List.mem_append, List.mem_singleton] at hc
        rcases hc with h | h
        · exact Or.inl h
        · have hd : deductFeesFrom f = f.FeePayer := by simp [deductFeesFrom, hg]
          rw [hd]
          rcases deductAndEmit_trace_mem T dfd s ctx fee _ c h with h1 | h1
          · exact Or.inr (Or.inr (Or.inr (Or.inl h1)))
          · exact Or.inr (Or.inr (Or.inr (Or.inr h1)))
      | some g =>
        have hd : deductFeesFrom f = some g := by simp [deductFeesFrom, hg]
        rw [hd]
        cases hk : dfd.feegrantKeeper with
        | none =>
          rw [checkDeductFee_of_grants_disabled T dfd s ctx tx fee f g htx hcol hg hk] at hc
          simp at hc; exact Or.inl hc
        | some fk =>
          cases hb : bytesEqual (some g) f.FeePayer with
          | true =>
            rw [checkDeductFee_of_granter_eq_payer T dfd s ctx tx fee f g fk htx hcol hg hk hb] at hc
            simp only [Out.after, List.mem_append, List.mem_singleton] at hc
            rcases hc with h | h
            · exact Or.inl h
            · rcases deductAndEmit_trace_mem T dfd s ctx fee _ c h with h1 | h1
              · exact Or.inr (Or.inr (Or.inr (Or.inl h1)))
              · exact Or.inr (Or.inr (Or.inr (Or.inr h1)))
          | false =>
            rcases hr : fk.UseGrantedFees s ctx (some g) f.FeePayer fee tx.GetMsgs with ⟨e, s1⟩
            cases e with
            | some err =>
              rw [checkDeductFee_of_grant_rejected T dfd s ctx tx fee f g fk err s1 htx hcol hg hk
                hb hr] at hc
              simp only [List.mem_append, List.mem_cons, List.mem_singleton, List.not_mem_nil,
                or_false] at hc
              rcases hc with (h | h) | h
              · exact Or.inl h
              · exact Or.inr (Or.inl ⟨_, h⟩)
              · exact Or.inr (Or.inr (Or.inl ((grantDeniedError_spec _ _ _ _).2 c h)))
            | none =>
              rw [checkDeductFee_of_grant_accepted T dfd s ctx tx fee f g fk s1 htx hcol hg hk
                hb hr] at hc
              simp only [Out.after, List.mem_append, List.mem_cons, List.mem_singleton,
                List.not_mem_nil, or_false] at hc
              rcases hc with (h | h) | h
              · exact Or.inl h
              · exact Or.inr (Or.inl ⟨_, h⟩)
              · rcases deductAndEmit_trace_mem T dfd s1 ctx fee _ c h with h1 | h1
                · exact Or.inr (Or.inr (Or.inr (Or.inl h1)))
                · exact Or.inr (Or.inr (Or.inr (Or.inr h1)))

/-! ## C1: fee granter equal to the payer -/

/-- C1, as stated, fails: with a fee granter set and byte-equal to the payer
and a non-zero valid fee, `checkDeductFee` deducts nothing and returns the
"fee grants are not enabled" error when no fee-grant keeper is configured; and
with a keeper configured it deducts nothing either when the fee-collector
module account has no address. -/
theorem checkDeductFee_granter_eq_payer_no_keeper_fails :
    bytesEqual alice alice = true ∧
    coinsIsZero tenStake = false ∧ coinsIsValid tenStake = true ∧
    demoDecoratorNoGrants.feegrantKeeper.isNone = true ∧
    checkDeductFee demoTypes demoDecoratorNoGrants emptyLedger (demoCtx 5 .Finalize)
        (demoTx 100 tenStake alice alice) tenStake =
      ⟨some (.wrap ErrInvalidRequest "fee grants are not enabled"), emptyLedger,
        [.GetModuleAddress "fee_collector"]⟩ ∧
    bareDecorator.feegrantKeeper.isSome = true ∧
    checkDeductFee demoTypes bareDecorator emptyLedger (demoCtx 5 .Finalize)
        (demoTx 100 tenStake alice alice) tenStake =
      ⟨some (.errorf "fee collector module account (fee_collector) has not been set"),
        emptyLedger, [.GetModuleAddress "fee_collector"]⟩ := by
  exact ⟨by decide, by decide, by decide, rfl, rfl, rfl, rfl⟩

/-- C1 (amended): for a transaction exposing the FeeTx fields whose fee
granter is set and byte-equal to its fee payer, `checkDeductFee` never calls
`UseGrantedFees`. When the fee-collector module account is set and a
fee-grant keeper is configured, it goes straight to the deduction from that
account: it behaves as lines 116-133 run on the granter/payer address, and a
non-zero valid fee is sent from it to the fee collector in one bank call, the
only possible error being the bank's. When the fee-collector module account
is set and no fee-grant keeper is configured, it fails with "fee grants are
not enabled" and makes no transfer. -/
theorem checkDeductFee_granter_eq_payer (T : Types) (dfd : DeductFeeDecorator S) (s : S)
    (ctx : Context) (tx : Tx) (fee : Coins) (f : FeeTx) (g : List Byte)
    (htx : tx.feeTx = some f) (hg : f.FeeGranter = some g)
    (heq : bytesEqual (some g) f.FeePayer = true) :
    (∀ c ∈ (checkDeductFee T dfd s ctx tx fee).trace, c.isUseGrantedFees = false) ∧
    ((dfd.accountKeeper.GetModuleAddress T.FeeCollectorName).len ≠ 0 →
      (∀ fk, dfd.feegrantKeeper = some fk →
        checkDeductFee T dfd s ctx tx fee =
          (deductAndEmit T dfd s ctx fee (some g)).after
            [.GetModuleAddress T.FeeCollectorName] ∧
        (T.IsZero fee = false → T.IsValid fee = true →
          checkDeductFee T dfd s ctx tx fee =
            ⟨(dfd.bankKeeper.SendCoinsFromAccountToModule s ctx (some g)
                T.FeeCollectorName fee).1.map (fun e => Err.wrap e "failed to deduct fees"),
              (dfd.bankKeeper.SendCoinsFromAccountToModule s ctx (some g)
                T.FeeCollectorName fee).2,
              [.GetModuleAddress T.FeeCollectorName,
                .SendCoinsFromAccountToModule ctx (some g) T.FeeCollectorName fee
                  (dfd.bankKeeper.SendCoinsFromAccountToModule s ctx (some g)
                    T.FeeCollectorName fee).1] ++
                match (dfd.bankKeeper.SendCoinsFromAccountToModule s ctx (some g)
                    T.FeeCollectorName fee).1 with
                | none => [.EmitEvents [feeEvent T fee (some g)]]
                | some _ => []⟩)) ∧
      (dfd.feegrantKeeper = none →
        checkDeductFee T dfd s ctx tx fee =
          ⟨some (.wrap ErrInvalidRequest "fee grants are not enabled"), s,
            [.GetModuleAddress T.FeeCollectorName]⟩)) := by
  constructor
  · intro c hc
    obtain ⟨f1, hf1, h⟩ := checkDeductFee_trace_mem T dfd s ctx tx fee c hc
    rw [htx] at hf1
    cases hf1
    rcases h with rfl | ⟨r, rfl⟩ | ⟨bz, rfl⟩ | ⟨r, rfl⟩ | rfl
    · rfl
    · exfalso
      by_cases hcol : (dfd.accountKeeper.GetModuleAddress T.FeeCollectorName).len = 0
      · rw [checkDeductFee_of_no_collector T dfd s ctx tx fee f htx hcol] at hc
        simp at hc
      · cases hk : dfd.feegrantKeeper with
        | none =>
          rw [checkDeductFee_of_grants_disabled T dfd s ctx tx fee f g htx hcol hg hk] at hc
          simp at hc
        | some fk =>
          rw [checkDeductFee_of_granter_eq_payer T dfd s ctx tx fee f g fk htx hcol hg hk heq]
            at hc
          simp only [Out.after, List.mem_append, List.mem_singleton] at hc
          rcases hc with hc | hc
          · cases hc
          · rcases deductAndEmit_trace_mem T dfd s ctx fee _ _ hc with ⟨r1, h1⟩ | h1 <;> cases h1
    · rfl
    · rfl
    · rfl
  · intro hcol
    refine ⟨fun fk hk => ?_,
      fun hk => checkDeductFee_of_grants_disabled T dfd s ctx tx fee f g htx hcol hg hk⟩
    have hE := checkDeductFee_of_granter_eq_payer T dfd s ctx tx fee f g fk htx hcol hg hk heq
    refine ⟨hE, ?_⟩
    intro hz hv
    rw [hE, deductAndEmit_eq]
    simp only [hz, hv, Out.after]
    rcases h : dfd.bankKeeper.SendCoinsFromAccountToModule s ctx (some g) T.FeeCollectorName fee
      with ⟨e, s1⟩
    cases e <;> simp

/-- C1 (amended), evaluated: with the fee-grant keeper configured and granter
equal to payer, ten stake go from that account to the fee collector and the
ledger records no fee-grant use. -/
theorem checkDeductFee_granter_eq_payer_witness :
    checkDeductFee demoTypes demoDecorator emptyLedger (demoCtx 5 .Finalize)
        (demoTx 100 tenStake alice alice) tenStake =
      ⟨none, ⟨[(alice, "fee_collector", tenStake)], []⟩,
        [.GetModuleAddress "fee_collector",
          .SendCoinsFromAccountToModule (demoCtx 5 .Finalize) alice "fee_collector" tenStake none,
          .EmitEvents [feeEvent demoTypes tenStake alice]]⟩ := by
  have h := (((checkDeductFee_granter_eq_payer demoTypes demoDecorator emptyLedger
    (demoCtx 5 .Finalize) (demoTx 100 tenStake alice alice) tenStake
    ⟨100, tenStake, alice, alice⟩ [1] rfl rfl (by decide)).2 (by decide)).1 demoFeegrant rfl).2
    (by decide) (by decide)
  rw [h]
  rfl

/-! ## C2, C3: the gas check -/

/-- On a FeeTx with the fee collector looked up first, `checkDeductFee` makes
at least one call. -/
theorem checkDeductFee_trace_ne_nil (T : Types) (dfd : DeductFeeDecorator S) (s : S)
    (ctx : Context) (tx : Tx) (fee : Coins) (f : FeeTx) (htx : tx.feeTx = some f) :
    ∃ rest, (checkDeductFee T dfd s ctx tx fee).trace =
      .GetModuleAddress T.FeeCollectorName :: rest := by
  by_cases hcol : (dfd.accountKeeper.GetModuleAddress T.FeeCollectorName).len = 0
  · rw [checkDeductFee_of_no_collector T dfd s ctx tx fee f htx hcol]; exact ⟨_, rfl⟩
  · cases hg : f.FeeGranter with
    | none => rw [checkDeductFee_of_no_granter T dfd s ctx tx fee f htx hcol hg]; exact ⟨_, rfl⟩
    | some g =>
      cases hk : dfd.feegrantKeeper with
      | none =>
        rw [checkDeductFee_of_grants_disabled T dfd s ctx tx fee f g htx hcol hg hk]
        exact ⟨_, rfl⟩
      | some fk =>
        cases hb : bytesEqual (some g) f.FeePayer with
        | true =>
          rw [checkDeductFee_of_granter_eq_payer T dfd s ctx tx fee f g fk htx hcol hg hk hb]
          exact ⟨_, rfl⟩
        | false =>
          rcases hr : fk.UseGrantedFees s ctx (some g) f.FeePayer fee tx.GetMsgs with ⟨e, s1⟩
          cases e with
          | some err =>
            rw [checkDeductFee_of_grant_rejected T dfd s ctx tx fee f g fk err s1 htx hcol hg hk
              hb hr]
            exact ⟨_, rfl⟩
          | none =>
            rw [checkDeductFee_of_grant_accepted T dfd s ctx tx fee f g fk s1 htx hcol hg hk
              hb hr]
            exact ⟨_, rfl⟩

/-- `AnteHandle` when the gas check of line 51 fires. -/
theorem AnteHandle_of_gas_check_failed (T : Types) (dfd : DeductFeeDecorator S) (s : S)
    (ctx : Context) (tx : Tx) (simulate : Bool) (next : AnteHandler S) (f : FeeTx)
    (htx : tx.feeTx = some f) (hm : dfd.accountKeeper.execModeOf ctx ≠ ExecMode.Simulate)
    (hh : 0 < ctx.BlockHeight) (hgas : f.GetGas = 0) :
    AnteHandle T dfd s ctx tx simulate next =
      ⟨(ctx, some (.wrap ErrInvalidGasLimit "must provide positive gas")), s, [.ExecMode ctx]⟩ := by
  simp [AnteHandle, htx, hm, hh, hgas]

/-- `AnteHandle` in simulate mode: the stated fee goes to `checkDeductFee` and
the priority handed to `next` is zero. -/
theorem AnteHandle_of_simulate (T : Types) (dfd : DeductFeeDecorator S) (s : S)
    (ctx : Context) (tx : Tx) (simulate : Bool) (next : AnteHandler S) (f : FeeTx)
    (htx : tx.feeTx = some f) (hm : dfd.accountKeeper.execModeOf ctx = ExecMode.Simulate) :
    AnteHandle T dfd s ctx tx simulate next =
      match (checkDeductFee T dfd s ctx tx f.GetFee).ret with
      | some err =>
        ⟨(ctx, some err), (checkDeductFee T dfd s ctx tx f.GetFee).state,
          .ExecMode ctx :: (checkDeductFee T dfd s ctx tx f.GetFee).trace⟩
      | none =>
        ⟨(next (checkDeductFee T dfd s ctx tx f.GetFee).state (ctx.WithPriority 0) tx false).1,
          (next (checkDeductFee T dfd s ctx tx f.GetFee).state (ctx.WithPriority 0) tx false).2,
          .ExecMode ctx :: (checkDeductFee T dfd s ctx tx f.GetFee).trace ++
            [.next (ctx.WithPriority 0) tx false]⟩ := by
  simp only [AnteHandle, htx, hm]
  simp

/-- `AnteHandle` outside simulate mode once the gas check has passed and the
fee checker has failed. -/
theorem AnteHandle_of_checker_error (T : Types) (dfd : DeductFeeDecorator S) (s : S)
    (ctx : Context) (tx : Tx) (simulate : Bool) (next : AnteHandler S) (f : FeeTx)
    (err : Err) (s1 : S)
    (htx : tx.feeTx = some f) (hm : dfd.accountKeeper.execModeOf ctx ≠ ExecMode.Simulate)
    (hgas : ¬ (0 < ctx.BlockHeight ∧ f.GetGas = 0))
    (hr : dfd.txFeeChecker s ctx tx = (.error err, s1)) :
    AnteHandle T dfd s ctx tx simulate next =
      ⟨(ctx, some err), s1, [.ExecMode ctx, .txFeeChecker ctx tx]⟩ := by
  simp only [AnteHandle, htx]
  simp [hm, hr]
  intro h1 h2
  exact absurd ⟨h1, h2⟩ hgas

/-- `AnteHandle` outside simulate mode once the gas check has passed and the
fee checker has returned an effective fee and a priority. -/
theorem AnteHandle_of_checker_ok (T : Types) (dfd : DeductFeeDecorator S) (s : S)
    (ctx : Context) (tx : Tx) (simulate : Bool) (next : AnteHandler S) (f : FeeTx)
    (fee : Coins) (priority : Int) (s1 : S)
    (htx : tx.feeTx = some f) (hm : dfd.accountKeeper.execModeOf ctx ≠ ExecMode.Simulate)
    (hgas : ¬ (0 < ctx.BlockHeight ∧ f.GetGas = 0))
    (hr : dfd.txFeeChecker s ctx tx = (.ok (fee, priority), s1)) :
    AnteHandle T dfd s ctx tx simulate next =
      match (checkDeductFee T dfd s1 ctx tx fee).ret with
      | some err =>
        ⟨(ctx, some err), (checkDeductFee T dfd s1 ctx tx fee).state,
          .ExecMode ctx :: .txFeeChecker ctx tx :: (checkDeductFee T dfd s1 ctx tx fee).trace⟩
      | none =>
        ⟨(next (checkDeductFee T dfd s1 ctx tx fee).state (ctx.WithPriority priority) tx false).1,
          (next (checkDeductFee T dfd s1 ctx tx fee).state (ctx.WithPriority priority) tx false).2,
          .ExecMode ctx :: .txFeeChecker ctx tx :: (checkDeductFee T dfd s1 ctx tx fee).trace ++
            [.next (ctx.WithPriority priority) tx false]⟩ := by
  simp only [AnteHandle, htx]
  have hg : (dfd.accountKeeper.execModeOf ctx != ExecMode.Simulate && decide (ctx.BlockHeight > 0)
      && f.GetGas == 0) = false := by
    simp only [Bool.and_eq_false_imp, Bool.and_eq_true, bne_iff_ne, ne_eq, decide_eq_true_eq,
      beq_eq_false_iff_ne, and_imp]
    intro _ h1 h2
    exact hgas ⟨h1, h2⟩
  simp only [hg, Bool.false_eq_true, if_false]
  simp [hm, hr]

/-- Once the gas check has passed, `AnteHandle` goes on to at least one more
collaborator call after reading the execution mode. -/
theorem AnteHandle_trace_of_gas_check_passed (T : Types) (dfd : DeductFeeDecorator S) (s : S)
    (ctx : Context) (tx : Tx) (simulate : Bool) (next : AnteHandler S) (f : FeeTx)
    (htx : tx.feeTx = some f)
    (hpass : ¬ (dfd.accountKeeper.execModeOf ctx ≠ ExecMode.Simulate ∧ 0 < ctx.BlockHeight ∧
      f.GetGas = 0)) :
    ∃ c rest, (AnteHandle T dfd s ctx tx simulate next).trace = .ExecMode ctx :: c :: rest := by
  by_cases hm : dfd.accountKeeper.execModeOf ctx = ExecMode.Simulate
  · rw [AnteHandle_of_simulate T dfd s ctx tx simulate next f htx hm]
    obtain ⟨rest, hrest⟩ := checkDeductFee_trace_ne_nil T dfd s ctx tx f.GetFee f htx
    split
    · exact ⟨.GetModuleAddress T.FeeCollectorName, rest, by simp [hrest]⟩
    · exact ⟨.GetModuleAddress T.FeeCollectorName,
        rest ++ [.next (ctx.WithPriority 0) tx false], by simp [hrest]⟩
  · have hgas : ¬ (0 < ctx.BlockHeight ∧ f.GetGas = 0) := fun h => hpass ⟨hm, h.1, h.2⟩
    rcases hr : dfd.txFeeChecker s ctx tx with ⟨r, s1⟩
    cases r with
    | error err =>
      rw [AnteHandle_of_checker_error T dfd s ctx tx simulate next f err s1 htx hm hgas hr]
      exact ⟨_, _, rfl⟩
    | ok fp =>
      obtain ⟨fee, priority⟩ := fp
      rw [AnteHandle_of_checker_ok T dfd s ctx tx simulate next f fee priority s1 htx hm hgas hr]
      split
      · exact ⟨_, _, rfl⟩
      · exact ⟨_, _, rfl⟩

/-- C2: for a transaction exposing the FeeTx fields, `AnteHandle` stops at the
gas check (returns the unchanged context with `ErrInvalidGasLimit` "must
provide positive gas", having only read the execution mode) if and only if the
execution mode is not simulate, the block height is greater than 0 and the gas
limit is 0. In every other case, in particular under simulation or at height
0 with a zero gas limit, the gas check is passed and the step goes on to its
next collaborator call. -/
theorem AnteHandle_gas_check_iff (T : Types) (dfd : DeductFeeDecorator S) (s : S)
    (ctx : Context) (tx : Tx) (simulate : Bool) (next : AnteHandler S) (f : FeeTx)
    (htx : tx.feeTx = some f) :
    (AnteHandle T dfd s ctx tx simulate next =
        ⟨(ctx, some (.wrap ErrInvalidGasLimit "must provide positive gas")), s, [.ExecMode ctx]⟩ ↔
      (dfd.accountKeeper.execModeOf ctx ≠ ExecMode.Simulate ∧ 0 < ctx.BlockHeight ∧
        f.GetGas = 0)) ∧
    ((dfd.accountKeeper.execModeOf ctx = ExecMode.Simulate ∨ ctx.BlockHeight ≤ 0) →
      ∃ c rest, (AnteHandle T dfd s ctx tx simulate next).trace = .ExecMode ctx :: c :: rest) := by
  constructor
  · constructor
    · intro h
      by_contra hpass
      obtain ⟨c, rest, ht⟩ :=
        AnteHandle_trace_of_gas_check_passed T dfd s ctx tx simulate next f htx hpass
      rw [h] at ht
      simp at ht
    · rintro ⟨hm, hh, hgas⟩
      exact AnteHandle_of_gas_check_failed T dfd s ctx tx simulate next f htx hm hh hgas
  · intro h
    apply AnteHandle_trace_of_gas_check_passed T dfd s ctx tx simulate next f htx
    rintro ⟨hm, hh, _⟩
    rcases h with h | h
    · exact hm h
    · omega

/-- C2, evaluated: at height 5 in finalize mode a zero gas limit stops the
step at the gas check; under simulation at the same height it does not. -/
theorem AnteHandle_gas_check_iff_witness :
    AnteHandle demoTypes demoDecorator emptyLedger (demoCtx 5 .Finalize)
        (demoTx 0 tenStake alice none) false demoNext =
      ⟨(demoCtx 5 .Finalize, some (.wrap ErrInvalidGasLimit "must provide positive gas")),
        emptyLedger, [.ExecMode (demoCtx 5 .Finalize)]⟩ ∧
    AnteHandle demoTypes demoDecorator emptyLedger (demoCtx 5 .Simulate)
        (demoTx 0 tenStake alice none) false demoNext ≠
      ⟨(demoCtx 5 .Simulate, some (.wrap ErrInvalidGasLimit "must provide positive gas")),
        emptyLedger, [.ExecMode (demoCtx 5 .Simulate)]⟩ :=
  ⟨(AnteHandle_gas_check_iff demoTypes demoDecorator emptyLedger (demoCtx 5 .Finalize)
      (demoTx 0 tenStake alice none) false demoNext ⟨0, tenStake, alice, none⟩ rfl).1.2
      ⟨by decide, by decide, rfl⟩,
    fun h => ((AnteHandle_gas_check_iff demoTypes demoDecorator emptyLedger (demoCtx 5 .Simulate)
      (demoTx 0 tenStake alice none) false demoNext ⟨0, tenStake, alice, none⟩ rfl).1.1 h).1 rfl⟩

/-- C3: for a FeeTx with gas limit 0, at a block height greater than 0 and in
a non-simulate execution mode, `AnteHandle` returns the unchanged context with
`ErrInvalidGasLimit` before any fee logic runs: the collaborator state is
untouched and the only call made is the read of the execution mode, so the
fee checker, the fee-grant keeper, the bank keeper and `next` are not invoked
and no event is emitted. -/
theorem AnteHandle_zero_gas_rejected (T : Types) (dfd : DeductFeeDecorator S) (s : S)
    (ctx : Context) (tx : Tx) (simulate : Bool) (next : AnteHandler S) (f : FeeTx)
    (htx : tx.feeTx = some f) (hgas : f.GetGas = 0) (hh : 0 < ctx.BlockHeight)
    (hm : dfd.accountKeeper.execModeOf ctx ≠ ExecMode.Simulate) :
    (AnteHandle T dfd s ctx tx simulate next).ret =
      (ctx, some (.wrap ErrInvalidGasLimit "must provide positive gas")) ∧
    ((AnteHandle T dfd s ctx tx simulate next).ret.2.any (fun e => e.Is ErrInvalidGasLimit)) = true ∧
    (AnteHandle T dfd s ctx tx simulate next).state = s ∧
    (AnteHandle T dfd s ctx tx simulate next).trace = [.ExecMode ctx] ∧
    (∀ c ∈ (AnteHandle T dfd s ctx tx simulate next).trace,
      c.isTxFeeChecker = false ∧ c.isUseGrantedFees = false ∧ c.isSend = false ∧
      c.isNext = false ∧ c.isEmitEvents = false) := by
  rw [AnteHandle_of_gas_check_failed T dfd s ctx tx simulate next f htx hm hh hgas]
  refine ⟨rfl, ?_, rfl, rfl, ?_⟩
  · simp [Err.Is, ErrInvalidGasLimit]
  · intro c hc
    simp at hc
    subst hc
    exact ⟨rfl, rfl, rfl, rfl, rfl⟩

/-- C3, evaluated on the spec's scenario: zero gas limit at block height 5 in
a non-simulate mode. -/
theorem AnteHandle_zero_gas_rejected_witness :
    (AnteHandle demoTypes demoDecorator emptyLedger (demoCtx 5 .Check)
        (demoTx 0 tenStake alice bob) true demoNext).trace = [.ExecMode (demoCtx 5 .Check)] :=
  (AnteHandle_zero_gas_rejected demoTypes demoDecorator emptyLedger (demoCtx 5 .Check)
    (demoTx 0 tenStake alice bob) true demoNext ⟨0, tenStake, alice, bob⟩ rfl rfl (by decide)
    (by decide)).2.2.2.1

/-! ## C4, C5: the effective fee and the priority -/

/-- The method `checkDeductFee` never calls the fee checker or `next`. -/
theorem checkDeductFee_trace_kinds (T : Types) (dfd : DeductFeeDecorator S) (s : S)
    (ctx : Context) (tx : Tx) (fee : Coins) (c : Call)
    (hc : c ∈ (checkDeductFee T dfd s ctx tx fee).trace) :
    c.isTxFeeChecker = false ∧ c.isNext = false := by
  obtain ⟨f, -, h⟩ := checkDeductFee_trace_mem T dfd s ctx tx fee c hc
  rcases h with rfl | ⟨r, rfl⟩ | ⟨bz, rfl⟩ | ⟨r, rfl⟩ | rfl <;> exact ⟨rfl, rfl⟩

/-- `AnteHandle` on a transaction without the `FeeTx` fields. -/
theorem AnteHandle_of_not_feeTx (T : Types) (dfd : DeductFeeDecorator S) (s : S)
    (ctx : Context) (tx : Tx) (simulate : Bool) (next : AnteHandler S) (htx : tx.feeTx = none) :
    AnteHandle T dfd s ctx tx simulate next =
      ⟨(ctx, some (.wrap ErrTxDecode "Tx must implement the FeeTx interface")), s, []⟩ := by
  simp [AnteHandle, htx]

/-- C4: in simulate execution mode `AnteHandle` never invokes the fee checker;
for a FeeTx it runs `checkDeductFee` on exactly the stated fee `GetFee()`,
returning its error with the unchanged context or else handing over to `next`;
and every call to `next` is made on the context with priority 0 attached. -/
theorem AnteHandle_simulate (T : Types) (dfd : DeductFeeDecorator S) (s : S)
    (ctx : Context) (tx : Tx) (simulate : Bool) (next : AnteHandler S)
    (hm : dfd.accountKeeper.execModeOf ctx = ExecMode.Simulate) :
    (∀ c ∈ (AnteHandle T dfd s ctx tx simulate next).trace, c.isTxFeeChecker = false) ∧
    (∀ f, tx.feeTx = some f →
      AnteHandle T dfd s ctx tx simulate next =
        match (checkDeductFee T dfd s ctx tx f.GetFee).ret with
        | some err =>
          ⟨(ctx, some err), (checkDeductFee T dfd s ctx tx f.GetFee).state,
            .ExecMode ctx :: (checkDeductFee T dfd s ctx tx f.GetFee).trace⟩
        | none =>
          ⟨(next (checkDeductFee T dfd s ctx tx f.GetFee).state (ctx.WithPriority 0) tx false).1,
            (next (checkDeductFee T dfd s ctx tx f.GetFee).state (ctx.WithPriority 0) tx false).2,
            .ExecMode ctx :: (checkDeductFee T dfd s ctx tx f.GetFee).trace ++
              [.next (ctx.WithPriority 0) tx false]⟩) ∧
    (∀ c t b, Call.next c t b ∈ (AnteHandle T dfd s ctx tx simulate next).trace →
      c = ctx.WithPriority 0 ∧ c.Priority = 0) := by
  cases htx : tx.feeTx with
  | none =>
    rw [AnteHandle_of_not_feeTx T dfd s ctx tx simulate next htx]
    simp
  | some f =>
    have hE := AnteHandle_of_simulate T dfd s ctx tx simulate next f htx hm
    refine ⟨?_, ?_, ?_⟩
    · intro c hc
      rw [hE] at hc
      split at hc
      · simp only [List.mem_cons] at hc
        rcases hc with rfl | hc
        · rfl
        · exact (checkDeductFee_trace_kinds T dfd s ctx tx f.GetFee c hc).1
      · simp only [List.cons_append, List.mem_cons, List.mem_append, List.not_mem_nil, or_false] at hc
        rcases hc with rfl | hc | rfl
        · rfl
        · exact (checkDeductFee_trace_kinds T dfd s ctx tx f.GetFee c hc).1
        · rfl
    · intro f1 hf1
      cases hf1
      exact hE
    · intro c t b hc
      rw [hE] at hc
      split at hc
      · simp only [List.mem_cons] at hc
        rcases hc with hc | hc
        · cases hc
        · have := (checkDeductFee_trace_kinds T dfd s ctx tx f.GetFee _ hc).2
          simp [Call.isNext] at this
      · simp only [List.cons_append, List.mem_cons, List.mem_append, List.not_mem_nil, or_false] at hc
        rcases hc with hc | hc | hc
        · cases hc
        · have := (checkDeductFee_trace_kinds T dfd s ctx tx f.GetFee _ hc).2
          simp [Call.isNext] at this
        · cases hc
          exact ⟨rfl, rfl⟩

/-- C4, evaluated: under simulation the concrete fee checker (which would
charge three stake with priority seven) is not consulted; the stated ten stake
are deducted and `next` receives priority 0. -/
theorem AnteHandle_simulate_witness :
    AnteHandle demoTypes demoDecorator emptyLedger (demoCtx 5 .Simulate)
        (demoTx 0 tenStake alice none) true demoNext =
      ⟨(demoCtx 5 .Simulate, none), ⟨[(alice, "fee_collector", tenStake)], []⟩,
        [.ExecMode (demoCtx 5 .Simulate), .GetModuleAddress "fee_collector",
          .SendCoinsFromAccountToModule (demoCtx 5 .Simulate) alice "fee_collector" tenStake none,
          .EmitEvents [feeEvent demoTypes tenStake alice],
          .next (demoCtx 5 .Simulate) (demoTx 0 tenStake alice none) false]⟩ := by
  rw [(AnteHandle_simulate demoTypes demoDecorator emptyLedger (demoCtx 5 .Simulate)
    (demoTx 0 tenStake alice none) true demoNext rfl).2.1 ⟨0, tenStake, alice, none⟩ rfl]
  rfl

/-- The fee that `checkDeductFee` passes to the fee-grant keeper and to the
bank, and that it reports in the event, is its `fee` argument. -/
theorem checkDeductFee_trace_fee (T : Types) (dfd : DeductFeeDecorator S) (s : S)
    (ctx : Context) (tx : Tx) (fee : Coins) (f : FeeTx) (htx : tx.feeTx = some f) :
    (∀ x g p fe m r, Call.UseGrantedFees x g p fe m r ∈ (checkDeductFee T dfd s ctx tx fee).trace →
      fe = fee) ∧
    (∀ x a n amt r,
      Call.SendCoinsFromAccountToModule x a n amt r ∈ (checkDeductFee T dfd s ctx tx fee).trace →
      amt = fee) ∧
    (∀ evs, Call.EmitEvents evs ∈ (checkDeductFee T dfd s ctx tx fee).trace →
      evs = [feeEvent T fee (deductFeesFrom f)]) := by
  refine ⟨?_, ?_, ?_⟩
  · intro x g p fe m r hc
    obtain ⟨f1, hf1, h⟩ := checkDeductFee_trace_mem T dfd s ctx tx fee _ hc
    rcases h with h | ⟨r, h⟩ | ⟨bz, h⟩ | ⟨r, h⟩ | h <;> cases h
    rfl
  · intro x a n amt r hc
    obtain ⟨f1, hf1, h⟩ := checkDeductFee_trace_mem T dfd s ctx tx fee _ hc
    rcases h with h | ⟨r, h⟩ | ⟨bz, h⟩ | ⟨r, h⟩ | h <;> cases h
    rfl
  · intro evs hc
    obtain ⟨f1, hf1, h⟩ := checkDeductFee_trace_mem T dfd s ctx tx fee _ hc
    rw [htx] at hf1
    cases hf1
    rcases h with h | ⟨r, h⟩ | ⟨bz, h⟩ | ⟨r, h⟩ | h <;> cases h
    rfl

/-- C5, as stated, fails: in a non-simulate mode a transaction stopped by the
gas check (gas limit 0 at height 5) never reaches the fee checker, and neither
does a transaction that does not expose the FeeTx fields. -/
theorem AnteHandle_checker_skipped_by_gas_check :
    demoDecorator.accountKeeper.execModeOf (demoCtx 5 .Finalize) ≠ ExecMode.Simulate ∧
    (AnteHandle demoTypes demoDecorator emptyLedger (demoCtx 5 .Finalize)
        (demoTx 0 tenStake alice none) false demoNext).trace.any Call.isTxFeeChecker = false ∧
    (AnteHandle demoTypes demoDecorator emptyLedger (demoCtx 5 .Finalize)
        ⟨[], none⟩ false demoNext).trace.any Call.isTxFeeChecker = false := by
  refine ⟨by decide, by decide, by decide⟩

/-- C5 (amended): in every non-simulate execution mode, for a transaction
exposing the FeeTx fields that passes the gas check (height not above 0, or
gas limit above 0), `AnteHandle` invokes the fee checker on `(ctx, tx)`,
exactly once and right after reading the execution mode. If the checker
returns an error, `AnteHandle` returns that same error with the unchanged
context and makes no further call (no fee-grant use, no transfer, no event, no
`next`). Otherwise it runs `checkDeductFee` on the effective fee the checker
returned, so that the fee passed to `UseGrantedFees`, the amount passed to the
bank and the fee in the emitted event are exactly that effective fee, whatever
the stated fee is. -/
theorem AnteHandle_uses_checker_fee (T : Types) (dfd : DeductFeeDecorator S) (s : S)
    (ctx : Context) (tx : Tx) (simulate : Bool) (next : AnteHandler S) (f : FeeTx)
    (htx : tx.feeTx = some f) (hm : dfd.accountKeeper.execModeOf ctx ≠ ExecMode.Simulate)
    (hgas : ¬ (0 < ctx.BlockHeight ∧ f.GetGas = 0)) :
    (∃ rest, (AnteHandle T dfd s ctx tx simulate next).trace =
        .ExecMode ctx :: .txFeeChecker ctx tx :: rest ∧
      ∀ c ∈ rest, c.isTxFeeChecker = false) ∧
    (∀ err s1, dfd.txFeeChecker s ctx tx = (.error err, s1) →
      AnteHandle T dfd s ctx tx simulate next =
        ⟨(ctx, some err), s1, [.ExecMode ctx, .txFeeChecker ctx tx]⟩) ∧
    (∀ fee priority s1, dfd.txFeeChecker s ctx tx = (.ok (fee, priority), s1) →
      (AnteHandle T dfd s ctx tx simulate next =
        match (checkDeductFee T dfd s1 ctx tx fee).ret with
        | some err =>
          ⟨(ctx, some err), (checkDeductFee T dfd s1 ctx tx fee).state,
            .ExecMode ctx :: .txFeeChecker ctx tx :: (checkDeductFee T dfd s1 ctx tx fee).trace⟩
        | none =>
          ⟨(next (checkDeductFee T dfd s1 ctx tx fee).state (ctx.WithPriority priority) tx false).1,
            (next (checkDeductFee T dfd s1 ctx tx fee).state (ctx.WithPriority priority) tx false).2,
            .ExecMode ctx :: .txFeeChecker ctx tx :: (checkDeductFee T dfd s1 ctx tx fee).trace ++
              [.next (ctx.WithPriority priority) tx false]⟩) ∧
      (∀ x g p fe m r,
        Call.UseGrantedFees x g p fe m r ∈ (AnteHandle T dfd s ctx tx simulate next).trace →
        fe = fee) ∧
      (∀ x a n amt r,
        Call.SendCoinsFromAccountToModule x a n amt r ∈
          (AnteHandle T dfd s ctx tx simulate next).trace → amt = fee) ∧
      (∀ evs, Call.EmitEvents evs ∈ (AnteHandle T dfd s ctx tx simulate next).trace →
        evs = [feeEvent T fee (deductFeesFrom f)])) := by
  have key : ∀ fee priority s1, dfd.txFeeChecker s ctx tx = (.ok (fee, priority), s1) →
      ∃ tail, (AnteHandle T dfd s ctx tx simulate next).trace =
          .ExecMode ctx :: .txFeeChecker ctx tx :: ((checkDeductFee T dfd s1 ctx tx fee).trace ++ tail) ∧
        (tail = [] ∨ tail = [.next (ctx.WithPriority priority) tx false]) := by
    intro fee priority s1 hr
    rw [AnteHandle_of_checker_ok T dfd s ctx tx simulate next f fee priority s1 htx hm hgas hr]
    split
    · exact ⟨[], by simp, Or.inl rfl⟩
    · exact ⟨_, by simp, Or.inr rfl⟩
  have mem : ∀ fee priority s1, dfd.txFeeChecker s ctx tx = (.ok (fee, priority), s1) →
      ∀ c ∈ (AnteHandle T dfd s ctx tx simulate next).trace,
        c = .ExecMode ctx ∨ c = .txFeeChecker ctx tx ∨
        c ∈ (checkDeductFee T dfd s1 ctx tx fee).trace ∨
        c = .next (ctx.WithPriority priority) tx false := by
    intro fee priority s1 hr c hc
    obtain ⟨tail, ht, htail⟩ := key fee priority s1 hr
    rw [ht] at hc
    simp only [List.mem_cons, List.mem_append] at hc
    rcases hc with h | h | h | h
    · exact Or.inl h
    · exact Or.inr (Or.inl h)
    · exact Or.inr (Or.inr (Or.inl h))
    · rcases htail with rfl | rfl
      · simp at h
      · simp at h; exact Or.inr (Or.inr (Or.inr h))
  refine ⟨?_, ?_, ?_⟩
  · rcases hr : dfd.txFeeChecker s ctx tx with ⟨r, s1⟩
    cases r with
    | error err =>
      rw [AnteHandle_of_checker_error T dfd s ctx tx simulate next f err s1 htx hm hgas hr]
      exact ⟨[], rfl, by simp⟩
    | ok fp =>
      obtain ⟨fee, priority⟩ := fp
      obtain ⟨tail, ht, htail⟩ := key fee priority s1 hr
      refine ⟨_, ht, ?_⟩
      intro c hc
      simp only [List.mem_append] at hc
      rcases hc with hc | hc
      · exact (checkDeductFee_trace_kinds T dfd s1 ctx tx fee c hc).1
      · rcases htail with rfl | rfl
        · simp at hc
        · simp at hc; subst hc; rfl
  · intro err s1 hr
    exact AnteHandle_of_checker_error T dfd s ctx tx simulate next f err s1 htx hm hgas hr
  · intro fee priority s1 hr
    have hfee := checkDeductFee_trace_fee T dfd s1 ctx tx fee f htx
    refine ⟨AnteHandle_of_checker_ok T dfd s ctx tx simulate next f fee priority s1 htx hm hgas hr,
      ?_, ?_, ?_⟩
    · intro x g p fe m r hc
      rcases mem fee priority s1 hr _ hc with h | h | h | h
      · cases h
      · cases h
      · exact hfee.1 x g p fe m r h
      · cases h
    · intro x a n amt r hc
      rcases mem fee priority s1 hr _ hc with h | h | h | h
      · cases h
      · cases h
      · exact hfee.2.1 x a n amt r h
      · cases h
    · intro evs hc
      rcases mem fee priority s1 hr _ hc with h | h | h | h
      · cases h
      · cases h
      · exact hfee.2.2 evs h
      · cases h

/-- C5 (amended), evaluated: in finalize mode the concrete checker turns a
stated fee of ten stake into three stake with priority seven; three stake are
what the fee-grant keeper authorises and what the bank moves. -/
theorem AnteHandle_uses_checker_fee_witness :
    (AnteHandle demoTypes demoDecorator emptyLedger (demoCtx 5 .Finalize)
        (demoTx 100 tenStake alice bob) false demoNext).state =
      ⟨[(bob, "fee_collector", [⟨"stake", 3⟩])], [(bob, alice, [⟨"stake", 3⟩])]⟩ := by
  rw [((AnteHandle_uses_checker_fee demoTypes demoDecorator emptyLedger (demoCtx 5 .Finalize)
    (demoTx 100 tenStake alice bob) false demoNext ⟨100, tenStake, alice, bob⟩ rfl (by decide)
    (by decide)).2.2 [⟨"stake", 3⟩] 7 emptyLedger rfl).1]
  rfl

/-! ## C6, C7: a fee granter different from the payer -/

/-- C6, as stated, fails: when the fee-collector module account has no
address, `checkDeductFee` stops at lines 82-85 and the error is not the
grants-disabled one, although a granter different from the payer is named and
no fee-grant keeper is configured. -/
theorem checkDeductFee_no_keeper_no_collector :
    bytesEqual bob alice = false ∧
    bareDecoratorNoGrants.feegrantKeeper.isNone = true ∧
    (checkDeductFee demoTypes bareDecoratorNoGrants emptyLedger (demoCtx 5 .Finalize)
        (demoTx 100 tenStake alice bob) tenStake).ret =
      some (.errorf "fee collector module account (fee_collector) has not been set") ∧
    (checkDeductFee demoTypes bareDecoratorNoGrants emptyLedger (demoCtx 5 .Finalize)
        (demoTx 100 tenStake alice bob) tenStake).ret ≠
      some (.wrap ErrInvalidRequest "fee grants are not enabled") := by
  refine ⟨by decide, rfl, by decide, by decide⟩

/-- C6 (amended): for a FeeTx whose fee granter is set and differs from the
fee payer, when no fee-grant keeper is configured, `checkDeductFee` fails
having only looked up the fee-collector address: no funds are transferred, no
event is emitted and the collaborator state is unchanged. When the
fee-collector module account is set, the error is the grants-disabled error
(`ErrInvalidRequest`, "fee grants are not enabled"). -/
theorem checkDeductFee_grants_disabled (T : Types) (dfd : DeductFeeDecorator S) (s : S)
    (ctx : Context) (tx : Tx) (fee : Coins) (f : FeeTx) (g : List Byte)
    (htx : tx.feeTx = some f) (hg : f.FeeGranter = some g)
    (hne : bytesEqual (some g) f.FeePayer = false) (hk : dfd.feegrantKeeper = none) :
    (checkDeductFee T dfd s ctx tx fee).ret ≠ none ∧
    (checkDeductFee T dfd s ctx tx fee).state = s ∧
    (checkDeductFee T dfd s ctx tx fee).trace = [.GetModuleAddress T.FeeCollectorName] ∧
    (∀ c ∈ (checkDeductFee T dfd s ctx tx fee).trace,
      c.isSend = false ∧ c.isEmitEvents = false ∧ c.isUseGrantedFees = false) ∧
    ((dfd.accountKeeper.GetModuleAddress T.FeeCollectorName).len ≠ 0 →
      (checkDeductFee T dfd s ctx tx fee).ret =
          some (.wrap ErrInvalidRequest "fee grants are not enabled") ∧
        ((checkDeductFee T dfd s ctx tx fee).ret.any (fun e => e.Is ErrInvalidRequest)) = true) := by
  have _ := hne
  by_cases hcol : (dfd.accountKeeper.GetModuleAddress T.FeeCollectorName).len = 0
  · rw [checkDeductFee_of_no_collector T dfd s ctx tx fee f htx hcol]
    refine ⟨by simp, rfl, rfl, ?_, fun h => absurd hcol h⟩
    intro c hc
    simp at hc
    subst hc
    exact ⟨rfl, rfl, rfl⟩
  · rw [checkDeductFee_of_grants_disabled T dfd s ctx tx fee f g htx hcol hg hk]
    refine ⟨by simp, rfl, rfl, ?_, fun _ => ⟨rfl, ?_⟩⟩
    · intro c hc
      simp at hc
      subst hc
      exact ⟨rfl, rfl, rfl⟩
    · simp [Err.Is, ErrInvalidRequest]

/-- C6 (amended), evaluated: granter `bob`, payer `alice`, no fee-grant keeper. -/
theorem checkDeductFee_grants_disabled_witness :
    (checkDeductFee demoTypes demoDecoratorNoGrants emptyLedger (demoCtx 5 .Finalize)
        (demoTx 100 tenStake alice bob) tenStake).ret =
      some (.wrap ErrInvalidRequest "fee grants are not enabled") :=
  ((checkDeductFee_grants_disabled demoTypes demoDecoratorNoGrants emptyLedger
    (demoCtx 5 .Finalize) (demoTx 100 tenStake alice bob) tenStake ⟨100, tenStake, alice, bob⟩
    [2] rfl rfl (by decide) rfl).2.2.2.2 (by decide)).1

/-- An error is found on its own unwrap chain. -/
theorem Err.Is_self (e : Err) : e.Is e = true := by
  cases e <;> simp [Err.Is]

/-- A wrapped error still matches its cause under `errors.Is`. -/
theorem Err.Is_wrap (e : Err) (msg : String) : (Err.wrap e msg).Is e = true := by
  simp [Err.Is, Err.Is_self]

/-- C7, as stated, fails: when the fee-collector module account has no
address, `checkDeductFee` returns before the fee-grant step, so
`UseGrantedFees` is not called although a granter different from the payer is
named and a fee-grant keeper is configured. -/
theorem checkDeductFee_keeper_unused_no_collector :
    bytesEqual bob alice = false ∧
    bareDecorator.feegrantKeeper.isSome = true ∧
    (checkDeductFee demoTypes bareDecorator emptyLedger (demoCtx 5 .Finalize)
        (demoTx 100 tenStake alice bob) tenStake).trace.countP Call.isUseGrantedFees = 0 := by
  refine ⟨by decide, rfl, by decide⟩

/-- C7 (amended): for a FeeTx whose fee granter is set and differs from the
fee payer, with a fee-grant keeper configured and the fee-collector module
account set, `checkDeductFee` calls `UseGrantedFees` exactly once, with (fee
granter, fee payer, effective fee, the messages of the transaction), right
after the module-address lookup and so before any funds transfer. If the
keeper rejects, `checkDeductFee` returns an error that wraps the keeper's
error, the bank keeper is never called and no event is emitted. -/
theorem checkDeductFee_uses_grant (T : Types) (dfd : DeductFeeDecorator S) (s : S)
    (ctx : Context) (tx : Tx) (fee : Coins) (f : FeeTx) (g : List Byte) (fk : FeegrantKeeper S)
    (htx : tx.feeTx = some f) (hg : f.FeeGranter = some g)
    (hne : bytesEqual (some g) f.FeePayer = false) (hk : dfd.feegrantKeeper = some fk)
    (hcol : (dfd.accountKeeper.GetModuleAddress T.FeeCollectorName).len ≠ 0) :
    (∃ rest, (checkDeductFee T dfd s ctx tx fee).trace =
        .GetModuleAddress T.FeeCollectorName ::
          .UseGrantedFees ctx (some g) f.FeePayer fee tx.GetMsgs
            (fk.UseGrantedFees s ctx (some g) f.FeePayer fee tx.GetMsgs).1 :: rest ∧
      ∀ c ∈ rest, c.isUseGrantedFees = false) ∧
    (checkDeductFee T dfd s ctx tx fee).trace.countP Call.isUseGrantedFees = 1 ∧
    (∀ err, (fk.UseGrantedFees s ctx (some g) f.FeePayer fee tx.GetMsgs).1 = some err →
      (∃ msg, (checkDeductFee T dfd s ctx tx fee).ret = some (.wrap err msg)) ∧
      ((checkDeductFee T dfd s ctx tx fee).ret.any (fun e => e.Is err)) = true ∧
      (checkDeductFee T dfd s ctx tx fee).state =
        (fk.UseGrantedFees s ctx (some g) f.FeePayer fee tx.GetMsgs).2 ∧
      ∀ c ∈ (checkDeductFee T dfd s ctx tx fee).trace,
        c.isSend = false ∧ c.isEmitEvents = false) := by
  have shape : ∃ rest, (checkDeductFee T dfd s ctx tx fee).trace =
        .GetModuleAddress T.FeeCollectorName ::
          .UseGrantedFees ctx (some g) f.FeePayer fee tx.GetMsgs
            (fk.UseGrantedFees s ctx (some g) f.FeePayer fee tx.GetMsgs).1 :: rest ∧
      ∀ c ∈ rest, c.isUseGrantedFees = false := by
    rcases hr : fk.UseGrantedFees s ctx (some g) f.FeePayer fee tx.GetMsgs with ⟨e, s1⟩
    cases e with
    | some err =>
      rw [checkDeductFee_of_grant_rejected T dfd s ctx tx fee f g fk err s1 htx hcol hg hk hne hr]
      refine ⟨_, rfl, ?_⟩
      intro c hc
      obtain ⟨bz, rfl⟩ := (grantDeniedError_spec _ _ _ _).2 c hc
      rfl
    | none =>
      rw [checkDeductFee_of_grant_accepted T dfd s ctx tx fee f g fk s1 htx hcol hg hk hne hr]
      refine ⟨_, rfl, ?_⟩
      intro c hc
      rcases deductAndEmit_trace_mem T dfd s1 ctx fee _ c hc with ⟨r, rfl⟩ | rfl <;> rfl
  refine ⟨shape, ?_, ?_⟩
  · obtain ⟨rest, ht, hrest⟩ := shape
    rw [ht]
    have h0 : rest.countP Call.isUseGrantedFees = 0 := by
      rw [List.countP_eq_zero]
      intro c hc
      simp [hrest c hc]
    simp [List.countP_cons, Call.isUseGrantedFees, h0]
  · intro err herr
    rcases hr : fk.UseGrantedFees s ctx (some g) f.FeePayer fee tx.GetMsgs with ⟨e, s1⟩
    rw [hr] at herr
    cases herr
    rw [checkDeductFee_of_grant_rejected T dfd s ctx tx fee f g fk err s1 htx hcol hg hk hne hr]
    obtain ⟨⟨msg, hmsg⟩, hcodec⟩ := grantDeniedError_spec dfd.accountKeeper err (some g) f.FeePayer
    refine ⟨⟨msg, by simp [hmsg]⟩, ?_, rfl, ?_⟩
    · simp [hmsg, Err.Is_wrap]
    · intro c hc
      simp only [List.mem_append, List.mem_cons, List.not_mem_nil, or_false] at hc
      rcases hc with (rfl | rfl) | hc
      · exact ⟨rfl, rfl⟩
      · exact ⟨rfl, rfl⟩
      · obtain ⟨bz, rfl⟩ := hcodec c hc
        exact ⟨rfl, rfl⟩

/-- C7 (amended), evaluated: `miser` is named as granter for `alice`; the
keeper is asked once and refuses, and the error wraps the keeper's error. -/
theorem checkDeductFee_uses_grant_witness :
    (checkDeductFee demoTypes demoDecorator emptyLedger (demoCtx 5 .Finalize)
        (demoTx 100 tenStake alice miser) tenStake).trace.countP Call.isUseGrantedFees = 1 ∧
    ((checkDeductFee demoTypes demoDecorator emptyLedger (demoCtx 5 .Finalize)
        (demoTx 100 tenStake alice miser) tenStake).ret.any
          (fun e => e.Is (.sentinel "ErrNoAllowance"))) = true :=
  ⟨(checkDeductFee_uses_grant demoTypes demoDecorator emptyLedger (demoCtx 5 .Finalize)
      (demoTx 100 tenStake alice miser) tenStake ⟨100, tenStake, alice, miser⟩ [7] demoFeegrant
      rfl rfl (by decide) rfl (by decide)).2.1,
    ((checkDeductFee_uses_grant demoTypes demoDecorator emptyLedger (demoCtx 5 .Finalize)
      (demoTx 100 tenStake alice miser) tenStake ⟨100, tenStake, alice, miser⟩ [7] demoFeegrant
      rfl rfl (by decide) rfl (by decide)).2.2 (.sentinel "ErrNoAllowance") rfl).2.1⟩

/-! ## C8: the transfer on success -/

/-- A successful run of lines 116-133 on a non-zero fee is one successful
bank transfer followed by the fee event. -/
theorem deductAndEmit_success (T : Types) (dfd : DeductFeeDecorator S) (s : S) (ctx : Context)
    (fee : Coins) (acct : Bytes) (hok : (deductAndEmit T dfd s ctx fee acct).ret = none)
    (hnz : T.IsZero fee = false) :
    (deductAndEmit T dfd s ctx fee acct).trace =
      [.SendCoinsFromAccountToModule ctx acct T.FeeCollectorName fee none,
        .EmitEvents [feeEvent T fee acct]] := by
  rw [deductAndEmit_eq] at hok ⊢
  simp only [hnz, Bool.false_eq_true, if_false] at hok ⊢
  split at hok
  · rename_i hv
    simp only [hv, if_true]
    split at hok
    · simp at hok
    · rename_i heq
      simp [heq]
  · simp at hok

/-- C8: on every successful `checkDeductFee` with a non-zero effective fee,
the transaction is a FeeTx and exactly one bank transfer is made: it succeeds,
moves exactly the effective fee to the fee-collector module, and debits the
fee granter if the transaction names one and otherwise the fee payer. -/
theorem checkDeductFee_success_transfer (T : Types) (dfd : DeductFeeDecorator S) (s : S)
    (ctx : Context) (tx : Tx) (fee : Coins)
    (hok : (checkDeductFee T dfd s ctx tx fee).ret = none) (hnz : T.IsZero fee = false) :
    ∃ f, tx.feeTx = some f ∧
      (checkDeductFee T dfd s ctx tx fee).trace.filter Call.isSend =
        [.SendCoinsFromAccountToModule ctx
          (match f.FeeGranter with
            | some g => some g
            | none => f.FeePayer)
          T.FeeCollectorName fee none] ∧
      (checkDeductFee T dfd s ctx tx fee).trace.countP Call.isSend = 1 := by
  cases htx : tx.feeTx with
  | none => rw [checkDeductFee_of_not_feeTx T dfd s ctx tx fee htx] at hok; simp at hok
  | some f =>
    refine ⟨f, rfl, ?_⟩
    by_cases hcol : (dfd.accountKeeper.GetModuleAddress T.FeeCollectorName).len = 0
    · rw [checkDeductFee_of_no_collector T dfd s ctx tx fee f htx hcol] at hok; simp at hok
    · cases hg : f.FeeGranter with
      | none =>
        rw [checkDeductFee_of_no_granter T dfd s ctx tx fee f htx hcol hg] at hok ⊢
        simp only [Out.after] at hok ⊢
        rw [deductAndEmit_success T dfd s ctx fee _ hok hnz]
        simp [List.filter, List.countP_cons, Call.isSend]
      | some g =>
        cases hk : dfd.feegrantKeeper with
        | none =>
          rw [checkDeductFee_of_grants_disabled T dfd s ctx tx fee f g htx hcol hg hk] at hok
          simp at hok
        | some fk =>
          cases hb : bytesEqual (some g) f.FeePayer with
          | true =>
            rw [checkDeductFee_of_granter_eq_payer T dfd s ctx tx fee f g fk htx hcol hg hk hb]
              at hok ⊢
            simp only [Out.after] at hok ⊢
            rw [deductAndEmit_success T dfd s ctx fee _ hok hnz]
            simp [List.filter, List.countP_cons, Call.isSend]
          | false =>
            rcases hr : fk.UseGrantedFees s ctx (some g) f.FeePayer fee tx.GetMsgs with ⟨e, s1⟩
            cases e with
            | some err =>
              rw [checkDeductFee_of_grant_rejected T dfd s ctx tx fee f g fk err s1 htx hcol hg hk
                hb hr] at hok
              simp at hok
            | none =>
              rw [checkDeductFee_of_grant_accepted T dfd s ctx tx fee f g fk s1 htx hcol hg hk
                hb hr] at hok ⊢
              simp only [Out.after] at hok ⊢
              rw [deductAndEmit_success T dfd s1 ctx fee _ hok hnz]
              simp [List.filter, List.countP_cons, Call.isSend]

/-- C8, evaluated: `bob` is named as granter for `alice`; the single transfer
debits `bob`. -/
theorem checkDeductFee_success_transfer_witness :
    (checkDeductFee demoTypes demoDecorator emptyLedger (demoCtx 5 .Finalize)
        (demoTx 100 tenStake alice bob) tenStake).trace.filter Call.isSend =
      [.SendCoinsFromAccountToModule (demoCtx 5 .Finalize) bob "fee_collector" tenStake none] := by
  obtain ⟨f, hf, h, -⟩ := checkDeductFee_success_transfer demoTypes demoDecorator emptyLedger
    (demoCtx 5 .Finalize) (demoTx 100 tenStake alice bob) tenStake rfl (by decide)
  cases hf
  exact h

/-! ## C9: what has been applied when the step fails -/

/-- A failing run of lines 116-133 applies no keeper call: either the fee is
invalid and no call is made, or the single bank call returned an error. -/
theorem deductAndEmit_failure (T : Types) (dfd : DeductFeeDecorator S) (s : S) (ctx : Context)
    (fee : Coins) (acct : Bytes) (e : Err)
    (hfail : (deductAndEmit T dfd s ctx fee acct).ret = some e) :
    ((deductAndEmit T dfd s ctx fee acct).trace = [] ∧
      e = .wrap ErrInsufficientFee ("invalid fee amount: " ++ T.CoinsString fee)) ∨
    (∃ e1, (deductAndEmit T dfd s ctx fee acct).trace =
        [.SendCoinsFromAccountToModule ctx acct T.FeeCollectorName fee (some e1)] ∧
      e = .wrap e1 "failed to deduct fees") := by
  rw [deductAndEmit_eq] at hfail ⊢
  split at hfail
  · simp at hfail
  · rename_i hz
    rw [if_neg hz]
    split at hfail
    · rename_i hv
      rw [if_pos hv]
      split at hfail
      · rename_i e1 s1 heq
        simp only [heq]
        simp only [Option.some.injEq] at hfail
        exact Or.inr ⟨e1, rfl, hfail.symm⟩
      · simp at hfail
    · rename_i hv
      rw [if_neg hv]
      simp only [Option.some.injEq] at hfail
      exact Or.inl ⟨rfl, hfail.symm⟩

/-- The shapes of a failing `checkDeductFee`. Either no keeper call has been
applied, or the only applied call is a successful `UseGrantedFees` for a
granter different from the payer and the failure arose in the deduction that
follows it (invalid fee, or the bank's error). -/
theorem checkDeductFee_failure (T : Types) (dfd : DeductFeeDecorator S) (s : S)
    (ctx : Context) (tx : Tx) (fee : Coins) (e : Err)
    (hfail : (checkDeductFee T dfd s ctx tx fee).ret = some e) :
    (∀ c ∈ (checkDeductFee T dfd s ctx tx fee).trace, c.applied = false) ∨
    (∃ f g, tx.feeTx = some f ∧ f.FeeGranter = some g ∧
      bytesEqual (some g) f.FeePayer = false ∧
      (((checkDeductFee T dfd s ctx tx fee).trace =
            [.GetModuleAddress T.FeeCollectorName,
              .UseGrantedFees ctx (some g) f.FeePayer fee tx.GetMsgs none] ∧
          e = .wrap ErrInsufficientFee ("invalid fee amount: " ++ T.CoinsString fee)) ∨
        (∃ e1, (checkDeductFee T dfd s ctx tx fee).trace =
            [.GetModuleAddress T.FeeCollectorName,
              .UseGrantedFees ctx (some g) f.FeePayer fee tx.GetMsgs none,
              .SendCoinsFromAccountToModule ctx (some g) T.FeeCollectorName fee (some e1)] ∧
          e = .wrap e1 "failed to deduct fees"))) := by
  cases htx : tx.feeTx with
  | none =>
    rw [checkDeductFee_of_not_feeTx T dfd s ctx tx fee htx]
    exact Or.inl (by simp)
  | some f =>
    by_cases hcol : (dfd.accountKeeper.GetModuleAddress T.FeeCollectorName).len = 0
    · rw [checkDeductFee_of_no_collector T dfd s ctx tx fee f htx hcol]
      exact Or.inl (by simp [Call.applied])
    · cases hg : f.FeeGranter with
      | none =>
        rw [checkDeductFee_of_no_granter T dfd s ctx tx fee f htx hcol hg] at hfail ⊢
        simp only [Out.after] at hfail ⊢
        left
        rcases deductAndEmit_failure T dfd s ctx fee _ e hfail with ⟨ht, -⟩ | ⟨e1, ht, -⟩ <;>
          rw [ht] <;> simp [Call.applied]
      | some g =>
        cases hk : dfd.feegrantKeeper with
        | none =>
          rw [checkDeductFee_of_grants_disabled T dfd s ctx tx fee f g htx hcol hg hk]
          exact Or.inl (by simp [Call.applied])
        | some fk =>
          cases hb : bytesEqual (some g) f.FeePayer with
          | true =>
            rw [checkDeductFee_of_granter_eq_payer T dfd s ctx tx fee f g fk htx hcol hg hk hb]
              at hfail ⊢
            simp only [Out.after] at hfail ⊢
            left
            rcases deductAndEmit_failure T dfd s ctx fee _ e hfail with ⟨ht, -⟩ | ⟨e1, ht, -⟩ <;>
              rw [ht] <;> simp [Call.applied]
          | false =>
            rcases hr : fk.UseGrantedFees s ctx (some g) f.FeePayer fee tx.GetMsgs with ⟨r, s1⟩
            cases r with
            | some err =>
              rw [checkDeductFee_of_grant_rejected T dfd s ctx tx fee f g fk err s1 htx hcol hg hk
                hb hr]
              left
              intro c hc
              simp only [List.mem_append, List.mem_cons, List.not_mem_nil, or_false] at hc
              rcases hc with (rfl | rfl) | hc
              · rfl
              · rfl
              · obtain ⟨bz, rfl⟩ := (grantDeniedError_spec _ _ _ _).2 c hc
                rfl
            | none =>
              rw [checkDeductFee_of_grant_accepted T dfd s ctx tx fee f g fk s1 htx hcol hg hk
                hb hr] at hfail ⊢
              simp only [Out.after] at hfail ⊢
              right
              refine ⟨f, g, rfl, hg, hb, ?_⟩
              rcases deductAndEmit_failure T dfd s1 ctx fee _ e hfail with ⟨ht, he⟩ | ⟨e1, ht, he⟩
              · exact Or.inl ⟨by rw [ht]; rfl, he⟩
              · exact Or.inr ⟨e1, by rw [ht]; rfl, he⟩

/-- The shapes of an `AnteHandle` run that does not reach `next`: it returns
the unchanged context with an error, and its trace is either made of the
execution-mode read and the fee-checker call alone, or of those followed by
the trace of a failing `checkDeductFee`. -/
theorem AnteHandle_short_circuit (T : Types) (dfd : DeductFeeDecorator S) (s : S)
    (ctx : Context) (tx : Tx) (simulate : Bool) (next : AnteHandler S)
    (hshort : ∀ c ∈ (AnteHandle T dfd s ctx tx simulate next).trace, c.isNext = false) :
    ∃ e, (AnteHandle T dfd s ctx tx simulate next).ret = (ctx, some e) ∧
      ((∀ c ∈ (AnteHandle T dfd s ctx tx simulate next).trace,
          c = .ExecMode ctx ∨ c = .txFeeChecker ctx tx) ∨
        (∃ pre fee s1, (∀ c ∈ pre, c = .ExecMode ctx ∨ c = .txFeeChecker ctx tx) ∧
          (AnteHandle T dfd s ctx tx simulate next).trace =
            pre ++ (checkDeductFee T dfd s1 ctx tx fee).trace ∧
          (checkDeductFee T dfd s1 ctx tx fee).ret = some e)) := by
  cases htx : tx.feeTx with
  | none =>
    rw [AnteHandle_of_not_feeTx T dfd s ctx tx simulate next htx]
    exact ⟨_, rfl, Or.inl (by simp)⟩
  | some f =>
    by_cases hm : dfd.accountKeeper.execModeOf ctx = ExecMode.Simulate
    · have hE := AnteHandle_of_simulate T dfd s ctx tx simulate next f htx hm
      rw [hE] at hshort ⊢
      cases hret : (checkDeductFee T dfd s ctx tx f.GetFee).ret with
      | some e =>
        simp only [hret]
        exact ⟨e, rfl, Or.inr ⟨[.ExecMode ctx], f.GetFee, s, by simp, rfl, hret⟩⟩
      | none =>
        simp only [hret] at hshort
        have := hshort (.next (ctx.WithPriority 0) tx false) (by simp)
        simp [Call.isNext] at this
    · by_cases hgas : 0 < ctx.BlockHeight ∧ f.GetGas = 0
      · rw [AnteHandle_of_gas_check_failed T dfd s ctx tx simulate next f htx hm hgas.1 hgas.2]
        exact ⟨_, rfl, Or.inl (by simp)⟩
      · rcases hr : dfd.txFeeChecker s ctx tx with ⟨r, s1⟩
        cases r with
        | error err =>
          rw [AnteHandle_of_checker_error T dfd s ctx tx simulate next f err s1 htx hm hgas hr]
          exact ⟨_, rfl, Or.inl (by simp)⟩
        | ok fp =>
          obtain ⟨fee, priority⟩ := fp
          have hE := AnteHandle_of_checker_ok T dfd s ctx tx simulate next f fee priority s1 htx hm
            hgas hr
          rw [hE] at hshort ⊢
          cases hret : (checkDeductFee T dfd s1 ctx tx fee).ret with
          | some e =>
            simp only [hret]
            exact ⟨e, rfl, Or.inr ⟨[.ExecMode ctx, .txFeeChecker ctx tx], fee, s1, by simp, rfl,
              hret⟩⟩
          | none =>
            simp only [hret] at hshort
            have := hshort (.next (ctx.WithPriority priority) tx false) (by simp)
            simp [Call.isNext] at this

/-- C9, as stated, fails: `pauper` is named as fee granter for `alice`. The
fee-grant keeper accepts and records the use, then the bank refuses the
transfer. `AnteHandle` fails with an error of kind `ErrInsufficientFunds`, and
the successful `UseGrantedFees` call stands in the state it returns. -/
theorem AnteHandle_grant_applied_before_transfer_fails :
    (AnteHandle demoTypes demoDecorator emptyLedger (demoCtx 5 .Finalize)
        (demoTx 100 tenStake alice pauper) false demoNext).ret =
      (demoCtx 5 .Finalize,
        some (.wrap (.wrap ErrInsufficientFunds "spendable balance") "failed to deduct fees")) ∧
    ((AnteHandle demoTypes demoDecorator emptyLedger (demoCtx 5 .Finalize)
        (demoTx 100 tenStake alice pauper) false demoNext).ret.2.any
          (fun e => e.Is ErrInsufficientFunds)) = true ∧
    (AnteHandle demoTypes demoDecorator emptyLedger (demoCtx 5 .Finalize)
        (demoTx 100 tenStake alice pauper) false demoNext).trace.filter Call.applied =
      [.UseGrantedFees (demoCtx 5 .Finalize) pauper alice [⟨"stake", 3⟩]
        (demoTx 100 tenStake alice pauper).GetMsgs none] ∧
    (AnteHandle demoTypes demoDecorator emptyLedger (demoCtx 5 .Finalize)
        (demoTx 100 tenStake alice pauper) false demoNext).state =
      ⟨[], [(pauper, alice, [⟨"stake", 3⟩])]⟩ := by
  refine ⟨rfl, by decide, by decide, rfl⟩

/-- C9 (amended): on every run in which `AnteHandle` fails by itself (it
returns without calling `next`), the unchanged context comes back with an
error and
* no funds transfer has been applied: every bank call in the trace returned an
  error;
* the only keeper call that can have been applied is a successful
  `UseGrantedFees` for a fee granter different from the payer, and then the
  failure arose in the deduction after it: the invalid-fee error, or the
  wrapped error of the bank transfer from the granter (such as
  `InsufficientFunds`);
* if the fee-grant keeper rejected (`FeeGrantDenied`), nothing has been applied;
* if the fee checker failed (such as `InsufficientFee`), its error is returned
  and nothing has been applied. -/
theorem AnteHandle_failure_applied (T : Types) (dfd : DeductFeeDecorator S) (s : S)
    (ctx : Context) (tx : Tx) (simulate : Bool) (next : AnteHandler S)
    (hshort : ∀ c ∈ (AnteHandle T dfd s ctx tx simulate next).trace, c.isNext = false) :
    (∃ e, (AnteHandle T dfd s ctx tx simulate next).ret = (ctx, some e)) ∧
    (∀ c ∈ (AnteHandle T dfd s ctx tx simulate next).trace, c.isSend = true → c.applied = false) ∧
    (∀ c ∈ (AnteHandle T dfd s ctx tx simulate next).trace, c.applied = true →
      ∃ f g fee, tx.feeTx = some f ∧ f.FeeGranter = some g ∧
        bytesEqual (some g) f.FeePayer = false ∧
        c = .UseGrantedFees ctx (some g) f.FeePayer fee tx.GetMsgs none ∧
        ((AnteHandle T dfd s ctx tx simulate next).ret.2 =
            some (.wrap ErrInsufficientFee ("invalid fee amount: " ++ T.CoinsString fee)) ∨
          ∃ e1, (AnteHandle T dfd s ctx tx simulate next).ret.2 =
              some (.wrap e1 "failed to deduct fees") ∧
            Call.SendCoinsFromAccountToModule ctx (some g) T.FeeCollectorName fee (some e1) ∈
              (AnteHandle T dfd s ctx tx simulate next).trace)) ∧
    (∀ x g p fe m err,
      Call.UseGrantedFees x g p fe m (some err) ∈ (AnteHandle T dfd s ctx tx simulate next).trace →
      ∀ c ∈ (AnteHandle T dfd s ctx tx simulate next).trace, c.applied = false) ∧
    (∀ f err s1, tx.feeTx = some f →
      dfd.accountKeeper.execModeOf ctx ≠ ExecMode.Simulate →
      ¬ (0 < ctx.BlockHeight ∧ f.GetGas = 0) →
      dfd.txFeeChecker s ctx tx = (.error err, s1) →
      (AnteHandle T dfd s ctx tx simulate next).ret = (ctx, some err) ∧
      ∀ c ∈ (AnteHandle T dfd s ctx tx simulate next).trace, c.applied = false) := by
  obtain ⟨e, hret, hshape⟩ := AnteHandle_short_circuit T dfd s ctx tx simulate next hshort
  have hpre : ∀ c : Call, (c = .ExecMode ctx ∨ c = .txFeeChecker ctx tx) →
      c.applied = false ∧ c.isSend = false ∧ c.isUseGrantedFees = false := by
    rintro c (rfl | rfl) <;> exact ⟨rfl, rfl, rfl⟩
  refine ⟨⟨e, hret⟩, ?_, ?_, ?_, ?_⟩
  · intro c hc hsend
    rcases hshape with h | ⟨pre, fee, s1, hp, ht, hfail⟩
    · exact (hpre c (h c hc)).1
    · rw [ht] at hc
      rcases List.mem_append.1 hc with hc | hc
      · exact (hpre c (hp c hc)).1
      · obtain ⟨f, -, h⟩ := checkDeductFee_trace_mem T dfd s1 ctx tx fee c hc
        rcases checkDeductFee_failure T dfd s1 ctx tx fee e hfail with hno | ⟨f1, g, -, -, -, hR⟩
        · exact hno c hc
        · rcases hR with ⟨ht1, -⟩ | ⟨e1, ht1, -⟩
          · rw [ht1] at hc
            simp only [List.mem_cons, List.not_mem_nil, or_false] at hc
            rcases hc with rfl | rfl <;> simp [Call.isSend] at hsend
          · rw [ht1] at hc
            simp only [List.mem_cons, List.not_mem_nil, or_false] at hc
            rcases hc with rfl | rfl | rfl
            · rfl
            · simp [Call.isSend] at hsend
            · rfl
  · intro c hc happ
    rcases hshape with h | ⟨pre, fee, s1, hp, ht, hfail⟩
    · rw [(hpre c (h c hc)).1] at happ; cases happ
    · have hc1 := hc
      rw [ht] at hc1
      rcases List.mem_append.1 hc1 with hc1 | hc1
      · rw [(hpre c (hp c hc1)).1] at happ; cases happ
      · rcases checkDeductFee_failure T dfd s1 ctx tx fee e hfail with hno | ⟨f, g, hf, hg, hb, hR⟩
        · rw [hno c hc1] at happ; cases happ
        · refine ⟨f, g, fee, hf, hg, hb, ?_⟩
          rcases hR with ⟨ht1, he⟩ | ⟨e1, ht1, he⟩
          · rw [ht1] at hc1
            simp only [List.mem_cons, List.not_mem_nil, or_false] at hc1
            rcases hc1 with rfl | rfl
            · cases happ
            · exact ⟨rfl, Or.inl (by rw [hret, he])⟩
          · rw [ht1] at hc1
            simp only [List.mem_cons, List.not_mem_nil, or_false] at hc1
            have hsend : Call.SendCoinsFromAccountToModule ctx (some g) T.FeeCollectorName fee
                (some e1) ∈ (AnteHandle T dfd s ctx tx simulate next).trace := by
              rw [ht, ht1]; simp
            rcases hc1 with rfl | rfl | rfl
            · cases happ
            · exact ⟨rfl, Or.inr ⟨e1, by rw [hret, he], hsend⟩⟩
            · cases happ
  · intro x g p fe m err hmem c hc
    rcases hshape with h | ⟨pre, fee, s1, hp, ht, hfail⟩
    · exact (hpre c (h c hc)).1
    · rcases checkDeductFee_failure T dfd s1 ctx tx fee e hfail with hno | ⟨f, g1, -, -, -, hR⟩
      · rw [ht] at hc
        rcases List.mem_append.1 hc with hc | hc
        · exact (hpre c (hp c hc)).1
        · exact hno c hc
      · exfalso
        rw [ht] at hmem
        rcases List.mem_append.1 hmem with hmem | hmem
        · have := (hpre _ (hp _ hmem)).2.2
          simp [Call.isUseGrantedFees] at this
        · rcases hR with ⟨ht1, -⟩ | ⟨e1, ht1, -⟩ <;> rw [ht1] at hmem <;> simp at hmem
  · intro f err s1 htx hm hgas hr
    rw [AnteHandle_of_checker_error T dfd s ctx tx simulate next f err s1 htx hm hgas hr]
    refine ⟨rfl, ?_⟩
    intro c hc
    simp only [List.mem_cons, List.not_mem_nil, or_false] at hc
    rcases hc with rfl | rfl <;> rfl

/-- C9 (amended), evaluated on the run in which the bank refuses `pauper`: the
step returns without calling `next`, and no bank call in its trace was applied. -/
theorem AnteHandle_failure_applied_witness :
    ((AnteHandle demoTypes demoDecorator emptyLedger (demoCtx 5 .Finalize)
        (demoTx 100 tenStake alice pauper) false demoNext).trace.all
          (fun c => !c.isNext)) = true ∧
    ∀ c ∈ (AnteHandle demoTypes demoDecorator emptyLedger (demoCtx 5 .Finalize)
        (demoTx 100 tenStake alice pauper) false demoNext).trace,
      c.isSend = true → c.applied = false :=
  ⟨by decide,
    (AnteHandle_failure_applied demoTypes demoDecorator emptyLedger (demoCtx 5 .Finalize)
      (demoTx 100 tenStake alice pauper) false demoNext (by decide)).2.1⟩

/-! ## C10: a malformed fee -/

/-- C10, as stated, fails for `checkDeductFee`: on a non-zero malformed fee
the error it returns is not the invalid-fee error when an earlier step fails
first. With a fee granter whom the fee-grant keeper refuses it is the wrapped
keeper error of lines 99-110; with fee grants disabled it is the error of line
97; with no fee-collector address it is the error of line 84. -/
theorem checkDeductFee_invalid_fee_after_grant_denied :
    coinsIsZero minusOneStake = false ∧ coinsIsValid minusOneStake = false ∧
    (checkDeductFee demoTypes demoDecorator emptyLedger (demoCtx 5 .Finalize)
        (demoTx 100 minusOneStake alice miser) minusOneStake).ret =
      some (.wrap (.sentinel "ErrNoAllowance") "x does not allow to pay fees for x") ∧
    (checkDeductFee demoTypes demoDecoratorNoGrants emptyLedger (demoCtx 5 .Finalize)
        (demoTx 100 minusOneStake alice bob) minusOneStake).ret =
      some (.wrap ErrInvalidRequest "fee grants are not enabled") ∧
    (checkDeductFee demoTypes bareDecorator emptyLedger (demoCtx 5 .Finalize)
        (demoTx 100 minusOneStake alice none) minusOneStake).ret =
      some (.errorf "fee collector module account (fee_collector) has not been set") := by
  refine ⟨by decide, by decide, by decide, by decide, by decide⟩

/-- C10 (amended): for every effective fee that is not exactly zero and is
not a well-formed coin set, `DeductFees` fails with the invalid-fee error
(`ErrInsufficientFee` wrapped with "invalid fee amount: " and the fee) without
calling the bank or touching the state. Hence `checkDeductFee` always fails on
such a fee, never calls the bank and emits no event; its error is the
invalid-fee error whenever its earlier steps pass, that is for a FeeTx with
the fee-collector account set and either no fee granter, or fee grants enabled
with the granter equal to the payer or accepted by the fee-grant keeper. -/
theorem DeductFees_invalid_fee (T : Types) (dfd : DeductFeeDecorator S) (s : S)
    (ctx : Context) (tx : Tx) (fee : Coins)
    (hnz : T.IsZero fee = false) (hv : T.IsValid fee = false) :
    (∀ (s0 : S) (acc : Bytes),
      DeductFees T dfd.bankKeeper s0 ctx acc fee =
        ⟨some (.wrap ErrInsufficientFee ("invalid fee amount: " ++ T.CoinsString fee)), s0, []⟩) ∧
    (Err.wrap ErrInsufficientFee ("invalid fee amount: " ++ T.CoinsString fee)).Is
      ErrInsufficientFee = true ∧
    (checkDeductFee T dfd s ctx tx fee).ret ≠ none ∧
    (∀ c ∈ (checkDeductFee T dfd s ctx tx fee).trace, c.isSend = false ∧ c.isEmitEvents = false) ∧
    (∀ f, tx.feeTx = some f →
      (dfd.accountKeeper.GetModuleAddress T.FeeCollectorName).len ≠ 0 →
      (f.FeeGranter = none ∨
        ∃ g fk, f.FeeGranter = some g ∧ dfd.feegrantKeeper = some fk ∧
          (bytesEqual (some g) f.FeePayer = true ∨
            (fk.UseGrantedFees s ctx (some g) f.FeePayer fee tx.GetMsgs).1 = none)) →
      (checkDeductFee T dfd s ctx tx fee).ret =
        some (.wrap ErrInsufficientFee ("invalid fee amount: " ++ T.CoinsString fee))) := by
  have hD : ∀ (s0 : S) (acct : Bytes), deductAndEmit T dfd s0 ctx fee acct =
      ⟨some (.wrap ErrInsufficientFee ("invalid fee amount: " ++ T.CoinsString fee)), s0, []⟩ := by
    intro s0 acct
    rw [deductAndEmit_eq]
    simp [hnz, hv]
  have hfail : (checkDeductFee T dfd s ctx tx fee).ret ≠ none ∧
      ∀ c ∈ (checkDeductFee T dfd s ctx tx fee).trace,
        c.isSend = false ∧ c.isEmitEvents = false := by
    cases htx : tx.feeTx with
    | none => rw [checkDeductFee_of_not_feeTx T dfd s ctx tx fee htx]; simp
    | some f =>
      by_cases hcol : (dfd.accountKeeper.GetModuleAddress T.FeeCollectorName).len = 0
      · rw [checkDeductFee_of_no_collector T dfd s ctx tx fee f htx hcol]
        simp [Call.isSend, Call.isEmitEvents]
      · cases hg : f.FeeGranter with
        | none =>
          rw [checkDeductFee_of_no_granter T dfd s ctx tx fee f htx hcol hg, hD]
          simp [Out.after, Call.isSend, Call.isEmitEvents]
        | some g =>
          cases hk : dfd.feegrantKeeper with
          | none =>
            rw [checkDeductFee_of_grants_disabled T dfd s ctx tx fee f g htx hcol hg hk]
            simp [Call.isSend, Call.isEmitEvents]
          | some fk =>
            cases hb : bytesEqual (some g) f.FeePayer with
            | true =>
              rw [checkDeductFee_of_granter_eq_payer T dfd s ctx tx fee f g fk htx hcol hg hk hb,
                hD]
              simp [Out.after, Call.isSend, Call.isEmitEvents]
            | false =>
              rcases hr : fk.UseGrantedFees s ctx (some g) f.FeePayer fee tx.GetMsgs with ⟨r, s1⟩
              cases r with
              | some err =>
                rw [checkDeductFee_of_grant_rejected T dfd s ctx tx fee f g fk err s1 htx hcol hg
                  hk hb hr]
                refine ⟨by simp, ?_⟩
                intro c hc
                simp only [List.mem_append, List.mem_cons, List.not_mem_nil, or_false] at hc
                rcases hc with (rfl | rfl) | hc
                · exact ⟨rfl, rfl⟩
                · exact ⟨rfl, rfl⟩
                · obtain ⟨bz, rfl⟩ := (grantDeniedError_spec _ _ _ _).2 c hc
                  exact ⟨rfl, rfl⟩
              | none =>
                rw [checkDeductFee_of_grant_accepted T dfd s ctx tx fee f g fk s1 htx hcol hg hk
                  hb hr, hD]
                simp [Out.after, Call.isSend, Call.isEmitEvents]
  refine ⟨fun s0 acc => DeductFees_of_invalid T dfd.bankKeeper s0 ctx acc fee hv, ?_, hfail.1,
    hfail.2, ?_⟩
  · exact Err.Is_wrap _ _
  · intro f htx hcol hreach
    rcases hreach with hg | ⟨g, fk, hg, hk, hb | hacc⟩
    · rw [checkDeductFee_of_no_granter T dfd s ctx tx fee f htx hcol hg, hD]; rfl
    · rw [checkDeductFee_of_granter_eq_payer T dfd s ctx tx fee f g fk htx hcol hg hk hb, hD]; rfl
    · cases hb : bytesEqual (some g) f.FeePayer with
      | true =>
        rw [checkDeductFee_of_granter_eq_payer T dfd s ctx tx fee f g fk htx hcol hg hk hb, hD]
        rfl
      | false =>
        rcases hr : fk.UseGrantedFees s ctx (some g) f.FeePayer fee tx.GetMsgs with ⟨r, s1⟩
        rw [hr] at hacc
        cases hacc
        rw [checkDeductFee_of_grant_accepted T dfd s ctx tx fee f g fk s1 htx hcol hg hk hb hr, hD]
        rfl

/-- C10 (amended), evaluated: `alice` pays a fee of minus one stake herself. -/
theorem DeductFees_invalid_fee_witness :
    (checkDeductFee demoTypes demoDecorator emptyLedger (demoCtx 5 .Finalize)
        (demoTx 100 minusOneStake alice none) minusOneStake).ret =
      some (.wrap ErrInsufficientFee "invalid fee amount: stake") :=
  (DeductFees_invalid_fee demoTypes demoDecorator emptyLedger (demoCtx 5 .Finalize)
    (demoTx 100 minusOneStake alice none) minusOneStake (by decide) (by decide)).2.2.2.2
    ⟨100, minusOneStake, alice, none⟩ rfl (by decide) (Or.inl rfl)

/-! ## Decomposition of a run -/

/-- Every run of `checkDeductFee` either fails before the deduction, having
made no bank call and emitted no event, or is lines 116-133 run on the
resolved account after some calls that are neither bank calls nor events. -/
theorem checkDeductFee_cases (T : Types) (dfd : DeductFeeDecorator S) (s : S)
    (ctx : Context) (tx : Tx) (fee : Coins) :
    (∃ e, (checkDeductFee T dfd s ctx tx fee).ret = some e ∧
      ∀ c ∈ (checkDeductFee T dfd s ctx tx fee).trace,
        c.isSend = false ∧ c.isEmitEvents = false) ∨
    (∃ f s1 pre, tx.feeTx = some f ∧
      (∀ c ∈ pre, c.isSend = false ∧ c.isEmitEvents = false) ∧
      checkDeductFee T dfd s ctx tx fee =
        (deductAndEmit T dfd s1 ctx fee (deductFeesFrom f)).after pre) := by
  cases htx : tx.feeTx with
  | none =>
    rw [checkDeductFee_of_not_feeTx T dfd s ctx tx fee htx]
    exact Or.inl ⟨_, rfl, by simp⟩
  | some f =>
    by_cases hcol : (dfd.accountKeeper.GetModuleAddress T.FeeCollectorName).len = 0
    · rw [checkDeductFee_of_no_collector T dfd s ctx tx fee f htx hcol]
      exact Or.inl ⟨_, rfl, by simp [Call.isSend, Call.isEmitEvents]⟩
    · cases hg : f.FeeGranter with
      | none =>
        right
        refine ⟨f, s, [.GetModuleAddress T.FeeCollectorName], rfl, ?_, ?_⟩
        · simp [Call.isSend, Call.isEmitEvents]
        · rw [checkDeductFee_of_no_granter T dfd s ctx tx fee f htx hcol hg]
          simp [deductFeesFrom, hg]
      | some g =>
        have hd : deductFeesFrom f = some g := by simp [deductFeesFrom, hg]
        cases hk : dfd.feegrantKeeper with
        | none =>
          rw [checkDeductFee_of_grants_disabled T dfd s ctx tx fee f g htx hcol hg hk]
          exact Or.inl ⟨_, rfl, by simp [Call.isSend, Call.isEmitEvents]⟩
        | some fk =>
          cases hb : bytesEqual (some g) f.FeePayer with
          | true =>
            right
            refine ⟨f, s, [.GetModuleAddress T.FeeCollectorName], rfl, ?_, ?_⟩
            · simp [Call.isSend, Call.isEmitEvents]
            · rw [checkDeductFee_of_granter_eq_payer T dfd s ctx tx fee f g fk htx hcol hg hk hb,
                hd]
          | false =>
            rcases hr : fk.UseGrantedFees s ctx (some g) f.FeePayer fee tx.GetMsgs with ⟨r, s1⟩
            cases r with
            | some err =>
              rw [checkDeductFee_of_grant_rejected T dfd s ctx tx fee f g fk err s1 htx hcol hg hk
                hb hr]
              refine Or.inl ⟨_, rfl, ?_⟩
              intro c hc
              simp only [List.mem_append, List.mem_cons, List.not_mem_nil, or_false] at hc
              rcases hc with (rfl | rfl) | hc
              · exact ⟨rfl, rfl⟩
              · exact ⟨rfl, rfl⟩
              · obtain ⟨bz, rfl⟩ := (grantDeniedError_spec _ _ _ _).2 c hc
                exact ⟨rfl, rfl⟩
            | none =>
              right
              refine ⟨f, s1, [.GetModuleAddress T.FeeCollectorName,
                .UseGrantedFees ctx (some g) f.FeePayer fee tx.GetMsgs none], rfl, ?_, ?_⟩
              · simp [Call.isSend, Call.isEmitEvents]
              · rw [checkDeductFee_of_grant_accepted T dfd s ctx tx fee f g fk s1 htx hcol hg hk
                  hb hr, hd]

/-- Every run of `AnteHandle` is of one of three kinds. It stops before
`checkDeductFee`, returning the unchanged context with an error after at most
the execution-mode read and the fee-checker call. Or `checkDeductFee` fails
and its error comes back with the unchanged context. Or `checkDeductFee`
succeeds and `next` is called last, on the context with the computed priority
attached, its result being returned. -/
theorem AnteHandle_cases (T : Types) (dfd : DeductFeeDecorator S) (s : S)
    (ctx : Context) (tx : Tx) (simulate : Bool) (next : AnteHandler S) :
    (∃ e, (AnteHandle T dfd s ctx tx simulate next).ret = (ctx, some e) ∧
      ∀ c ∈ (AnteHandle T dfd s ctx tx simulate next).trace,
        c = .ExecMode ctx ∨ c = .txFeeChecker ctx tx) ∨
    (∃ fee s1 pre e, (∀ c ∈ pre, c = .ExecMode ctx ∨ c = .txFeeChecker ctx tx) ∧
      (checkDeductFee T dfd s1 ctx tx fee).ret = some e ∧
      AnteHandle T dfd s ctx tx simulate next =
        ⟨(ctx, some e), (checkDeductFee T dfd s1 ctx tx fee).state,
          pre ++ (checkDeductFee T dfd s1 ctx tx fee).trace⟩) ∨
    (∃ fee priority s1 pre, (∀ c ∈ pre, c = .ExecMode ctx ∨ c = .txFeeChecker ctx tx) ∧
      (checkDeductFee T dfd s1 ctx tx fee).ret = none ∧
      AnteHandle T dfd s ctx tx simulate next =
        ⟨(next (checkDeductFee T dfd s1 ctx tx fee).state (ctx.WithPriority priority) tx false).1,
          (next (checkDeductFee T dfd s1 ctx tx fee).state (ctx.WithPriority priority) tx false).2,
          pre ++ (checkDeductFee T dfd s1 ctx tx fee).trace ++
            [.next (ctx.WithPriority priority) tx false]⟩) := by
  cases htx : tx.feeTx with
  | none =>
    rw [AnteHandle_of_not_feeTx T dfd s ctx tx simulate next htx]
    exact Or.inl ⟨_, rfl, by simp⟩
  | some f =>
    by_cases hm : dfd.accountKeeper.execModeOf ctx = ExecMode.Simulate
    · have hE := AnteHandle_of_simulate T dfd s ctx tx simulate next f htx hm
      rw [hE]
      cases hret : (checkDeductFee T dfd s ctx tx f.GetFee).ret with
      | some e =>
        exact Or.inr (Or.inl ⟨f.GetFee, s, [.ExecMode ctx], e, by simp, hret, by simp⟩)
      | none =>
        exact Or.inr (Or.inr ⟨f.GetFee, 0, s, [.ExecMode ctx], by simp, hret, by simp⟩)
    · by_cases hgas : 0 < ctx.BlockHeight ∧ f.GetGas = 0
      · rw [AnteHandle_of_gas_check_failed T dfd s ctx tx simulate next f htx hm hgas.1 hgas.2]
        exact Or.inl ⟨_, rfl, by simp⟩
      · rcases hr : dfd.txFeeChecker s ctx tx with ⟨r, s1⟩
        cases r with
        | error err =>
          rw [AnteHandle_of_checker_error T dfd s ctx tx simulate next f err s1 htx hm hgas hr]
          exact Or.inl ⟨_, rfl, by simp⟩
        | ok fp =>
          obtain ⟨fee, priority⟩ := fp
          rw [AnteHandle_of_checker_ok T dfd s ctx tx simulate next f fee priority s1 htx hm
            hgas hr]
          cases hret : (checkDeductFee T dfd s1 ctx tx fee).ret with
          | some e =>
            exact Or.inr (Or.inl ⟨fee, s1, [.ExecMode ctx, .txFeeChecker ctx tx], e, by simp,
              hret, by simp⟩)
          | none =>
            exact Or.inr (Or.inr ⟨fee, priority, s1, [.ExecMode ctx, .txFeeChecker ctx tx],
              by simp, hret, by simp⟩)

/-! ## C11: a zero fee -/

/-- `checkDeductFee` on a zero fee that reaches lines 116-133: no deduction,
the fee event is emitted and nil is returned. -/
theorem deductAndEmit_of_zero (T : Types) (dfd : DeductFeeDecorator S) (s : S) (ctx : Context)
    (fee : Coins) (acct : Bytes) (hz : T.IsZero fee = true) :
    deductAndEmit T dfd s ctx fee acct = ⟨none, s, [.EmitEvents [feeEvent T fee acct]]⟩ := by
  rw [deductAndEmit_eq]
  simp [hz]

/-- C11, as stated, fails: a zero fee does not make `checkDeductFee` succeed
when an earlier step fails. With no fee-collector address it returns the
error of line 84, and with a fee granter whom the fee-grant keeper refuses it
returns the wrapped keeper error; no event is emitted in either run. -/
theorem checkDeductFee_zero_fee_can_fail :
    coinsIsZero zeroStake = true ∧
    checkDeductFee demoTypes bareDecorator emptyLedger (demoCtx 5 .Finalize)
        (demoTx 100 zeroStake alice none) zeroStake =
      ⟨some (.errorf "fee collector module account (fee_collector) has not been set"),
        emptyLedger, [.GetModuleAddress "fee_collector"]⟩ ∧
    (checkDeductFee demoTypes demoDecorator emptyLedger (demoCtx 5 .Finalize)
        (demoTx 100 zeroStake alice miser) zeroStake).ret =
      some (.wrap (.sentinel "ErrNoAllowance") "x does not allow to pay fees for x") ∧
    (checkDeductFee demoTypes demoDecorator emptyLedger (demoCtx 5 .Finalize)
        (demoTx 100 zeroStake alice miser) zeroStake).trace.any Call.isEmitEvents = false := by
  exact ⟨by decide, rfl, by decide, by decide⟩

/-- C11 (amended): whenever the effective fee is exactly zero,
`checkDeductFee` skips the deduction entirely: the bank keeper is not called,
and no well-formedness validation takes part in the run (replacing `IsValid`
by any other function changes nothing). Provided its earlier steps pass (a
FeeTx, the fee-collector account set, and either no fee granter, or fee grants
enabled with the granter equal to the payer or accepted by the fee-grant
keeper), it succeeds and emits the fee event as its last call. And whenever
`checkDeductFee` succeeds inside `AnteHandle`, `AnteHandle` continues to
`next`. -/
theorem checkDeductFee_zero_fee (T : Types) (dfd : DeductFeeDecorator S) (s : S)
    (ctx : Context) (tx : Tx) (fee : Coins) (hz : T.IsZero fee = true) :
    (∀ c ∈ (checkDeductFee T dfd s ctx tx fee).trace, c.isSend = false) ∧
    (∀ v : Coins → Bool,
      checkDeductFee { T with IsValid := v } dfd s ctx tx fee = checkDeductFee T dfd s ctx tx fee) ∧
    (∀ f, tx.feeTx = some f →
      (dfd.accountKeeper.GetModuleAddress T.FeeCollectorName).len ≠ 0 →
      (f.FeeGranter = none ∨
        ∃ g fk, f.FeeGranter = some g ∧ dfd.feegrantKeeper = some fk ∧
          (bytesEqual (some g) f.FeePayer = true ∨
            (fk.UseGrantedFees s ctx (some g) f.FeePayer fee tx.GetMsgs).1 = none)) →
      (checkDeductFee T dfd s ctx tx fee).ret = none ∧
      (checkDeductFee T dfd s ctx tx fee).trace.filter Call.isEmitEvents =
        [.EmitEvents [feeEvent T fee (deductFeesFrom f)]] ∧
      (checkDeductFee T dfd s ctx tx fee).trace.getLast? =
        some (.EmitEvents [feeEvent T fee (deductFeesFrom f)])) ∧
    (∀ (s0 : S) (simulate : Bool) (next : AnteHandler S) (f : FeeTx) (priority : Int),
      tx.feeTx = some f →
      ¬ (dfd.accountKeeper.execModeOf ctx ≠ ExecMode.Simulate ∧ 0 < ctx.BlockHeight ∧
        f.GetGas = 0) →
      ((dfd.accountKeeper.execModeOf ctx = ExecMode.Simulate ∧ fee = f.GetFee ∧ priority = 0 ∧
          s = s0) ∨
        (dfd.accountKeeper.execModeOf ctx ≠ ExecMode.Simulate ∧
          dfd.txFeeChecker s0 ctx tx = (.ok (fee, priority), s))) →
      (checkDeductFee T dfd s ctx tx fee).ret = none →
      (AnteHandle T dfd s0 ctx tx simulate next).ret =
          (next (checkDeductFee T dfd s ctx tx fee).state (ctx.WithPriority priority) tx false).1 ∧
        (AnteHandle T dfd s0 ctx tx simulate next).trace.getLast? =
          some (.next (ctx.WithPriority priority) tx false) ∧
        ∀ c ∈ (AnteHandle T dfd s0 ctx tx simulate next).trace, c.isSend = false) := by
  have hsend : ∀ c ∈ (checkDeductFee T dfd s ctx tx fee).trace, c.isSend = false := by
    intro c hc
    rcases checkDeductFee_cases T dfd s ctx tx fee with ⟨e, -, h⟩ | ⟨f, s1, pre, -, hpre, hE⟩
    · exact (h c hc).1
    · rw [hE, deductAndEmit_of_zero T dfd s1 ctx fee _ hz] at hc
      simp only [Out.after, List.mem_append, List.mem_singleton] at hc
      rcases hc with hc | rfl
      · exact (hpre c hc).1
      · rfl
  refine ⟨hsend, ?_, ?_, ?_⟩
  · intro v
    simp [checkDeductFee, deductAndEmit, hz, feeEvent]
  · intro f htx hcol hreach
    have hfin : ∀ (s1 : S) (pre : List Call), (∀ c ∈ pre, c.isEmitEvents = false) →
        checkDeductFee T dfd s ctx tx fee =
          (deductAndEmit T dfd s1 ctx fee (deductFeesFrom f)).after pre →
        (checkDeductFee T dfd s ctx tx fee).ret = none ∧
        (checkDeductFee T dfd s ctx tx fee).trace.filter Call.isEmitEvents =
          [.EmitEvents [feeEvent T fee (deductFeesFrom f)]] ∧
        (checkDeductFee T dfd s ctx tx fee).trace.getLast? =
          some (.EmitEvents [feeEvent T fee (deductFeesFrom f)]) := by
      intro s1 pre hpre hE
      rw [hE, deductAndEmit_of_zero T dfd s1 ctx fee _ hz]
      refine ⟨rfl, ?_, ?_⟩
      · simp only [Out.after, List.filter_append]
        have : pre.filter Call.isEmitEvents = [] := by
          rw [List.filter_eq_nil_iff]
          intro c hc
          simp [hpre c hc]
        simp [this, List.filter, Call.isEmitEvents]
      · simp [Out.after]
    rcases hreach with hg | ⟨g, fk, hg, hk, hb | hacc⟩
    · refine hfin s [.GetModuleAddress T.FeeCollectorName] (by simp [Call.isEmitEvents]) ?_
      rw [checkDeductFee_of_no_granter T dfd s ctx tx fee f htx hcol hg]
      simp [deductFeesFrom, hg]
    · refine hfin s [.GetModuleAddress T.FeeCollectorName] (by simp [Call.isEmitEvents]) ?_
      rw [checkDeductFee_of_granter_eq_payer T dfd s ctx tx fee f g fk htx hcol hg hk hb]
      simp [deductFeesFrom, hg]
    · cases hb : bytesEqual (some g) f.FeePayer with
      | true =>
        refine hfin s [.GetModuleAddress T.FeeCollectorName] (by simp [Call.isEmitEvents]) ?_
        rw [checkDeductFee_of_granter_eq_payer T dfd s ctx tx fee f g fk htx hcol hg hk hb]
        simp [deductFeesFrom, hg]
      | false =>
        rcases hr : fk.UseGrantedFees s ctx (some g) f.FeePayer fee tx.GetMsgs with ⟨r, s1⟩
        rw [hr] at hacc
        cases hacc
        refine hfin s1 [.GetModuleAddress T.FeeCollectorName,
          .UseGrantedFees ctx (some g) f.FeePayer fee tx.GetMsgs none]
          (by simp [Call.isEmitEvents]) ?_
        rw [checkDeductFee_of_grant_accepted T dfd s ctx tx fee f g fk s1 htx hcol hg hk hb hr]
        simp [deductFeesFrom, hg]
  · intro s0 simulate next f priority htx hgas heff hok
    have hE : AnteHandle T dfd s0 ctx tx simulate next =
        ⟨(next (checkDeductFee T dfd s ctx tx fee).state (ctx.WithPriority priority) tx false).1,
          (next (checkDeductFee T dfd s ctx tx fee).state (ctx.WithPriority priority) tx false).2,
          (if dfd.accountKeeper.execModeOf ctx = ExecMode.Simulate then [.ExecMode ctx]
            else [.ExecMode ctx, .txFeeChecker ctx tx]) ++
            (checkDeductFee T dfd s ctx tx fee).trace ++
            [.next (ctx.WithPriority priority) tx false]⟩ := by
      rcases heff with ⟨hm, rfl, rfl, rfl⟩ | ⟨hm, hr⟩
      · rw [AnteHandle_of_simulate T dfd s ctx tx simulate next f htx hm, hok]
        simp [hm]
      · have hgas1 : ¬ (0 < ctx.BlockHeight ∧ f.GetGas = 0) := fun h => hgas ⟨hm, h.1, h.2⟩
        rw [AnteHandle_of_checker_ok T dfd s0 ctx tx simulate next f fee priority s htx hm hgas1
          hr, hok]
        simp [hm]
    rw [hE]
    refine ⟨rfl, by simp, ?_⟩
    intro c hc
    simp only [List.mem_append, List.mem_singleton] at hc
    rcases hc with (hc | hc) | rfl
    · split at hc
      · simp at hc; subst hc; rfl
      · simp at hc; rcases hc with rfl | rfl <;> rfl
    · exact hsend c hc
    · rfl

/-- C11 (amended), evaluated: `alice` pays a zero fee herself; nothing is sent,
the event is emitted and `AnteHandle` hands over to `next`. -/
theorem checkDeductFee_zero_fee_witness :
    checkDeductFee demoTypes demoDecorator emptyLedger (demoCtx 5 .Simulate)
        (demoTx 100 zeroStake alice none) zeroStake =
      ⟨none, emptyLedger,
        [.GetModuleAddress "fee_collector", .EmitEvents [feeEvent demoTypes zeroStake alice]]⟩ ∧
    (checkDeductFee demoTypes demoDecorator emptyLedger (demoCtx 5 .Simulate)
        (demoTx 100 zeroStake alice none) zeroStake).trace.filter Call.isEmitEvents =
      [.EmitEvents [feeEvent demoTypes zeroStake alice]] :=
  ⟨rfl, ((checkDeductFee_zero_fee demoTypes demoDecorator emptyLedger (demoCtx 5 .Simulate)
    (demoTx 100 zeroStake alice none) zeroStake (by decide)).2.2.1
    ⟨100, zeroStake, alice, none⟩ rfl (by decide) (Or.inl rfl)).2.1⟩

/-! ## C12: a failing funds transfer -/

/-- Whatever matches the cause under `errors.Is` still matches the wrapped error. -/
theorem Err.Is_wrap_of_Is (e k : Err) (msg : String) (h : e.Is k = true) :
    (Err.wrap e msg).Is k = true := by
  simp [Err.Is, h]

/-- A failed bank call in the trace of lines 116-133 is the whole trace, and
its error comes back wrapped. -/
theorem deductAndEmit_send_failed (T : Types) (dfd : DeductFeeDecorator S) (s : S)
    (ctx : Context) (fee : Coins) (acct : Bytes) (x : Context) (a : Bytes) (n : String)
    (amt : Coins) (e : Err)
    (hmem : Call.SendCoinsFromAccountToModule x a n amt (some e) ∈
      (deductAndEmit T dfd s ctx fee acct).trace) :
    (deductAndEmit T dfd s ctx fee acct).ret = some (.wrap e "failed to deduct fees") ∧
    (deductAndEmit T dfd s ctx fee acct).trace =
      [.SendCoinsFromAccountToModule ctx acct T.FeeCollectorName fee (some e)] := by
  rw [deductAndEmit_eq] at hmem ⊢
  split at hmem
  · simp at hmem
  · rename_i hz
    rw [if_neg hz]
    split at hmem
    · rename_i hv
      rw [if_pos hv]
      split at hmem
      · rename_i e1 s1 heq
        simp only [heq]
        simp only [List.mem_singleton, Call.SendCoinsFromAccountToModule.injEq,
          Option.some.injEq] at hmem
        obtain ⟨-, -, -, -, rfl⟩ := hmem
        exact ⟨rfl, rfl⟩
      · simp at hmem
    · simp at hmem

/-- A failed bank call in the trace of `checkDeductFee` makes it return the
wrapped bank error without emitting an event. -/
theorem checkDeductFee_send_failed (T : Types) (dfd : DeductFeeDecorator S) (s : S)
    (ctx : Context) (tx : Tx) (fee : Coins) (x : Context) (a : Bytes) (n : String)
    (amt : Coins) (e : Err)
    (hmem : Call.SendCoinsFromAccountToModule x a n amt (some e) ∈
      (checkDeductFee T dfd s ctx tx fee).trace) :
    (checkDeductFee T dfd s ctx tx fee).ret = some (.wrap e "failed to deduct fees") ∧
    ∀ c ∈ (checkDeductFee T dfd s ctx tx fee).trace, c.isEmitEvents = false := by
  rcases checkDeductFee_cases T dfd s ctx tx fee with ⟨e0, -, h⟩ | ⟨f, s1, pre, -, hpre, hE⟩
  · have := (h _ hmem).1
    simp [Call.isSend] at this
  · rw [hE] at hmem ⊢
    simp only [Out.after, List.mem_append] at hmem ⊢
    rcases hmem with hmem | hmem
    · have := (hpre _ hmem).1
      simp [Call.isSend] at this
    · obtain ⟨hret, htr⟩ := deductAndEmit_send_failed T dfd s1 ctx fee _ x a n amt e hmem
      refine ⟨hret, ?_⟩
      intro c hc
      rw [htr] at hc
      simp only [List.mem_singleton] at hc
      rcases hc with hc | rfl
      · exact (hpre c hc).2
      · rfl

/-- C12: whenever the bank call `SendCoinsFromAccountToModule` made by
`DeductFees` fails with error `e`, `DeductFees` returns an error that wraps
`e`: `e` itself and every kind `e` matches under `errors.Is` (such as
`ErrInsufficientFunds`) are still matched by the returned error. And whenever
that failed bank call occurs in a run of `AnteHandle`, `AnteHandle` returns
that wrapped error with the unchanged context, without emitting the fee event
and without calling `next`. -/
theorem DeductFees_transfer_error (T : Types) (dfd : DeductFeeDecorator S) (s : S)
    (ctx : Context) (tx : Tx) (simulate : Bool) (next : AnteHandler S) :
    (∀ (s0 : S) (acc : Bytes) (fees : Coins) (x : Context) (a : Bytes) (n : String)
        (amt : Coins) (e : Err),
      Call.SendCoinsFromAccountToModule x a n amt (some e) ∈
          (DeductFees T dfd.bankKeeper s0 ctx acc fees).trace →
        (DeductFees T dfd.bankKeeper s0 ctx acc fees).ret =
          some (.wrap e "failed to deduct fees") ∧
        (Err.wrap e "failed to deduct fees").Is e = true ∧
        ∀ k, e.Is k = true → (Err.wrap e "failed to deduct fees").Is k = true) ∧
    (∀ (x : Context) (a : Bytes) (n : String) (amt : Coins) (e : Err),
      Call.SendCoinsFromAccountToModule x a n amt (some e) ∈
          (AnteHandle T dfd s ctx tx simulate next).trace →
        (AnteHandle T dfd s ctx tx simulate next).ret =
          (ctx, some (.wrap e "failed to deduct fees")) ∧
        ∀ c ∈ (AnteHandle T dfd s ctx tx simulate next).trace,
          c.isEmitEvents = false ∧ c.isNext = false) := by
  constructor
  · intro s0 acc fees x a n amt e hmem
    refine ⟨?_, Err.Is_wrap _ _, fun k hk => Err.Is_wrap_of_Is _ _ _ hk⟩
    unfold DeductFees at hmem ⊢
    split at hmem
    · simp at hmem
    · split at hmem
      · rename_i e1 s1 heq
        simp only [List.mem_singleton, Call.SendCoinsFromAccountToModule.injEq,
          Option.some.injEq] at hmem
        obtain ⟨-, -, -, -, rfl⟩ := hmem
        simp [*]
      · simp at hmem
  · intro x a n amt e hmem
    have hpre : ∀ c : Call, (c = .ExecMode ctx ∨ c = .txFeeChecker ctx tx) →
        c.isSend = false ∧ c.isEmitEvents = false ∧ c.isNext = false := by
      rintro c (rfl | rfl) <;> exact ⟨rfl, rfl, rfl⟩
    rcases AnteHandle_cases T dfd s ctx tx simulate next with
      ⟨e0, -, h⟩ | ⟨fee, s1, pre, e0, hp, hfail, hE⟩ | ⟨fee, pr, s1, pre, hp, hok, hE⟩
    · have := (hpre _ (h _ hmem)).1
      simp [Call.isSend] at this
    · rw [hE] at hmem ⊢
      simp only [List.mem_append] at hmem ⊢
      rcases hmem with hmem | hmem
      · have := (hpre _ (hp _ hmem)).1
        simp [Call.isSend] at this
      · obtain ⟨hret, hno⟩ := checkDeductFee_send_failed T dfd s1 ctx tx fee x a n amt e hmem
        rw [hfail] at hret
        cases hret
        refine ⟨rfl, ?_⟩
        rintro c (hc | hc)
        · exact ⟨(hpre c (hp c hc)).2.1, (hpre c (hp c hc)).2.2⟩
        · exact ⟨hno c hc, (checkDeductFee_trace_kinds T dfd s1 ctx tx fee c hc).2⟩
    · exfalso
      rw [hE] at hmem
      simp only [List.mem_append, List.mem_singleton] at hmem
      rcases hmem with (hmem | hmem) | hmem
      · have := (hpre _ (hp _ hmem)).1
        simp [Call.isSend] at this
      · have := (checkDeductFee_send_failed T dfd s1 ctx tx fee x a n amt e hmem).1
        rw [hok] at this
        cases this
      · cases hmem

/-- C12, evaluated: the bank refuses `pauper`; `AnteHandle` returns the bank
error wrapped, and the `ErrInsufficientFunds` kind is still recognised. -/
theorem DeductFees_transfer_error_witness :
    (AnteHandle demoTypes demoDecorator emptyLedger (demoCtx 5 .Simulate)
        (demoTx 100 tenStake pauper none) false demoNext).ret =
      (demoCtx 5 .Simulate,
        some (.wrap (.wrap ErrInsufficientFunds "spendable balance") "failed to deduct fees")) ∧
    (Err.wrap (.wrap ErrInsufficientFunds "spendable balance") "failed to deduct fees").Is
      ErrInsufficientFunds = true :=
  ⟨((DeductFees_transfer_error demoTypes demoDecorator emptyLedger (demoCtx 5 .Simulate)
      (demoTx 100 tenStake pauper none) false demoNext).2 (demoCtx 5 .Simulate) pauper
      "fee_collector" tenStake (.wrap ErrInsufficientFunds "spendable balance")
      (by decide)).1,
    ((DeductFees_transfer_error demoTypes demoDecorator emptyLedger (demoCtx 5 .Simulate)
      (demoTx 100 tenStake pauper none) false demoNext).1 emptyLedger pauper tenStake
      (demoCtx 5 .Simulate) pauper "fee_collector" tenStake
      (.wrap ErrInsufficientFunds "spendable balance") (by decide)).2.2 ErrInsufficientFunds
      (by decide)⟩

/-! ## C13, C14: handing over to `next` -/

/-- The calls `AnteHandle` makes before `checkDeductFee` are not calls to `next`. -/
theorem countP_isNext_pre (ctx : Context) (tx : Tx) (pre : List Call)
    (hp : ∀ c ∈ pre, c = .ExecMode ctx ∨ c = .txFeeChecker ctx tx) :
    pre.countP Call.isNext = 0 := by
  rw [List.countP_eq_zero]
  intro c hc
  rcases hp c hc with rfl | rfl <;> simp [Call.isNext]

/-- The method `checkDeductFee` makes no call to `next`. -/
theorem countP_isNext_checkDeductFee (T : Types) (dfd : DeductFeeDecorator S) (s : S)
    (ctx : Context) (tx : Tx) (fee : Coins) :
    (checkDeductFee T dfd s ctx tx fee).trace.countP Call.isNext = 0 := by
  rw [List.countP_eq_zero]
  intro c hc
  simp [(checkDeductFee_trace_kinds T dfd s ctx tx fee c hc).2]

/-- C13: on every successful run of the fee step of `AnteHandle` (the
transaction is a FeeTx, the gas check passes, the effective fee and priority
are the stated fee and 0 under simulation and otherwise what the fee checker
returned, and `checkDeductFee` returns nil on that fee), `next` is invoked
exactly once, as the last call, on the input context changed only by
`WithPriority(priority)` and on the same transaction, and `AnteHandle` returns
exactly what `next` returns. -/
theorem AnteHandle_success_next (T : Types) (dfd : DeductFeeDecorator S) (s : S)
    (ctx : Context) (tx : Tx) (simulate : Bool) (next : AnteHandler S) (f : FeeTx)
    (fee : Coins) (priority : Int) (s1 : S)
    (htx : tx.feeTx = some f)
    (hgas : ¬ (dfd.accountKeeper.execModeOf ctx ≠ ExecMode.Simulate ∧ 0 < ctx.BlockHeight ∧
      f.GetGas = 0))
    (heff : (dfd.accountKeeper.execModeOf ctx = ExecMode.Simulate ∧ fee = f.GetFee ∧
        priority = 0 ∧ s1 = s) ∨
      (dfd.accountKeeper.execModeOf ctx ≠ ExecMode.Simulate ∧
        dfd.txFeeChecker s ctx tx = (.ok (fee, priority), s1)))
    (hok : (checkDeductFee T dfd s1 ctx tx fee).ret = none) :
    (AnteHandle T dfd s ctx tx simulate next).trace.countP Call.isNext = 1 ∧
    (AnteHandle T dfd s ctx tx simulate next).trace.filter Call.isNext =
      [.next (ctx.WithPriority priority) tx false] ∧
    (AnteHandle T dfd s ctx tx simulate next).trace.getLast? =
      some (.next (ctx.WithPriority priority) tx false) ∧
    ctx.WithPriority priority =
      { BlockHeight := ctx.BlockHeight, Priority := priority, mode := ctx.mode } ∧
    (AnteHandle T dfd s ctx tx simulate next).ret =
      (next (checkDeductFee T dfd s1 ctx tx fee).state (ctx.WithPriority priority) tx false).1 ∧
    (AnteHandle T dfd s ctx tx simulate next).state =
      (next (checkDeductFee T dfd s1 ctx tx fee).state (ctx.WithPriority priority) tx false).2 := by
  have hE : ∃ pre, (∀ c ∈ pre, c = .ExecMode ctx ∨ c = .txFeeChecker ctx tx) ∧
      AnteHandle T dfd s ctx tx simulate next =
        ⟨(next (checkDeductFee T dfd s1 ctx tx fee).state (ctx.WithPriority priority) tx false).1,
          (next (checkDeductFee T dfd s1 ctx tx fee).state (ctx.WithPriority priority) tx false).2,
          pre ++ (checkDeductFee T dfd s1 ctx tx fee).trace ++
            [.next (ctx.WithPriority priority) tx false]⟩ := by
    rcases heff with ⟨hm, rfl, rfl, rfl⟩ | ⟨hm, hr⟩
    · refine ⟨[.ExecMode ctx], by simp, ?_⟩
      rw [AnteHandle_of_simulate T dfd s1 ctx tx simulate next f htx hm, hok]
      simp
    · have hgas1 : ¬ (0 < ctx.BlockHeight ∧ f.GetGas = 0) := fun h => hgas ⟨hm, h.1, h.2⟩
      refine ⟨[.ExecMode ctx, .txFeeChecker ctx tx], by simp, ?_⟩
      rw [AnteHandle_of_checker_ok T dfd s ctx tx simulate next f fee priority s1 htx hm hgas1
        hr, hok]
      simp
  obtain ⟨pre, hp, hE⟩ := hE
  have h1 := countP_isNext_pre ctx tx pre hp
  have h2 := countP_isNext_checkDeductFee T dfd s1 ctx tx fee
  rw [hE]
  refine ⟨?_, ?_, by simp, rfl, rfl, rfl⟩
  · simp [List.countP_append, h1, h2, Call.isNext]
  · rw [List.countP_eq_zero] at h1 h2
    have f1 : pre.filter Call.isNext = [] := by
      rw [List.filter_eq_nil_iff]
      intro c hc
      simpa using h1 c hc
    have f2 : (checkDeductFee T dfd s1 ctx tx fee).trace.filter Call.isNext = [] := by
      rw [List.filter_eq_nil_iff]
      intro c hc
      simpa using h2 c hc
    simp [List.filter_append, f1, f2, List.filter, Call.isNext]

/-- C13, evaluated: in finalize mode the concrete checker computes priority
seven, and `next` is the last call, on the context with priority seven. -/
theorem AnteHandle_success_next_witness :
    (AnteHandle demoTypes demoDecorator emptyLedger (demoCtx 5 .Finalize)
        (demoTx 100 tenStake alice none) true demoNext).trace.filter Call.isNext =
      [.next { BlockHeight := 5, Priority := 7, mode := .Finalize }
        (demoTx 100 tenStake alice none) false] :=
  (AnteHandle_success_next demoTypes demoDecorator emptyLedger (demoCtx 5 .Finalize)
    (demoTx 100 tenStake alice none) true demoNext ⟨100, tenStake, alice, none⟩
    [⟨"stake", 3⟩] 7 emptyLedger rfl (by decide) (Or.inr ⟨by decide, rfl⟩) rfl).2.1

/-- C14: for every input, `AnteHandle` either short-circuits (it returns an
error together with the unmodified input context, and its trace holds no call
to `next`), or invokes `next` exactly once, as its last call. It never
invokes `next` more than once, and never after one of its own checks has
failed: not for a transaction without the FeeTx fields, not when the gas check
fails, not when the fee checker fails, and not when `checkDeductFee` fails on
the effective fee. -/
theorem AnteHandle_next_at_most_once (T : Types) (dfd : DeductFeeDecorator S) (s : S)
    (ctx : Context) (tx : Tx) (simulate : Bool) (next : AnteHandler S) :
    (((∃ e, (AnteHandle T dfd s ctx tx simulate next).ret = (ctx, some e)) ∧
        (AnteHandle T dfd s ctx tx simulate next).trace.countP Call.isNext = 0) ∨
      ((AnteHandle T dfd s ctx tx simulate next).trace.countP Call.isNext = 1 ∧
        ∃ priority, (AnteHandle T dfd s ctx tx simulate next).trace.getLast? =
          some (.next (ctx.WithPriority priority) tx false))) ∧
    (AnteHandle T dfd s ctx tx simulate next).trace.countP Call.isNext ≤ 1 ∧
    (tx.feeTx = none →
      (AnteHandle T dfd s ctx tx simulate next).trace.countP Call.isNext = 0) ∧
    (∀ f, tx.feeTx = some f →
      (dfd.accountKeeper.execModeOf ctx ≠ ExecMode.Simulate ∧ 0 < ctx.BlockHeight ∧
        f.GetGas = 0) →
      (AnteHandle T dfd s ctx tx simulate next).trace.countP Call.isNext = 0) ∧
    (∀ err s1, dfd.accountKeeper.execModeOf ctx ≠ ExecMode.Simulate →
      dfd.txFeeChecker s ctx tx = (.error err, s1) →
      (AnteHandle T dfd s ctx tx simulate next).trace.countP Call.isNext = 0) ∧
    (∀ f fee priority s1 e, tx.feeTx = some f →
      ((dfd.accountKeeper.execModeOf ctx = ExecMode.Simulate ∧ fee = f.GetFee ∧
          priority = 0 ∧ s1 = s) ∨
        (dfd.accountKeeper.execModeOf ctx ≠ ExecMode.Simulate ∧
          dfd.txFeeChecker s ctx tx = (.ok (fee, priority), s1))) →
      (checkDeductFee T dfd s1 ctx tx fee).ret = some e →
      (AnteHandle T dfd s ctx tx simulate next).trace.countP Call.isNext = 0) := by
  have hdich : ((∃ e, (AnteHandle T dfd s ctx tx simulate next).ret = (ctx, some e)) ∧
        (AnteHandle T dfd s ctx tx simulate next).trace.countP Call.isNext = 0) ∨
      ((AnteHandle T dfd s ctx tx simulate next).trace.countP Call.isNext = 1 ∧
        ∃ priority, (AnteHandle T dfd s ctx tx simulate next).trace.getLast? =
          some (.next (ctx.WithPriority priority) tx false)) := by
    rcases AnteHandle_cases T dfd s ctx tx simulate next with
      ⟨e0, hret, h⟩ | ⟨fee, s1, pre, e0, hp, hfail, hE⟩ | ⟨fee, pr, s1, pre, hp, hok, hE⟩
    · exact Or.inl ⟨⟨e0, hret⟩, countP_isNext_pre ctx tx _ h⟩
    · left
      rw [hE]
      refine ⟨⟨e0, rfl⟩, ?_⟩
      simp [List.countP_append, countP_isNext_pre ctx tx pre hp,
        countP_isNext_checkDeductFee T dfd s1 ctx tx fee]
    · right
      rw [hE]
      refine ⟨?_, pr, by simp⟩
      simp [List.countP_append, countP_isNext_pre ctx tx pre hp,
        countP_isNext_checkDeductFee T dfd s1 ctx tx fee, Call.isNext]
  have hshort : ∀ (f : FeeTx) (fee : Coins) (s1 : S) (e : Err) (pre : List Call),
      (∀ c ∈ pre, c = .ExecMode ctx ∨ c = .txFeeChecker ctx tx) →
      AnteHandle T dfd s ctx tx simulate next =
        ⟨(ctx, some e), (checkDeductFee T dfd s1 ctx tx fee).state,
          pre ++ (checkDeductFee T dfd s1 ctx tx fee).trace⟩ →
      (AnteHandle T dfd s ctx tx simulate next).trace.countP Call.isNext = 0 := by
    intro f fee s1 e pre hp hE
    rw [hE]
    simp [List.countP_append, countP_isNext_pre ctx tx pre hp,
      countP_isNext_checkDeductFee T dfd s1 ctx tx fee]
  refine ⟨hdich, ?_, ?_, ?_, ?_, ?_⟩
  · rcases hdich with ⟨-, h⟩ | ⟨h, -⟩ <;> omega
  · intro htx
    rw [AnteHandle_of_not_feeTx T dfd s ctx tx simulate next htx]
    rfl
  · rintro f htx ⟨hm, hh, hg⟩
    rw [AnteHandle_of_gas_check_failed T dfd s ctx tx simulate next f htx hm hh hg]
    rfl
  · intro err s1 hm hr
    cases htx : tx.feeTx with
    | none =>
      rw [AnteHandle_of_not_feeTx T dfd s ctx tx simulate next htx]
      rfl
    | some f =>
      by_cases hgas : 0 < ctx.BlockHeight ∧ f.GetGas = 0
      · rw [AnteHandle_of_gas_check_failed T dfd s ctx tx simulate next f htx hm hgas.1 hgas.2]
        rfl
      · rw [AnteHandle_of_checker_error T dfd s ctx tx simulate next f err s1 htx hm hgas hr]
        rfl
  · intro f fee priority s1 e htx heff hfail
    rcases heff with ⟨hm, rfl, rfl, rfl⟩ | ⟨hm, hr⟩
    · refine hshort f f.GetFee s1 e [.ExecMode ctx] (by simp) ?_
      rw [AnteHandle_of_simulate T dfd s1 ctx tx simulate next f htx hm, hfail]
      simp
    · by_cases hgas : 0 < ctx.BlockHeight ∧ f.GetGas = 0
      · rw [AnteHandle_of_gas_check_failed T dfd s ctx tx simulate next f htx hm hgas.1 hgas.2]
        rfl
      · refine hshort f fee s1 e [.ExecMode ctx, .txFeeChecker ctx tx] (by simp) ?_
        rw [AnteHandle_of_checker_ok T dfd s ctx tx simulate next f fee priority s1 htx hm hgas
          hr, hfail]
        simp

/-- C14, evaluated: a transaction without the FeeTx fields is a short circuit
with no call to `next`. -/
theorem AnteHandle_next_at_most_once_witness :
    (AnteHandle demoTypes demoDecorator emptyLedger (demoCtx 5 .Finalize) ⟨[], none⟩ false
      demoNext).trace.countP Call.isNext = 0 :=
  (AnteHandle_next_at_most_once demoTypes demoDecorator emptyLedger (demoCtx 5 .Finalize)
    ⟨[], none⟩ false demoNext).2.2.1 rfl

/-! ## C15: the fee event -/

/-- A run of lines 116-133 that returns nil ends with the fee event, which is
the only event of the run; a run that returns an error emits none. -/
theorem deductAndEmit_events (T : Types) (dfd : DeductFeeDecorator S) (s : S) (ctx : Context)
    (fee : Coins) (acct : Bytes) :
    ((deductAndEmit T dfd s ctx fee acct).ret = none →
      (deductAndEmit T dfd s ctx fee acct).trace.filter Call.isEmitEvents =
        [.EmitEvents [feeEvent T fee acct]]) ∧
    (∀ e, (deductAndEmit T dfd s ctx fee acct).ret = some e →
      ∀ c ∈ (deductAndEmit T dfd s ctx fee acct).trace, c.isEmitEvents = false) := by
  constructor
  · intro hok
    cases hz : T.IsZero fee with
    | true => rw [deductAndEmit_of_zero T dfd s ctx fee acct hz]; rfl
    | false => rw [deductAndEmit_success T dfd s ctx fee acct hok hz]; rfl
  · intro e hfail c hc
    rcases deductAndEmit_failure T dfd s ctx fee acct e hfail with ⟨ht, -⟩ | ⟨e1, ht, -⟩
    · rw [ht] at hc; simp at hc
    · rw [ht] at hc
      simp only [List.mem_singleton] at hc
      subst hc
      rfl

/-- C15: on every successful `checkDeductFee` the transaction is a FeeTx and
exactly one `EmitEvents` call is made, carrying exactly one event: its type is
`tx`, its `fee` attribute is the string form of the effective fee and its
`fee_payer` attribute is the string form of the resolved paying account (the
fee granter if the transaction names one, otherwise the fee payer). On every
failing `checkDeductFee` no event is emitted. -/
theorem checkDeductFee_event (T : Types) (dfd : DeductFeeDecorator S) (s : S)
    (ctx : Context) (tx : Tx) (fee : Coins) :
    ((checkDeductFee T dfd s ctx tx fee).ret = none →
      ∃ f, tx.feeTx = some f ∧
        (checkDeductFee T dfd s ctx tx fee).trace.filter Call.isEmitEvents =
          [.EmitEvents
            [{ EventType := "tx"
               Attributes :=
                [ ⟨"fee", T.CoinsString fee⟩,
                  ⟨"fee_payer", T.AccAddressString
                    (match f.FeeGranter with
                      | some g => some g
                      | none => f.FeePayer)⟩ ] }]] ∧
        (checkDeductFee T dfd s ctx tx fee).trace.countP Call.isEmitEvents = 1) ∧
    (∀ e, (checkDeductFee T dfd s ctx tx fee).ret = some e →
      ∀ c ∈ (checkDeductFee T dfd s ctx tx fee).trace, c.isEmitEvents = false) := by
  rcases checkDeductFee_cases T dfd s ctx tx fee with ⟨e0, hret, h⟩ | ⟨f, s1, pre, htx, hpre, hE⟩
  · refine ⟨fun hok => ?_, fun e _ c hc => (h c hc).2⟩
    rw [hret] at hok
    cases hok
  · have hpre0 : pre.filter Call.isEmitEvents = [] := by
      rw [List.filter_eq_nil_iff]
      intro c hc
      simp [(hpre c hc).2]
    have hev := deductAndEmit_events T dfd s1 ctx fee (deductFeesFrom f)
    rw [hE]
    refine ⟨fun hok => ⟨f, htx, ?_⟩, ?_⟩
    · have hfil : ((deductAndEmit T dfd s1 ctx fee (deductFeesFrom f)).after pre).trace.filter
          Call.isEmitEvents = [.EmitEvents [feeEvent T fee (deductFeesFrom f)]] := by
        simp only [Out.after, List.filter_append, hpre0, List.nil_append]
        exact hev.1 hok
      refine ⟨hfil, ?_⟩
      rw [List.countP_eq_length_filter, hfil]
      rfl
    · intro e hfail c hc
      simp only [Out.after, List.mem_append] at hc
      rcases hc with hc | hc
      · exact (hpre c hc).2
      · exact hev.2 e hfail c hc

/-- C15, evaluated: `bob` is named as granter for `alice`; the one event
reports the fee and `bob` as payer. -/
theorem checkDeductFee_event_witness :
    (checkDeductFee demoTypes demoDecorator emptyLedger (demoCtx 5 .Finalize)
        (demoTx 100 tenStake alice bob) tenStake).trace.filter Call.isEmitEvents =
      [.EmitEvents [⟨"tx", [⟨"fee", "stake"⟩, ⟨"fee_payer", "x"⟩]⟩]] := by
  obtain ⟨f, hf, h, -⟩ := (checkDeductFee_event demoTypes demoDecorator emptyLedger
    (demoCtx 5 .Finalize) (demoTx 100 tenStake alice bob) tenStake).1 rfl
  cases hf
  exact h

/-! ## C16: a transaction without the FeeTx fields -/

/-- C16: for every transaction that does not expose the FeeTx fields,
`AnteHandle` returns the unchanged context with the malformed-transaction
error (`ErrTxDecode` wrapped with "Tx must implement the FeeTx interface")
without making any collaborator call (no execution-mode read, no fee checker,
no keeper, no `next`) and without touching the state; `checkDeductFee` called
directly on such a transaction fails with the same error, likewise without
any call. -/
theorem AnteHandle_not_feeTx (T : Types) (dfd : DeductFeeDecorator S) (s : S)
    (ctx : Context) (tx : Tx) (simulate : Bool) (next : AnteHandler S) (fee : Coins)
    (htx : tx.feeTx = none) :
    AnteHandle T dfd s ctx tx simulate next =
      ⟨(ctx, some (.wrap ErrTxDecode "Tx must implement the FeeTx interface")), s, []⟩ ∧
    checkDeductFee T dfd s ctx tx fee =
      ⟨some (.wrap ErrTxDecode "Tx must implement the FeeTx interface"), s, []⟩ ∧
    (Err.wrap ErrTxDecode "Tx must implement the FeeTx interface").Is ErrTxDecode = true :=
  ⟨AnteHandle_of_not_feeTx T dfd s ctx tx simulate next htx,
    checkDeductFee_of_not_feeTx T dfd s ctx tx fee htx, Err.Is_wrap _ _⟩

/-- C16, evaluated on a transaction that carries messages but no fee fields. -/
theorem AnteHandle_not_feeTx_witness :
    (AnteHandle demoTypes demoDecorator emptyLedger (demoCtx 5 .Finalize)
        ⟨[⟨"/cosmos.bank.v1beta1.MsgSend", [1]⟩], none⟩ false demoNext).trace = [] ∧
    (checkDeductFee demoTypes demoDecorator emptyLedger (demoCtx 5 .Finalize)
        ⟨[⟨"/cosmos.bank.v1beta1.MsgSend", [1]⟩], none⟩ tenStake).ret =
      some (.wrap ErrTxDecode "Tx must implement the FeeTx interface") := by
  have h := AnteHandle_not_feeTx demoTypes demoDecorator emptyLedger (demoCtx 5 .Finalize)
    ⟨[⟨"/cosmos.bank.v1beta1.MsgSend", [1]⟩], none⟩ false demoNext tenStake rfl
  rw [h.1, h.2.1]
  exact ⟨rfl, rfl⟩

end CosmosSDK

/-! ## The grant store and the grant manager -/

namespace CosmosSDK.Authz

open GrantManager

variable {R M A : Type}

/-- Looking a key up after the entries of another key have been filtered out. -/
theorem lookup_filter_ne (l : List (GrantKey × Grant A)) (k k1 : GrantKey) :
    (l.filter (fun kv => kv.1 != k1)).lookup k = if k = k1 then none else l.lookup k := by
  induction l with
  | nil => simp
  | cons kv l ih =>
    obtain ⟨k2, g⟩ := kv
    by_cases h2 : k2 = k1
    · subst h2
      simp only [List.filter_cons, bne_self_eq_false, Bool.false_eq_true, if_false, ih]
      by_cases h : k = k2
      · simp [h]
      · have hb : (k == k2) = false := by simpa using h
        simp [h, List.lookup_cons, hb]
    · have hb2 : (k2 != k1) = true := by simpa using h2
      simp only [List.filter_cons, hb2, if_true, List.lookup_cons, ih]
      by_cases h : k = k2
      · subst h
        simp [h2]
      · have hb : (k == k2) = false := by simpa using h
        simp [hb]

theorem GrantStore.get_put_same (st : GrantStore A) (k : GrantKey) (g : Grant A) :
    (st.put k g).get k = some g := by
  simp [GrantStore.get, GrantStore.put, List.lookup_cons]

theorem GrantStore.get_put_other (st : GrantStore A) (k k1 : GrantKey) (g : Grant A)
    (h : k ≠ k1) : (st.put k1 g).get k = st.get k := by
  have hb : (k == k1) = false := by simpa using h
  simp [GrantStore.get, GrantStore.put, List.lookup_cons, hb, lookup_filter_ne, h]

theorem GrantStore.get_delete (st : GrantStore A) (k k1 : GrantKey) :
    (st.delete k1).get k = if k = k1 then none else st.get k := by
  simp [GrantStore.get, GrantStore.delete, lookup_filter_ne]

theorem GrantStore.get_removeIndexEntry (st : GrantStore A) (k k1 : GrantKey) :
    (st.removeIndexEntry k1).get k = st.get k := rfl

theorem GrantStore.get_writeIndexEntry (st : GrantStore A) (k k1 : GrantKey) (e : Nat) :
    (st.writeIndexEntry k1 e).get k = st.get k := rfl

theorem GrantStore.get_deleteGrant (st : GrantStore A) (k k1 : GrantKey) :
    (st.deleteGrant k1).get k = if k = k1 then none else st.get k := by
  simp [GrantStore.deleteGrant, GrantStore.get_removeIndexEntry, GrantStore.get_delete]

theorem GrantStore.get_saveGrant_same (st : GrantStore A) (k : GrantKey) (g : Grant A) :
    (st.saveGrant k g).get k = some g := by
  unfold GrantStore.saveGrant
  split
  · rw [GrantStore.get_writeIndexEntry, GrantStore.get_put_same]
  · rw [GrantStore.get_put_same]

/-- A successful Grant: the four validations passed and the store is the old
one with the grant saved under its key. -/
theorem Grant_ok (reg : Registry M A) (st st1 : GrantStore A) (now : Nat)
    (granter grantee : Address) (auth : A) (exp : Option Nat)
    (h : GrantManager.Grant reg st now granter grantee auth exp = .ok st1) :
    granter ≠ grantee ∧ reg.ValidateBasic auth = true ∧
    (∀ e, exp = some e → now < e) ∧
    reg.isGrantManagement (reg.MessageType auth) = false ∧
    st1 = st.saveGrant (granter, grantee, reg.MessageType auth) ⟨auth, exp⟩ := by
  unfold GrantManager.Grant at h
  split at h
  · cases h
  · rename_i h1
    split at h
    · cases h
    · rename_i h2
      split at h
      · cases h
      · rename_i h3
        split at h
        · cases h
        · rename_i h4
          simp only [Except.ok.injEq] at h
          refine ⟨h1, by simpa using h2, ?_, by simpa using h4, h.symm⟩
          intro e he
          subst he
          simpa using h3

/-- Exec by a well-formed grantee address passes the empty-grantee check. -/
theorem Exec_of_address (reg : Registry M A) (router : Router R M) (st : GrantStore A) (r : R)
    (now : Nat) (grantee : Address) (msgs : List M) :
    Exec reg router st r now grantee.str msgs =
      if msgs.isEmpty then ⟨some .EmptyMessages, st, r, []⟩
      else
        match authorizeAll reg now grantee st msgs with
        | .error e => ⟨some e, st, r, []⟩
        | .ok st1 =>
          match dispatchAll router r msgs with
          | (.error e, sent) => ⟨some (.DispatchFailed e), st, r, sent⟩
          | (.ok r1, sent) => ⟨none, st1, r1, sent⟩ := by
  unfold Exec
  rw [dif_neg grantee.nonempty]

/-- Authorizing a message whose signer is not the grantee and whose key holds
no grant fails with `NotFound`. -/
theorem authorizeMsg_not_found (reg : Registry M A) (now : Nat) (grantee : Address)
    (st : GrantStore A) (m : M) (hne : reg.signerOf m ≠ grantee)
    (hnone : st.get (reg.signerOf m, grantee, reg.typeOf m) = none) :
    authorizeMsg reg now grantee st m = .error .NotFound := by
  simp [authorizeMsg, hne, hnone]

/-- Authorization only deletes or overwrites grants: a key that holds no grant
before a message is authorized holds none afterwards. -/
theorem authorizeMsg_get_none (reg : Registry M A) (now : Nat) (grantee : Address)
    (st st1 : GrantStore A) (m : M) (k : GrantKey) (hnone : st.get k = none)
    (h : authorizeMsg reg now grantee st m = .ok st1) : st1.get k = none := by
  unfold authorizeMsg at h
  simp only at h
  split at h
  · cases h; exact hnone
  · split at h
    · cases h
    · rename_i grant hget
      split at h
      · cases h
      · split at h
        · cases h
        · split at h
          · cases h
          · simp only [Except.ok.injEq] at h
            subst h
            split
            · rw [GrantStore.get_deleteGrant]
              split
              · rfl
              · exact hnone
            · split
              · by_cases hk : k = (reg.signerOf m, grantee, reg.typeOf m)
                · rw [hk] at hnone
                  rw [hnone] at hget
                  cases hget
                · rw [GrantStore.get_put_other _ _ _ _ hk]
                  exact hnone
              · exact hnone

theorem authorizeAll_get_none (reg : Registry M A) (now : Nat) (grantee : Address)
    (msgs : List M) (k : GrantKey) :
    ∀ (st st1 : GrantStore A), st.get k = none →
      authorizeAll reg now grantee st msgs = .ok st1 → st1.get k = none := by
  induction msgs with
  | nil =>
    intro st st1 hnone h
    simp only [authorizeAll, Except.ok.injEq] at h
    subst h
    exact hnone
  | cons m ms ih =>
    intro st st1 hnone h
    simp only [authorizeAll] at h
    split at h
    · cases h
    · rename_i st2 h2
      exact ih st2 st1 (authorizeMsg_get_none reg now grantee st st2 m k hnone h2) h

/-- Authorizing a batch that contains a message with no grant never succeeds;
it fails with `NotFound` when the messages before that one are all authorized. -/
theorem authorizeAll_not_found (reg : Registry M A) (now : Nat) (grantee : Address) (m : M)
    (rest : List M) (hne : reg.signerOf m ≠ grantee) (pre : List M) :
    ∀ (st : GrantStore A), st.get (reg.signerOf m, grantee, reg.typeOf m) = none →
      (∃ e, authorizeAll reg now grantee st (pre ++ m :: rest) = .error e) ∧
      ((∃ st1, authorizeAll reg now grantee st pre = .ok st1) →
        authorizeAll reg now grantee st (pre ++ m :: rest) = .error .NotFound) := by
  induction pre with
  | nil =>
    intro st hnone
    simp [authorizeAll, authorizeMsg_not_found reg now grantee st m hne hnone]
  | cons p ps ih =>
    intro st hnone
    simp only [List.cons_append, authorizeAll]
    cases hp : authorizeMsg reg now grantee st p with
    | error e => simp
    | ok st2 =>
      simp only
      exact ih st2 (authorizeMsg_get_none reg now grantee st st2 p _ hnone hp)

/-! ## C17: Grant, then Exec -/

/-- C17: for every granter, grantee, authorization and expiration with
`granter != grantee` and the expiration absent or strictly after the block
time, after a successful Grant the store holds the authorization under the
key, and Exec by the grantee of a single message of the granted type signed by
the granter succeeds exactly when the stored authorization's `Accept` allows
that message and the router's dispatch of it succeeds. -/
theorem Exec_after_Grant (reg : Registry M A) (router : Router R M) (st st1 : GrantStore A)
    (r : R) (now now1 : Nat) (granter grantee : Address) (auth : A) (exp : Option Nat) (m : M)
    (hne : granter ≠ grantee)
    (hexp : exp = none ∨ ∃ e, exp = some e ∧ now1 < e)
    (hgrant : GrantManager.Grant reg st now granter grantee auth exp = .ok st1)
    (hsigner : reg.signerOf m = granter) (htype : reg.typeOf m = reg.MessageType auth) :
    st1.get (granter, grantee, reg.MessageType auth) = some ⟨auth, exp⟩ ∧
    ((Exec reg router st1 r now1 grantee.str [m]).err = none ↔
      ((reg.Accept auth m).allow = true ∧ ∃ r1, router.dispatch r m = .ok r1)) := by
  obtain ⟨-, -, -, hmgmt, hst1⟩ := Grant_ok reg st st1 now granter grantee auth exp hgrant
  have hget : st1.get (granter, grantee, reg.MessageType auth) = some ⟨auth, exp⟩ := by
    rw [hst1, GrantStore.get_saveGrant_same]
  refine ⟨hget, ?_⟩
  have hnexp : (Grant.expired (⟨auth, exp⟩ : Grant A) now1) = false := by
    rcases hexp with rfl | ⟨e, rfl, he⟩
    · rfl
    · simp only [Grant.expired, decide_eq_false_iff_not]
      omega
  have hne1 : reg.signerOf m ≠ grantee := by rw [hsigner]; exact hne
  rw [Exec_of_address]
  simp only [List.isEmpty_cons, Bool.false_eq_true, if_false, authorizeAll, authorizeMsg, hne1,
    hsigner, htype, hget, hnexp, hmgmt, dispatchAll]
  cases hallow : (reg.Accept auth m).allow with
  | false => simp [hne]
  | true =>
    cases hd : router.dispatch r m with
    | error e => simp [hne]
    | ok r1 => simp [hne]

/-- C17, evaluated: after the grant of the test, the transfer of ten steak by
the grantee is executed. -/
theorem Exec_after_Grant_witness :
    (Exec bankRegistry logRouter storeWithSendGrant [] 100 granteeB.str [sendTenSteak]).err =
      none :=
  ((Exec_after_Grant bankRegistry logRouter emptyStore storeWithSendGrant [] 100 100 granterA
    granteeB (.send tenSteak []) none sendTenSteak (by decide) (Or.inl rfl) rfl rfl rfl).2).2
    ⟨by decide, _, rfl⟩

/-! ## C18: empty grantee, empty batch -/

/-- C18, as stated, fails: Exec with an empty message list and an empty
grantee fails with the empty-grantee error, not with the empty-messages one,
the grantee being checked first. -/
theorem Exec_empty_grantee_checked_first :
    (Exec bankRegistry logRouter emptyStore [] 100 "" ([] : List Message)).err =
      some .EmptyGrantee ∧
    (Exec bankRegistry logRouter emptyStore [] 100 "" ([] : List Message)).err ≠
      some .EmptyMessages := by
  exact ⟨rfl, by decide⟩

/-- C18 (amended): for every grant state, Exec with an empty grantee address
fails with the empty-grantee error ("empty address string is not allowed")
whatever the message list, and Exec with a non-empty grantee address and an
empty message list fails with the empty-messages error ("messages cannot be
empty"); neither mutates the grant store nor the router state, and neither
dispatches any message. -/
theorem Exec_empty (reg : Registry M A) (router : Router R M) (st : GrantStore A) (r : R)
    (now : Nat) :
    (∀ msgs : List M, Exec reg router st r now "" msgs = ⟨some .EmptyGrantee, st, r, []⟩) ∧
    (∀ grantee : String, grantee ≠ "" →
      Exec reg router st r now grantee ([] : List M) = ⟨some .EmptyMessages, st, r, []⟩) ∧
    AuthzError.message .EmptyGrantee = "empty address string is not allowed" ∧
    AuthzError.message .EmptyMessages = "messages cannot be empty" := by
  refine ⟨fun msgs => ?_, fun grantee hg => ?_, rfl, rfl⟩
  · simp [Exec]
  · simp [Exec, hg]

/-- C18 (amended), evaluated on the two cases of the test. -/
theorem Exec_empty_witness :
    (Exec bankRegistry logRouter storeWithSendGrant [] 100 "" [sendTenSteak]).err =
      some .EmptyGrantee ∧
    (Exec bankRegistry logRouter storeWithSendGrant [] 100 "cosmos1grantee"
        ([] : List Message)).err = some .EmptyMessages := by
  have h := Exec_empty bankRegistry logRouter storeWithSendGrant ([] : List Message) 100
  rw [h.1 [sendTenSteak], h.2.1 "cosmos1grantee" (by decide)]
  exact ⟨rfl, rfl⟩

/-! ## C19: no grant -/

/-- C19: for every message whose designated signer (the granter) differs from
the grantee and for which the store holds no grant under (granter, grantee,
message type), Exec of that message fails with `NotFound` ("authorization not
found"), dispatches nothing and leaves the grant store and the router state
unchanged. The same holds for a batch in which the messages before it are all
authorized; and every batch that contains such a message fails, dispatches
nothing and leaves the grant store unchanged. -/
theorem Exec_no_grant (reg : Registry M A) (router : Router R M) (st : GrantStore A) (r : R)
    (now : Nat) (grantee : Address) (m : M)
    (hne : reg.signerOf m ≠ grantee)
    (hnone : st.get (reg.signerOf m, grantee, reg.typeOf m) = none) :
    Exec reg router st r now grantee.str [m] = ⟨some .NotFound, st, r, []⟩ ∧
    AuthzError.message .NotFound = "authorization not found" ∧
    (∀ pre rest : List M, (∃ st1, authorizeAll reg now grantee st pre = .ok st1) →
      Exec reg router st r now grantee.str (pre ++ m :: rest) = ⟨some .NotFound, st, r, []⟩) ∧
    (∀ pre rest : List M, ∃ e,
      Exec reg router st r now grantee.str (pre ++ m :: rest) = ⟨some e, st, r, []⟩) := by
  have hgen : ∀ pre rest : List M, ∃ e,
      authorizeAll reg now grantee st (pre ++ m :: rest) = .error e ∧
      Exec reg router st r now grantee.str (pre ++ m :: rest) = ⟨some e, st, r, []⟩ := by
    intro pre rest
    obtain ⟨e, he⟩ := (authorizeAll_not_found reg now grantee m rest hne pre st hnone).1
    refine ⟨e, he, ?_⟩
    rw [Exec_of_address, he]
    simp
  have hnf : ∀ pre rest : List M, (∃ st1, authorizeAll reg now grantee st pre = .ok st1) →
      Exec reg router st r now grantee.str (pre ++ m :: rest) = ⟨some .NotFound, st, r, []⟩ := by
    intro pre rest hpre
    obtain ⟨e, he, hE⟩ := hgen pre rest
    rw [(authorizeAll_not_found reg now grantee m rest hne pre st hnone).2 hpre] at he
    cases he
    exact hE
  refine ⟨?_, rfl, hnf, fun pre rest => ?_⟩
  · exact hnf [] [] ⟨st, rfl⟩
  · obtain ⟨e, -, hE⟩ := hgen pre rest
    exact ⟨e, hE⟩

/-- C19, evaluated on the "non existing grant" case of the test. -/
theorem Exec_no_grant_witness :
    (Exec bankRegistry logRouter emptyStore [] 100 granteeB.str [sendTenSteak]).err =
      some .NotFound ∧
    (Exec bankRegistry logRouter emptyStore [] 100 granteeB.str [sendTenSteak]).dispatched = [] := by
  rw [(Exec_no_grant bankRegistry logRouter emptyStore ([] : List Message) 100 granteeB
    sendTenSteak (by decide) rfl).1]
  exact ⟨rfl, rfl⟩

/-! ## C20: a spend limit fully consumed -/

/-- In a coin set with unique denominations, the total held of the
denomination of one of its coins is the amount of that coin. -/
theorem coinsAmountOf_of_mem (c : Coins) (hnd : (c.map Coin.Denom).Nodup) (x : Coin)
    (hx : x ∈ c) : coinsAmountOf c x.Denom = x.Amount := by
  induction c with
  | nil => cases hx
  | cons y ys ih =>
    simp only [List.map_cons, List.nodup_cons, List.mem_map, not_exists, not_and] at hnd
    obtain ⟨hy, hys⟩ := hnd
    rcases List.mem_cons.1 hx with rfl | hx1
    · have hempty : ys.filter (fun z => z.Denom == x.Denom) = [] := by
        rw [List.filter_eq_nil_iff]
        intro z hz
        simpa using hy z hz
      simp [coinsAmountOf, List.filter_cons, hempty]
    · have hne : (y.Denom == x.Denom) = false := by
        have := hy x hx1
        simpa using fun h => this h.symm
      have := ih hys hx1
      simpa [coinsAmountOf, List.filter_cons, hne] using this

/-- Spending exactly a well-formed limit leaves nothing. -/
theorem coinsSub_self (limit : Coins) (hv : coinsIsValid limit = true) :
    coinsCovers limit limit = true ∧ coinsIsZero (coinsSub limit limit) = true := by
  have hnd : (limit.map Coin.Denom).Nodup := by
    simp only [coinsIsValid, Bool.and_eq_true, decide_eq_true_eq] at hv
    exact hv.2
  have hzero : ∀ x ∈ limit, x.Amount - coinsAmountOf limit x.Denom = 0 := by
    intro x hx
    rw [coinsAmountOf_of_mem limit hnd x hx]
    omega
  constructor
  · simp only [coinsCovers, Bool.and_eq_true, List.all_eq_true, List.any_eq_true, coinsSub,
      List.mem_map, decide_eq_true_eq]
    refine ⟨fun x hx => ⟨x, hx, by simp⟩, ?_⟩
    rintro c ⟨x, hx, rfl⟩
    simp [hzero x hx]
  · simp only [coinsIsZero, coinsSub, List.all_eq_true, List.mem_map]
    rintro c ⟨x, hx, rfl⟩
    simp [hzero x hx]

/-- The decision of a send authorization without allow-list on a transfer of
exactly its limit: allowed, and the grant is consumed. -/
theorem acceptSend_exact (limit : Coins) (m : Message) (hv : coinsIsValid limit = true)
    (htype : m.typeURL = bankSendAuthMsgType) (hamt : m.amount = limit) :
    acceptSend limit [] m = ⟨true, true, none⟩ := by
  obtain ⟨hc, hz⟩ := coinsSub_self limit hv
  simp [acceptSend, htype, hamt, hc, hz]

/-- C20, as stated, fails: after the grant of the test, the Exec of the
transfer of exactly the limit does not succeed when the message router fails to
execute the transfer, and the grant is then still in the store. -/
theorem Exec_send_dispatch_can_fail :
    GrantManager.Grant bankRegistry emptyStore 100 granterA granteeB (.send tenSteak []) none =
      .ok storeWithSendGrant ∧
    (Exec bankRegistry brokeRouter storeWithSendGrant [] 100 granteeB.str [sendTenSteak]).err =
      some (.DispatchFailed (.wrap ErrInsufficientFunds "spendable balance")) ∧
    (Exec bankRegistry brokeRouter storeWithSendGrant [] 100 granteeB.str
        [sendTenSteak]).store.get (granterA, granteeB, bankSendAuthMsgType) =
      some ⟨.send tenSteak [], none⟩ := by
  exact ⟨rfl, by decide, by decide⟩

/-- C20 (amended): after granting a send authorization with spend limit `L`
and no allow-list from `A` to `B` with no expiration, an Exec by `B` of a send
of exactly `L` from `A` succeeds provided the message router executes the
transfer; it then deletes the grant (the limit being fully consumed), so that
the store no longer holds the key and a second identical Exec fails with
`NotFound` without dispatching anything. -/
theorem Exec_send_consumes_grant (router : Router R Message)
    (st st1 : GrantStore Authorization) (r r1 : R) (now now1 : Nat) (a b : Address)
    (limit : Coins) (m : Message)
    (hgrant : GrantManager.Grant bankRegistry st now a b (.send limit []) none = .ok st1)
    (htype : m.typeURL = bankSendAuthMsgType) (hsigner : m.signer = a)
    (hamt : m.amount = limit)
    (hdisp : router.dispatch r m = .ok r1) :
    Exec bankRegistry router st1 r now1 b.str [m] =
      ⟨none, st1.deleteGrant (a, b, bankSendAuthMsgType), r1, [m]⟩ ∧
    (st1.deleteGrant (a, b, bankSendAuthMsgType)).get (a, b, bankSendAuthMsgType) = none ∧
    (∀ (r2 : R) (now2 : Nat),
      Exec bankRegistry router (st1.deleteGrant (a, b, bankSendAuthMsgType)) r2 now2 b.str [m] =
        ⟨some .NotFound, st1.deleteGrant (a, b, bankSendAuthMsgType), r2, []⟩) := by
  obtain ⟨hne, hvalid, -, hmgmt, hst1⟩ :=
    Grant_ok bankRegistry st st1 now a b (.send limit []) none hgrant
  have hv : coinsIsValid limit = true := hvalid
  have hget : st1.get (a, b, bankSendAuthMsgType) = some ⟨.send limit [], none⟩ := by
    rw [hst1]
    exact GrantStore.get_saveGrant_same _ _ _
  have hgone : (st1.deleteGrant (a, b, bankSendAuthMsgType)).get (a, b, bankSendAuthMsgType) =
      none := by
    rw [GrantStore.get_deleteGrant]
    simp
  have hacc := acceptSend_exact limit m hv htype hamt
  have hmg : ¬ bankSendAuthMsgType ∈ grantManagementTypes := by decide
  have hne1 : ¬ m.signer = b := by rw [hsigner]; exact hne
  refine ⟨?_, hgone, ?_⟩
  · rw [Exec_of_address]
    simp [authorizeAll, authorizeMsg, bankRegistry, hsigner, htype, hne, hget, Grant.expired,
      hacc, hmg, dispatchAll, hdisp]
  · intro r2 now2
    rw [Exec_of_address]
    simp [authorizeAll, authorizeMsg, bankRegistry, hsigner, htype, hne, hgone]

/-- C20 (amended), evaluated on the test: ten steak granted, ten steak sent;
the store is empty afterwards and the second Exec finds no authorization. -/
theorem Exec_send_consumes_grant_witness :
    Exec bankRegistry logRouter storeWithSendGrant [] 100 granteeB.str [sendTenSteak] =
      ⟨none, emptyStore, [sendTenSteak], [sendTenSteak]⟩ ∧
    (Exec bankRegistry logRouter emptyStore [sendTenSteak] 100 granteeB.str
        [sendTenSteak]).err = some .NotFound := by
  have h := Exec_send_consumes_grant logRouter emptyStore storeWithSendGrant [] [sendTenSteak]
    100 100 granterA granteeB tenSteak sendTenSteak rfl rfl rfl rfl rfl
  refine ⟨h.1, ?_⟩
  have h2 := h.2.2 [sendTenSteak] 100
  exact congrArg ExecOut.err h2

end CosmosSDK.Authz

/-! ## C27, C28: the simulate flag and the fee-collector guard -/

namespace CosmosSDK

variable {S : Type}

/-- C27: `AnteHandle` ignores its incoming simulate flag: two calls that
differ only in that flag give the same result, the same state and the same
collaborator calls (hence the same context passed to `next`). Every call to
`next` in the trace carries `simulate = false`, whatever the incoming flag and
the execution mode; and only the behaviour of `next` on `simulate = false`
matters to the outcome. -/
theorem AnteHandle_ignores_simulate (T : Types) (dfd : DeductFeeDecorator S) (s : S)
    (ctx : Context) (tx : Tx) (next : AnteHandler S) :
    (∀ b1 b2 : Bool, AnteHandle T dfd s ctx tx b1 next = AnteHandle T dfd s ctx tx b2 next) ∧
    (∀ (simulate : Bool) (c : Context) (t : Tx) (b : Bool),
      Call.next c t b ∈ (AnteHandle T dfd s ctx tx simulate next).trace → b = false) ∧
    (∀ (simulate : Bool) (next2 : AnteHandler S),
      (∀ s1 c t, next2 s1 c t false = next s1 c t false) →
      AnteHandle T dfd s ctx tx simulate next2 = AnteHandle T dfd s ctx tx simulate next) := by
  refine ⟨fun _ _ => rfl, ?_, ?_⟩
  · intro simulate c t b hmem
    have hpre : ∀ x : Call, (x = .ExecMode ctx ∨ x = .txFeeChecker ctx tx) → x.isNext = false := by
      rintro x (rfl | rfl) <;> rfl
    rcases AnteHandle_cases T dfd s ctx tx simulate next with
      ⟨e0, -, h⟩ | ⟨fee, s1, pre, e0, hp, -, hE⟩ | ⟨fee, pr, s1, pre, hp, -, hE⟩
    · have := hpre _ (h _ hmem)
      simp [Call.isNext] at this
    · rw [hE] at hmem
      simp only [List.mem_append] at hmem
      rcases hmem with hmem | hmem
      · have := hpre _ (hp _ hmem)
        simp [Call.isNext] at this
      · have := (checkDeductFee_trace_kinds T dfd s1 ctx tx fee _ hmem).2
        simp [Call.isNext] at this
    · rw [hE] at hmem
      simp only [List.mem_append, List.mem_singleton] at hmem
      rcases hmem with (hmem | hmem) | hmem
      · have := hpre _ (hp _ hmem)
        simp [Call.isNext] at this
      · have := (checkDeductFee_trace_kinds T dfd s1 ctx tx fee _ hmem).2
        simp [Call.isNext] at this
      · cases hmem
        rfl
  · intro simulate next2 hagree
    simp only [AnteHandle, hagree]

/-- C27, evaluated: with the incoming flag true and the execution mode
simulate, `next` is still called with `simulate = false`. -/
theorem AnteHandle_ignores_simulate_witness :
    (AnteHandle demoTypes demoDecorator emptyLedger (demoCtx 5 .Simulate)
        (demoTx 100 tenStake alice none) true demoNext).trace.getLast? =
      some (.next (demoCtx 5 .Simulate) (demoTx 100 tenStake alice none) false) := by
  rw [(AnteHandle_ignores_simulate demoTypes demoDecorator emptyLedger (demoCtx 5 .Simulate)
    (demoTx 100 tenStake alice none) demoNext).1 true false]
  rfl

/-- C28: whenever the account keeper, asked by `checkDeductFee` for the
address of the fee-collector module account, returns an empty address,
`checkDeductFee` fails with the error "fee collector module account (...) has
not been set" before resolving the payer: the lookup is its only call, so the
fee-grant keeper and the bank keeper are not called and no event is emitted,
and the state is untouched; the fee plays no part, so this also holds for a
zero fee. The lookup is made exactly for the transactions that expose the
FeeTx fields. -/
theorem checkDeductFee_no_collector (T : Types) (dfd : DeductFeeDecorator S) (s : S)
    (ctx : Context) (tx : Tx) (fee : Coins)
    (hcall : Call.GetModuleAddress T.FeeCollectorName ∈ (checkDeductFee T dfd s ctx tx fee).trace)
    (hempty : (dfd.accountKeeper.GetModuleAddress T.FeeCollectorName).len = 0) :
    checkDeductFee T dfd s ctx tx fee =
      ⟨some (.errorf ("fee collector module account (" ++ T.FeeCollectorName ++
        ") has not been set")), s, [.GetModuleAddress T.FeeCollectorName]⟩ ∧
    (∀ c ∈ (checkDeductFee T dfd s ctx tx fee).trace,
      c.isUseGrantedFees = false ∧ c.isSend = false ∧ c.isEmitEvents = false) ∧
    (∀ fee2 : Coins, checkDeductFee T dfd s ctx tx fee2 = checkDeductFee T dfd s ctx tx fee) ∧
    (∃ f, tx.feeTx = some f) := by
  cases htx : tx.feeTx with
  | none =>
    rw [checkDeductFee_of_not_feeTx T dfd s ctx tx fee htx] at hcall
    simp at hcall
  | some f =>
    have hE := fun fee2 => checkDeductFee_of_no_collector T dfd s ctx tx fee2 f htx hempty
    rw [hE fee]
    refine ⟨rfl, ?_, fun fee2 => hE fee2, f, rfl⟩
    intro c hc
    simp only [List.mem_singleton] at hc
    subst hc
    exact ⟨rfl, rfl, rfl⟩

/-- C28, evaluated: no fee-collector address, a zero fee and a fee granter
named; the module-address lookup is the only call. -/
theorem checkDeductFee_no_collector_witness :
    checkDeductFee demoTypes bareDecorator emptyLedger (demoCtx 5 .Finalize)
        (demoTx 100 zeroStake alice bob) zeroStake =
      ⟨some (.errorf "fee collector module account (fee_collector) has not been set"),
        emptyLedger, [.GetModuleAddress "fee_collector"]⟩ :=
  (checkDeductFee_no_collector demoTypes bareDecorator emptyLedger (demoCtx 5 .Finalize)
    (demoTx 100 zeroStake alice bob) zeroStake (by decide) rfl).1

end CosmosSDK

/-! ## C29, C30: the circuit keeper -/

namespace CosmosSDK.Circuit

/-- What `SetPermissions` writes is not what `GetPermissions` reads: whenever
the key built by `CreateAddressPrefix` differs from the address itself, a
successful `SetPermissions` leaves the result of `GetPermissions` on that
address as it was before. -/
theorem GetPermissions_after_SetPermissions {P : Type} (keys : KeyPrefixes) (k : Keeper P)
    (store st1 : KVStore) (address : List Byte) (perms : P)
    (hkey : keys.CreateAddressPrefix address ≠ address)
    (hset : Keeper.SetPermissions keys k store address perms = .ok st1) :
    k.GetPermissions st1 address = k.GetPermissions store address := by
  unfold Keeper.SetPermissions at hset
  split at hset
  · cases hset
  · simp only [Except.ok.injEq] at hset
    subst hset
    have : ¬ address = keys.CreateAddressPrefix address := fun h => hkey h.symm
    simp [Keeper.GetPermissions, KVStore.Get, KVStore.Set, this]

/-- C29 fails on the code: on an empty store, with key constructors that put a
prefix byte in front and a codec that reads back what it writes,
`SetPermissions` for address `[1, 2, 3]` succeeds, and `GetPermissions` on the
same address then returns the zero permissions without error, not the
permissions that were set: the value was stored under the prefixed key, the
read is at the bare address. -/
theorem GetPermissions_misses_SetPermissions :
    demoCodec.Unmarshal (some (1 :: [7])) = .ok (⟨1, [7]⟩ : DemoPermissions) ∧
    (∃ st1, Keeper.SetPermissions demoPrefixes demoKeeper KVStore.empty [1, 2, 3] ⟨1, [7]⟩ =
        .ok st1 ∧
      st1.Get [1, 1, 2, 3] = some [1, 7] ∧
      st1.Get [1, 2, 3] = none ∧
      demoKeeper.GetPermissions st1 [1, 2, 3] = .ok ⟨0, []⟩ ∧
      demoKeeper.GetPermissions st1 [1, 2, 3] ≠ .ok ⟨1, [7]⟩) := by
  refine ⟨rfl, _, rfl, by decide, by decide, rfl, ?_⟩
  intro h
  have h2 : (Except.ok ⟨0, []⟩ : Except Err DemoPermissions) = .ok ⟨1, [7]⟩ := h
  simp only [Except.ok.injEq, DemoPermissions.mk.injEq] at h2
  exact absurd h2.1 (by decide)

/-- C30: for every message URL `u`, `IsMsgDisabled(u)` is true right after
`DisableMsg(u)` and false right after `EnableMsg(u)`; `EnableMsg(u)` undoes
`DisableMsg(u)` (the URL reads as enabled again, and the store is the one
before when `u` was not disabled there); each of the two is idempotent; and
neither changes `IsMsgDisabled(v)` for a URL `v` whose disable-key differs
from that of `u`. -/
theorem IsMsgDisabled_switch (keys : KeyPrefixes) (store : KVStore) (u : String) :
    Keeper.IsMsgDisabled keys (Keeper.DisableMsg keys store u) u = true ∧
    Keeper.IsMsgDisabled keys (Keeper.EnableMsg keys store u) u = false ∧
    Keeper.IsMsgDisabled keys (Keeper.EnableMsg keys (Keeper.DisableMsg keys store u) u) u =
      false ∧
    (Keeper.IsMsgDisabled keys store u = false →
      Keeper.EnableMsg keys (Keeper.DisableMsg keys store u) u = store) ∧
    Keeper.DisableMsg keys (Keeper.DisableMsg keys store u) u = Keeper.DisableMsg keys store u ∧
    Keeper.EnableMsg keys (Keeper.EnableMsg keys store u) u = Keeper.EnableMsg keys store u ∧
    (∀ v : String, keys.CreateDisableMsgPrefix v ≠ keys.CreateDisableMsgPrefix u →
      Keeper.IsMsgDisabled keys (Keeper.DisableMsg keys store u) v =
          Keeper.IsMsgDisabled keys store v ∧
        Keeper.IsMsgDisabled keys (Keeper.EnableMsg keys store u) v =
          Keeper.IsMsgDisabled keys store v) := by
  refine ⟨?_, ?_, ?_, ?_, ?_, ?_, ?_⟩
  · simp [Keeper.IsMsgDisabled, Keeper.DisableMsg, KVStore.Has, KVStore.Set]
  · simp [Keeper.IsMsgDisabled, Keeper.EnableMsg, KVStore.Has, KVStore.Delete]
  · simp [Keeper.IsMsgDisabled, Keeper.EnableMsg, KVStore.Has, KVStore.Delete]
  · intro h
    funext k
    have h1 : store (keys.CreateDisableMsgPrefix u) = none := by
      cases hs : store (keys.CreateDisableMsgPrefix u) with
      | none => rfl
      | some v => simp [Keeper.IsMsgDisabled, KVStore.Has, hs] at h
    simp only [Keeper.EnableMsg, Keeper.DisableMsg, KVStore.Delete, KVStore.Set]
    by_cases hk : k = keys.CreateDisableMsgPrefix u
    · simp [hk, h1]
    · simp [hk]
  · funext k
    simp only [Keeper.DisableMsg, KVStore.Set]
    by_cases hk : k = keys.CreateDisableMsgPrefix u <;> simp [hk]
  · funext k
    simp only [Keeper.EnableMsg, KVStore.Delete]
    by_cases hk : k = keys.CreateDisableMsgPrefix u <;> simp [hk]
  · intro v hv
    simp [Keeper.IsMsgDisabled, Keeper.DisableMsg, Keeper.EnableMsg, KVStore.Has, KVStore.Set,
      KVStore.Delete, hv]

/-- C30, evaluated: disabling the bank transfer leaves another message type
enabled, and enabling it again restores the empty store. -/
theorem IsMsgDisabled_switch_witness :
    Keeper.IsMsgDisabled demoPrefixes
        (Keeper.DisableMsg demoPrefixes KVStore.empty "/cosmos.bank.v1beta1.MsgSend")
        "/cosmos.bank.v1beta1.MsgMultiSend" = false ∧
    Keeper.EnableMsg demoPrefixes
        (Keeper.DisableMsg demoPrefixes KVStore.empty "/cosmos.bank.v1beta1.MsgSend")
        "/cosmos.bank.v1beta1.MsgSend" = KVStore.empty := by
  have h := IsMsgDisabled_switch demoPrefixes KVStore.empty "/cosmos.bank.v1beta1.MsgSend"
  refine ⟨?_, h.2.2.2.1 rfl⟩
  rw [(h.2.2.2.2.2.2 "/cosmos.bank.v1beta1.MsgMultiSend" (by decide)).1]
  rfl

end CosmosSDK.Circuit

/-! ## C21, C22, C23: the validations of Grant -/

namespace CosmosSDK.Authz

open GrantManager

variable {R M A : Type}

/-- C21: for every authorization and expiration, Grant with the granter equal
to the grantee fails with the self-grant error ("grantee and granter should be
different"), and the grant store and the expiration index that stand after the
call are the ones before it. -/
theorem Grant_self (reg : Registry M A) (st : GrantStore A) (now : Nat) (g : Address)
    (auth : A) (exp : Option Nat) :
    GrantManager.Grant reg st now g g auth exp = .error .InvalidGrantee ∧
    AuthzError.message .InvalidGrantee = "grantee and granter should be different" ∧
    storeAfter st (GrantManager.Grant reg st now g g auth exp) = st ∧
    (storeAfter st (GrantManager.Grant reg st now g g auth exp)).grants = st.grants ∧
    (storeAfter st (GrantManager.Grant reg st now g g auth exp)).expirationIndex =
      st.expirationIndex := by
  have h : GrantManager.Grant reg st now g g auth exp = .error .InvalidGrantee := by
    simp [GrantManager.Grant]
  rw [h]
  exact ⟨rfl, rfl, rfl, rfl, rfl⟩

/-- A failing Grant leaves the store it was given. -/
theorem storeAfter_error (st : GrantStore A) (e : AuthzError) :
    storeAfter st (.error e) = st := rfl

/-- Grant with a present expiration that is not strictly after the block time
never succeeds. -/
theorem Grant_past_fails (reg : Registry M A) (st : GrantStore A) (now : Nat)
    (granter grantee : Address) (auth : A) (e : Nat) (he : e ≤ now) :
    ∃ err, GrantManager.Grant reg st now granter grantee auth (some e) = .error err := by
  cases h : GrantManager.Grant reg st now granter grantee auth (some e) with
  | error err => exact ⟨err, rfl⟩
  | ok st1 =>
    have := (Grant_ok reg st st1 now granter grantee auth (some e) h).2.2.1 e rfl
    omega

/-- Grant of a capability that targets a grant-management message type never
succeeds. -/
theorem Grant_management_fails (reg : Registry M A) (st : GrantStore A) (now : Nat)
    (granter grantee : Address) (auth : A) (exp : Option Nat)
    (ht : reg.isGrantManagement (reg.MessageType auth) = true) :
    ∃ err, GrantManager.Grant reg st now granter grantee auth exp = .error err := by
  cases h : GrantManager.Grant reg st now granter grantee auth exp with
  | error err => exact ⟨err, rfl⟩
  | ok st1 =>
    have := (Grant_ok reg st st1 now granter grantee auth exp h).2.2.2.1
    rw [ht] at this
    cases this

/-- C22, as stated, fails: a request whose expiration equals the block time
and whose granter equals its grantee fails with the self-grant error, which is
checked first, not with the expiration error. -/
theorem Grant_past_self_grant :
    GrantManager.Grant bankRegistry emptyStore 100 granteeB granteeB (.send tenSteak [])
        (some 100) = .error .InvalidGrantee ∧
    GrantManager.Grant bankRegistry emptyStore 100 granteeB granteeB (.send tenSteak [])
        (some 100) ≠ .error .ExpirationInPast := by
  have h : GrantManager.Grant bankRegistry emptyStore 100 granteeB granteeB (.send tenSteak [])
      (some 100) = .error .InvalidGrantee := rfl
  rw [h]
  refine ⟨rfl, ?_⟩
  intro h2
  cases h2

/-- C22 (amended): a Grant request whose expiration is present and not
strictly after the current block time (an expiration equal to the block time
included) always fails and stores nothing; when the granter differs from the
grantee and the capability passes `ValidateBasic`, the error is the expiration
error ("expiration must be after the current block time"). A request with an
absent expiration or one strictly in the future is never rejected with the
expiration error. -/
theorem Grant_expiration (reg : Registry M A) (st : GrantStore A) (now : Nat)
    (granter grantee : Address) (auth : A) :
    (∀ e : Nat, e ≤ now →
      (∃ err, GrantManager.Grant reg st now granter grantee auth (some e) = .error err) ∧
      storeAfter st (GrantManager.Grant reg st now granter grantee auth (some e)) = st ∧
      (granter ≠ grantee → reg.ValidateBasic auth = true →
        GrantManager.Grant reg st now granter grantee auth (some e) =
          .error .ExpirationInPast)) ∧
    AuthzError.message .ExpirationInPast = "expiration must be after the current block time" ∧
    GrantManager.Grant reg st now granter grantee auth none ≠ .error .ExpirationInPast ∧
    (∀ e : Nat, now < e →
      GrantManager.Grant reg st now granter grantee auth (some e) ≠ .error .ExpirationInPast) := by
  refine ⟨?_, rfl, ?_, ?_⟩
  · intro e he
    obtain ⟨err, herr⟩ := Grant_past_fails reg st now granter grantee auth e he
    refine ⟨⟨err, herr⟩, by rw [herr]; rfl, ?_⟩
    intro hne hv
    have : ¬ now < e := by omega
    simp [GrantManager.Grant, hne, hv, this]
  · unfold GrantManager.Grant
    split
    · simp
    · split
      · simp
      · simp only [Bool.false_eq_true, if_false]
        split <;> simp
  · intro e he
    unfold GrantManager.Grant
    split
    · simp
    · split
      · simp
      · simp only [he, decide_True, Bool.not_true, Bool.false_eq_true, if_false]
        split <;> simp

/-- C22 (amended), evaluated on the test: an expiration one hour before the
block time is rejected with the expiration error; no expiration is accepted. -/
theorem Grant_expiration_witness :
    GrantManager.Grant bankRegistry emptyStore 100 granterA granteeB (.send tenSteak [])
        (some 40) = .error .ExpirationInPast ∧
    GrantManager.Grant bankRegistry emptyStore 100 granterA granteeB (.send tenSteak []) none =
      .ok storeWithSendGrant :=
  ⟨((Grant_expiration bankRegistry emptyStore 100 granterA granteeB (.send tenSteak [])).1 40
      (by decide)).2.2 (by decide) (by decide),
    rfl⟩

/-- C23, as stated, fails: a Grant of a capability over the grant message
type whose granter equals its grantee fails with the self-grant error, which
is checked first; and one whose expiration is not in the future fails with the
expiration error. -/
theorem Grant_management_other_error :
    bankRegistry.isGrantManagement
        (bankRegistry.MessageType (.generic "/cosmos.authz.v1beta1.MsgGrant")) = true ∧
    GrantManager.Grant bankRegistry emptyStore 100 granteeB granteeB
        (.generic "/cosmos.authz.v1beta1.MsgGrant") none = .error .InvalidGrantee ∧
    GrantManager.Grant bankRegistry emptyStore 100 granterA granteeB
        (.generic "/cosmos.authz.v1beta1.MsgGrant") (some 40) = .error .ExpirationInPast := by
  exact ⟨by decide, rfl, rfl⟩

/-- C23 (amended): for every capability variant, Grant of an authorization
whose governed message type is a grant-management message type always fails at
grant time and stores nothing; when the granter differs from the grantee, the
capability passes `ValidateBasic` and the expiration is absent or strictly in
the future, the error is the disallowed-target error ("authz msgGrant is not
allowed"). -/
theorem Grant_management (reg : Registry M A) (st : GrantStore A) (now : Nat)
    (granter grantee : Address) (auth : A) (exp : Option Nat)
    (ht : reg.isGrantManagement (reg.MessageType auth) = true) :
    (∃ err, GrantManager.Grant reg st now granter grantee auth exp = .error err) ∧
    storeAfter st (GrantManager.Grant reg st now granter grantee auth exp) = st ∧
    (granter ≠ grantee → reg.ValidateBasic auth = true →
      (exp = none ∨ ∃ e, exp = some e ∧ now < e) →
      GrantManager.Grant reg st now granter grantee auth exp = .error .DisallowedTarget) ∧
    AuthzError.message .DisallowedTarget = "authz msgGrant is not allowed" := by
  obtain ⟨err, herr⟩ := Grant_management_fails reg st now granter grantee auth exp ht
  refine ⟨⟨err, herr⟩, by rw [herr]; rfl, ?_, rfl⟩
  intro hne hv hexp
  rcases hexp with rfl | ⟨e, rfl, he⟩
  · simp [GrantManager.Grant, hne, hv, ht]
  · simp [GrantManager.Grant, hne, hv, ht, he]

/-- C23 (amended), evaluated on the test: a generic authorization over the
grant message type, with no expiration. -/
theorem Grant_management_witness :
    GrantManager.Grant bankRegistry emptyStore 100 granterA granteeB
        (.generic "/cosmos.authz.v1beta1.MsgGrant") none = .error .DisallowedTarget :=
  (Grant_management bankRegistry emptyStore 100 granterA granteeB
    (.generic "/cosmos.authz.v1beta1.MsgGrant") none (by decide)).2.2.1 (by decide) rfl
    (Or.inl rfl)

end CosmosSDK.Authz

/-! ## C24: Grant, then Revoke -/

namespace CosmosSDK.Authz

open GrantManager

variable {R M A : Type}

/-- C24: for every key (granter, grantee, message type) with granter different
from grantee, a successful Grant immediately followed by Revoke of the same
key succeeds and leaves `store.get(key)` absent, with no index entry left for
the key. Revoke of a key that is not in the store fails with `NotFound`
("authorization not found") and leaves the store unchanged. -/
theorem Revoke_after_Grant (reg : Registry M A) (st st1 : GrantStore A) (now : Nat)
    (granter grantee : Address) (auth : A) (exp : Option Nat)
    (hne : granter ≠ grantee)
    (hgrant : GrantManager.Grant reg st now granter grantee auth exp = .ok st1) :
    (∃ st2, Revoke st1 granter grantee (reg.MessageType auth) = .ok st2 ∧
      st2.get (granter, grantee, reg.MessageType auth) = none ∧
      ∀ e ∈ st2.expirationIndex, e.key ≠ (granter, grantee, reg.MessageType auth)) ∧
    (∀ (st0 : GrantStore A) (g1 g2 : Address) (t : String), st0.get (g1, g2, t) = none →
      Revoke st0 g1 g2 t = .error .NotFound ∧ storeAfter st0 (Revoke st0 g1 g2 t) = st0) ∧
    AuthzError.message .NotFound = "authorization not found" := by
  have _ := hne
  obtain ⟨-, -, -, -, hst1⟩ := Grant_ok reg st st1 now granter grantee auth exp hgrant
  have hget : st1.get (granter, grantee, reg.MessageType auth) = some ⟨auth, exp⟩ := by
    rw [hst1, GrantStore.get_saveGrant_same]
  refine ⟨⟨st1.deleteGrant (granter, grantee, reg.MessageType auth), ?_, ?_, ?_⟩, ?_, rfl⟩
  · simp [Revoke, hget]
  · rw [GrantStore.get_deleteGrant]
    simp
  · intro e he
    simp only [GrantStore.deleteGrant, GrantStore.removeIndexEntry, GrantStore.delete,
      List.mem_filter] at he
    simpa using he.2
  · intro st0 g1 g2 t hnone
    have h : Revoke st0 g1 g2 t = .error .NotFound := by simp [Revoke, hnone]
    rw [h]
    exact ⟨rfl, rfl⟩

/-- C24, evaluated on the test: the send authorization is granted and revoked;
a second Revoke finds no authorization. -/
theorem Revoke_after_Grant_witness :
    Revoke storeWithSendGrant granterA granteeB bankSendAuthMsgType = .ok emptyStore ∧
    Revoke emptyStore granterA granteeB bankSendAuthMsgType = .error .NotFound := by
  have h := Revoke_after_Grant bankRegistry emptyStore storeWithSendGrant 100 granterA granteeB
    (.send tenSteak []) none (by decide) rfl
  exact ⟨rfl, (h.2.1 emptyStore granterA granteeB bankSendAuthMsgType rfl).1⟩

end CosmosSDK.Authz

/-! ## C25, C26: RevokeAll and PruneExpiredGrants -/

namespace CosmosSDK.Authz

open GrantManager

variable {R M A : Type}

/-- Looking a key up after a filter that depends on the key alone. -/
theorem lookup_filter_key (l : List (GrantKey × Grant A)) (q : GrantKey → Bool) (k : GrantKey) :
    (l.filter (fun kv => q kv.1)).lookup k = if q k = true then l.lookup k else none := by
  induction l with
  | nil => simp
  | cons kv l ih =>
    obtain ⟨k2, g⟩ := kv
    by_cases h : k = k2
    · subst h
      cases hq : q k <;> simp [List.filter_cons, hq, List.lookup_cons, ih]
    · have hb : (k == k2) = false := by simpa using h
      cases hq2 : q k2 <;> simp [List.filter_cons, hq2, List.lookup_cons, hb, ih]

/-- A key found by a lookup is paired with the value found in the list. -/
theorem mem_of_lookup_eq_some (l : List (GrantKey × Grant A)) (k : GrantKey) (g : Grant A)
    (h : l.lookup k = some g) : (k, g) ∈ l := by
  induction l with
  | nil => simp at h
  | cons kv l ih =>
    obtain ⟨k2, g2⟩ := kv
    by_cases hk : k = k2
    · subst hk
      simp [List.lookup_cons] at h
      simp [h]
    · have hb : (k == k2) = false := by simpa using hk
      simp only [List.lookup_cons, hb] at h
      exact List.mem_cons_of_mem _ (ih h)

/-- The grants left after the grants of a list of keys have been deleted. -/
theorem GrantStore.deleteGrants_grants (keys : List GrantKey) :
    ∀ st : GrantStore A, (st.deleteGrants keys).grants =
      st.grants.filter (fun kv => keys.all (fun k => kv.1 != k)) := by
  induction keys with
  | nil => intro st; simp [GrantStore.deleteGrants]
  | cons k ks ih =>
    intro st
    have hstep : st.deleteGrants (k :: ks) = (st.deleteGrant k).deleteGrants ks := rfl
    rw [hstep, ih]
    simp only [GrantStore.deleteGrant, GrantStore.removeIndexEntry, GrantStore.delete,
      List.filter_filter, List.all_cons]
    congr 1
    funext kv
    exact Bool.and_comm _ _

/-- The index entries left after the grants of a list of keys have been deleted. -/
theorem GrantStore.deleteGrants_index (keys : List GrantKey) :
    ∀ st : GrantStore A, (st.deleteGrants keys).expirationIndex =
      st.expirationIndex.filter (fun e => keys.all (fun k => e.key != k)) := by
  induction keys with
  | nil => intro st; simp [GrantStore.deleteGrants]
  | cons k ks ih =>
    intro st
    have hstep : st.deleteGrants (k :: ks) = (st.deleteGrant k).deleteGrants ks := rfl
    rw [hstep, ih]
    simp only [GrantStore.deleteGrant, GrantStore.removeIndexEntry, GrantStore.delete,
      List.filter_filter, List.all_cons]
    congr 1
    funext e
    exact Bool.and_comm _ _

/-- After the grants of a list of keys have been deleted, those keys hold no
grant and every other key holds what it held. -/
theorem GrantStore.get_deleteGrants (st : GrantStore A) (keys : List GrantKey) (k : GrantKey) :
    (st.deleteGrants keys).get k = if k ∈ keys then none else st.get k := by
  rw [GrantStore.get, GrantStore.deleteGrants_grants,
    lookup_filter_key st.grants (fun key => keys.all (fun k1 => key != k1)) k]
  by_cases hk : k ∈ keys
  · have : (keys.all fun k1 => k != k1) = false := by
      rw [List.all_eq_false]
      exact ⟨k, hk, by simp⟩
    simp [hk, this]
  · have : (keys.all fun k1 => k != k1) = true := by
      rw [List.all_eq_true]
      intro k1 hk1
      have : k ≠ k1 := fun h => hk (h ▸ hk1)
      simpa using this
    simp [hk, this, GrantStore.get]

/-- C25: RevokeAll(granter) fails with `NotFound` ("authorization not found")
when no grant is enumerable under the granter. When at least one is, it
succeeds and deletes them all: every grant that was enumerable under the
granter is gone, zero grants remain enumerable under the granter and no key of
that granter holds a grant or an index entry; the grants of every other granter
are untouched, in the enumeration and under their keys. -/
theorem RevokeAll_spec (st : GrantStore A) (granter : Address) :
    (st.iterateByGranter granter = [] →
      RevokeAll st granter = .error .NotFound ∧ storeAfter st (RevokeAll st granter) = st) ∧
    AuthzError.message .NotFound = "authorization not found" ∧
    (st.iterateByGranter granter ≠ [] →
      ∃ st1, RevokeAll st granter = .ok st1 ∧
        st1.iterateByGranter granter = [] ∧
        (∀ kv ∈ st.iterateByGranter granter, st1.get kv.1 = none) ∧
        (∀ key : GrantKey, key.1 = granter → st1.get key = none) ∧
        (∀ e ∈ st1.expirationIndex, e.granter = granter →
          ∀ kv ∈ st.iterateByGranter granter, e.key ≠ kv.1) ∧
        (∀ other : Address, other ≠ granter →
          st1.iterateByGranter other = st.iterateByGranter other) ∧
        (∀ key : GrantKey, key.1 ≠ granter → st1.get key = st.get key)) := by
  refine ⟨?_, rfl, ?_⟩
  · intro h
    have hE : RevokeAll st granter = .error .NotFound := by simp [RevokeAll, h]
    rw [hE]
    exact ⟨rfl, rfl⟩
  · intro h
    have hE : RevokeAll st granter =
        .ok (st.deleteGrants ((st.iterateByGranter granter).map Prod.fst)) := by
      simp [RevokeAll, h]
    have hkeys : ∀ k ∈ (st.iterateByGranter granter).map Prod.fst, k.1 = granter := by
      intro k hk
      simp only [GrantStore.iterateByGranter, List.mem_map, List.mem_filter] at hk
      obtain ⟨kv, ⟨-, hg⟩, rfl⟩ := hk
      simpa using hg
    have hget : ∀ key : GrantKey, key.1 = granter →
        (st.deleteGrants ((st.iterateByGranter granter).map Prod.fst)).get key = none := by
      intro key hkey
      rw [GrantStore.get_deleteGrants]
      split
      · rfl
      · rename_i hnot
        cases hl : st.get key with
        | none => rfl
        | some g =>
          exfalso
          apply hnot
          have hmem : (key, g) ∈ st.grants := mem_of_lookup_eq_some st.grants key g hl
          simp only [GrantStore.iterateByGranter, List.mem_map, List.mem_filter]
          exact ⟨(key, g), ⟨hmem, by simp [hkey]⟩, rfl⟩
    refine ⟨_, hE, ?_, ?_, hget, ?_, ?_, ?_⟩
    · simp only [GrantStore.iterateByGranter, GrantStore.deleteGrants_grants, List.filter_filter]
      rw [List.filter_eq_nil_iff]
      intro kv hkv
      simp only [Bool.and_eq_true, beq_iff_eq, List.all_eq_true, List.mem_map, List.mem_filter,
        not_and]
      intro hg hall
      have := hall kv.1 ⟨kv, ⟨hkv, by simp [hg]⟩, rfl⟩
      simp at this
    · intro kv hkv
      apply hget
      simp only [GrantStore.iterateByGranter, List.mem_filter] at hkv
      simpa using hkv.2
    · intro e he _ kv hkv
      rw [GrantStore.deleteGrants_index] at he
      simp only [List.mem_filter, List.all_eq_true] at he
      have := he.2 kv.1 (List.mem_map_of_mem _ hkv)
      simpa using this
    · intro other hother
      simp only [GrantStore.iterateByGranter, GrantStore.deleteGrants_grants, List.filter_filter]
      apply List.filter_congr
      intro kv _
      by_cases hg : kv.1.1 = other
      · have hall : (((st.grants.filter fun kv => kv.1.1 == granter).map Prod.fst).all
            fun k => kv.1 != k) = true := by
          rw [List.all_eq_true]
          intro k hk
          have hk1 := hkeys k (by simpa [GrantStore.iterateByGranter] using hk)
          have : kv.1 ≠ k := by
            intro h2
            rw [h2] at hg
            exact hother (hg ▸ hk1.symm ▸ rfl)
          simpa using this
        simp [hg, hall]
      · have : (kv.1.1 == other) = false := by simpa using hg
        simp [this]
    · intro key hkey
      rw [GrantStore.get_deleteGrants]
      split
      · rename_i hmem
        exact absurd (hkeys key hmem) hkey
      · rfl

end CosmosSDK.Authz

namespace CosmosSDK.Authz

open GrantManager

variable {R M A : Type}

theorem mem_insertByExpiration (e x : ExpirationIndexEntry) (l : List ExpirationIndexEntry) :
    x ∈ insertByExpiration e l ↔ x = e ∨ x ∈ l := by
  induction l with
  | nil => simp [insertByExpiration]
  | cons y ys ih =>
    unfold insertByExpiration
    split
    · simp
    · simp only [List.mem_cons, ih]
      tauto

theorem GrantStore.get_saveGrant_other (st : GrantStore A) (k k1 : GrantKey) (g : Grant A)
    (h : k ≠ k1) : (st.saveGrant k1 g).get k = st.get k := by
  unfold GrantStore.saveGrant
  split
  · rw [GrantStore.get_writeIndexEntry, GrantStore.get_put_other _ _ _ _ h,
      GrantStore.get_removeIndexEntry]
  · rw [GrantStore.get_put_other _ _ _ _ h, GrantStore.get_removeIndexEntry]

/-- The key of an index entry is one of the keys enumerated up to `upTo` when
its expiration is at most `upTo`. -/
theorem GrantStore.mem_iterateExpiring (st : GrantStore A) (upTo : Nat) (key : GrantKey) :
    key ∈ st.iterateExpiring upTo ↔
      ∃ e ∈ st.expirationIndex, e.expiration ≤ upTo ∧ e.key = key := by
  simp only [GrantStore.iterateExpiring, List.mem_map, List.mem_filter, decide_eq_true_eq]
  constructor
  · rintro ⟨e, ⟨he, hle⟩, rfl⟩
    exact ⟨e, he, hle, rfl⟩
  · rintro ⟨e, he, hle, rfl⟩
    exact ⟨e, ⟨he, hle⟩, rfl⟩

/-- The empty store is indexed. -/
theorem GrantStore.Indexed_empty : (⟨[], []⟩ : GrantStore A).Indexed := by
  constructor
  · intro e he
    simp at he
  · intro key g exp hget
    simp [GrantStore.get] at hget

/-- Deleting a grant with its index entry keeps the store indexed. -/
theorem GrantStore.Indexed_deleteGrant (st : GrantStore A) (k : GrantKey) (h : st.Indexed) :
    (st.deleteGrant k).Indexed := by
  obtain ⟨h1, h2⟩ := h
  constructor
  · intro e he
    have he2 : e ∈ st.expirationIndex ∧ e.key ≠ k := by
      simpa [GrantStore.deleteGrant, GrantStore.removeIndexEntry, GrantStore.delete] using he
    rw [GrantStore.get_deleteGrant, if_neg he2.2]
    exact h1 e he2.1
  · intro key g exp hget hexp
    rw [GrantStore.get_deleteGrant] at hget
    by_cases hk : key = k
    · rw [if_pos hk] at hget
      cases hget
    · rw [if_neg hk] at hget
      have hmem := h2 key g exp hget hexp
      have hkey : (⟨exp, key.1, key.2.1, key.2.2⟩ : ExpirationIndexEntry).key ≠ k := hk
      simpa [GrantStore.deleteGrant, GrantStore.removeIndexEntry, GrantStore.delete]
        using And.intro hmem hkey

/-- Deleting the grants of a list of keys keeps the store indexed. -/
theorem GrantStore.Indexed_deleteGrants (keys : List GrantKey) :
    ∀ st : GrantStore A, st.Indexed → (st.deleteGrants keys).Indexed := by
  induction keys with
  | nil => intro st h; exact h
  | cons k ks ih =>
    intro st h
    exact ih (st.deleteGrant k) (GrantStore.Indexed_deleteGrant st k h)

/-- The store step of Grant keeps the store indexed. -/
theorem GrantStore.Indexed_saveGrant (st : GrantStore A) (k : GrantKey) (g : Grant A)
    (h : st.Indexed) : (st.saveGrant k g).Indexed := by
  obtain ⟨h1, h2⟩ := h
  have hidx : ∀ e, e ∈ (st.saveGrant k g).expirationIndex ↔
      (g.expiration = some e.expiration ∧ e.key = k) ∨ (e ∈ st.expirationIndex ∧ e.key ≠ k) := by
    intro e
    unfold GrantStore.saveGrant
    cases hg : g.expiration with
    | none =>
      simp [GrantStore.put, GrantStore.removeIndexEntry]
    | some e0 =>
      simp only [GrantStore.writeIndexEntry, GrantStore.put, GrantStore.removeIndexEntry,
        mem_insertByExpiration, List.mem_filter, bne_iff_ne, ne_eq, Option.some.injEq]
      constructor
      · rintro (rfl | hm)
        · exact Or.inl ⟨rfl, rfl⟩
        · exact Or.inr hm
      · rintro (⟨he0, hk⟩ | hm)
        · left
          cases e
          simp only [ExpirationIndexEntry.key] at hk
          subst hk
          subst he0
          rfl
        · exact Or.inr hm
  constructor
  · intro e he
    rcases (hidx e).1 he with ⟨hg, hk⟩ | ⟨hm, hk⟩
    · rw [hk, GrantStore.get_saveGrant_same]
      exact ⟨g, rfl, hg⟩
    · rw [GrantStore.get_saveGrant_other _ _ _ _ hk]
      exact h1 e hm
  · intro key g2 exp hget hexp
    rw [hidx]
    by_cases hk : key = k
    · subst hk
      rw [GrantStore.get_saveGrant_same] at hget
      cases hget
      exact Or.inl ⟨hexp, rfl⟩
    · rw [GrantStore.get_saveGrant_other _ _ _ _ hk] at hget
      exact Or.inr ⟨h2 key g2 exp hget hexp, hk⟩

/-- Overwriting the capability of a stored grant under the same expiration
keeps the store indexed. -/
theorem GrantStore.Indexed_put_authorization (st : GrantStore A) (k : GrantKey) (g : Grant A)
    (a : A) (hg : st.get k = some g) (h : st.Indexed) :
    (st.put k { g with authorization := a }).Indexed := by
  obtain ⟨h1, h2⟩ := h
  constructor
  · intro e he
    have he1 : e ∈ st.expirationIndex := he
    by_cases hk : e.key = k
    · rw [hk, GrantStore.get_put_same]
      obtain ⟨g1, hg1, hexp⟩ := h1 e he1
      rw [hk, hg] at hg1
      cases hg1
      exact ⟨_, rfl, hexp⟩
    · rw [GrantStore.get_put_other _ _ _ _ hk]
      exact h1 e he1
  · intro key g2 exp hget hexp
    show _ ∈ st.expirationIndex
    by_cases hk : key = k
    · subst hk
      rw [GrantStore.get_put_same] at hget
      cases hget
      exact h2 key g exp hg hexp
    · rw [GrantStore.get_put_other _ _ _ _ hk] at hget
      exact h2 key g2 exp hget hexp

/-- Grant keeps the store indexed. -/
theorem Indexed_Grant (reg : Registry M A) (st st1 : GrantStore A) (now : Nat)
    (granter grantee : Address) (a : A) (expiration : Option Nat) (h : st.Indexed)
    (hok : GrantManager.Grant reg st now granter grantee a expiration = .ok st1) :
    st1.Indexed := by
  unfold GrantManager.Grant at hok
  split at hok
  · cases hok
  · split at hok
    · cases hok
    · split at hok
      · cases hok
      · split at hok
        · cases hok
        · cases hok
          exact GrantStore.Indexed_saveGrant st _ _ h

/-- Revoke keeps the store indexed. -/
theorem Indexed_Revoke (st st1 : GrantStore A) (granter grantee : Address) (t : String)
    (h : st.Indexed) (hok : Revoke st granter grantee t = .ok st1) : st1.Indexed := by
  unfold Revoke at hok
  split at hok
  · cases hok
  · cases hok
    exact GrantStore.Indexed_deleteGrant st _ h

/-- RevokeAll keeps the store indexed. -/
theorem Indexed_RevokeAll (st st1 : GrantStore A) (granter : Address)
    (h : st.Indexed) (hok : RevokeAll st granter = .ok st1) : st1.Indexed := by
  unfold RevokeAll at hok
  simp only at hok
  split at hok
  · cases hok
  · cases hok
    exact GrantStore.Indexed_deleteGrants _ st h

/-- PruneExpiredGrants keeps the store indexed. -/
theorem Indexed_PruneExpiredGrants (st : GrantStore A) (asOf : Nat) (pruner : String)
    (h : st.Indexed) : (PruneExpiredGrants st asOf pruner).Indexed :=
  GrantStore.Indexed_deleteGrants _ st h

/-- Authorizing one message of Exec keeps the store indexed. -/
theorem Indexed_authorizeMsg (reg : Registry M A) (now : Nat) (grantee : Address)
    (st st1 : GrantStore A) (m : M) (h : st.Indexed)
    (hok : authorizeMsg reg now grantee st m = .ok st1) : st1.Indexed := by
  unfold authorizeMsg at hok
  simp only at hok
  split at hok
  · cases hok
    exact h
  · split at hok
    · cases hok
    · rename_i grant hget
      split at hok
      · cases hok
      · split at hok
        · cases hok
        · split at hok
          · cases hok
          · cases hok
            split
            · exact GrantStore.Indexed_deleteGrant st _ h
            · split
              · exact GrantStore.Indexed_put_authorization st _ grant _ hget h
              · exact h

/-- Authorizing the batch of Exec keeps the store indexed. -/
theorem Indexed_authorizeAll (reg : Registry M A) (now : Nat) (grantee : Address)
    (msgs : List M) : ∀ st st1 : GrantStore A, st.Indexed →
      authorizeAll reg now grantee st msgs = .ok st1 → st1.Indexed := by
  induction msgs with
  | nil =>
    intro st st1 h hok
    simp only [authorizeAll] at hok
    cases hok
    exact h
  | cons m ms ih =>
    intro st st1 h hok
    simp only [authorizeAll] at hok
    split at hok
    · cases hok
    · rename_i st2 h2
      exact ih st2 st1 (Indexed_authorizeMsg reg now grantee st st2 m h h2) hok

/-- Exec keeps the store indexed. -/
theorem Indexed_Exec (reg : Registry M A) (router : Router R M) (st : GrantStore A) (r : R)
    (now : Nat) (grantee : String) (msgs : List M) (h : st.Indexed) :
    (Exec reg router st r now grantee msgs).store.Indexed := by
  unfold Exec
  split
  · exact h
  · split
    · exact h
    · split
      · exact h
      · rename_i st1 hall
        split
        · exact h
        · exact Indexed_authorizeAll reg now _ msgs st st1 h hall

end CosmosSDK.Authz

namespace CosmosSDK.Authz

open GrantManager

variable {R M A : Type}

/-- Witness of C25 on the store with one grant of A to B and one of B to A:
RevokeAll of A succeeds, leaves nothing enumerable under A and keeps the grant
of B. -/
theorem RevokeAll_spec_witness :
    storeWithExpiringGrants.iterateByGranter granterA ≠ [] ∧
    ∃ st1, RevokeAll storeWithExpiringGrants granterA = .ok st1 ∧
      st1.iterateByGranter granterA = [] ∧
      st1.get (granterA, granteeB, bankSendAuthMsgType) = none ∧
      st1.iterateByGranter granteeB = storeWithExpiringGrants.iterateByGranter granteeB ∧
      st1.get (granteeB, granterA, bankSendAuthMsgType) = some ⟨.send tenSteak [], some 160⟩ :=
  have hne : storeWithExpiringGrants.iterateByGranter granterA ≠ [] := by decide
  have hother : granteeB ≠ granterA := by decide
  match (RevokeAll_spec storeWithExpiringGrants granterA).2.2 hne with
  | ⟨st1, hok, hnone, _, hkey, _, hiter, hget⟩ =>
    ⟨hne, st1, hok, hnone, hkey _ rfl, hiter granteeB hother,
      (hget (granteeB, granterA, bankSendAuthMsgType) hother).trans (by decide)⟩

/-- C26: PruneExpiredGrants run at time `t` on a store the grant manager wrote
(its index agrees with its grants), for any pruner: every grant whose
expiration is present and at most `t` is removed; every grant whose expiration
is after `t` or absent is left as it was; no grant appears; the index keeps
exactly its entries after `t` and still agrees with the grants; the pruner
does not matter; and a second run at the same `t` changes nothing. -/
theorem PruneExpiredGrants_spec (st : GrantStore A) (t : Nat) (pruner : String)
    (hidx : st.Indexed) :
    (∀ (key : GrantKey) (g : Grant A) (e : Nat), st.get key = some g →
      g.expiration = some e → e ≤ t → (PruneExpiredGrants st t pruner).get key = none) ∧
    (∀ (key : GrantKey) (g : Grant A), st.get key = some g →
      (g.expiration = none ∨ ∃ e, g.expiration = some e ∧ t < e) →
      (PruneExpiredGrants st t pruner).get key = some g) ∧
    (∀ key : GrantKey, st.get key = none → (PruneExpiredGrants st t pruner).get key = none) ∧
    (∀ e : ExpirationIndexEntry, e ∈ (PruneExpiredGrants st t pruner).expirationIndex ↔
      e ∈ st.expirationIndex ∧ t < e.expiration) ∧
    (PruneExpiredGrants st t pruner).Indexed ∧
    (∀ pruner2 : String, PruneExpiredGrants st t pruner2 = PruneExpiredGrants st t pruner) ∧
    (∀ pruner2 : String, PruneExpiredGrants (PruneExpiredGrants st t pruner) t pruner2 =
      PruneExpiredGrants st t pruner) := by
  have h1 := hidx.1
  have h2 := hidx.2
  have hkeep : ∀ (key : GrantKey) (g : Grant A), st.get key = some g →
      (g.expiration = none ∨ ∃ e, g.expiration = some e ∧ t < e) →
      key ∉ st.iterateExpiring t := by
    intro key g hget hexp hmem
    obtain ⟨e, he, hle, hk⟩ := (GrantStore.mem_iterateExpiring st t key).1 hmem
    obtain ⟨g1, hg1, hexp1⟩ := h1 e he
    rw [hk, hget] at hg1
    cases hg1
    rcases hexp with hnone | ⟨e1, he1, hlt⟩
    · rw [hnone] at hexp1
      cases hexp1
    · rw [he1] at hexp1
      cases hexp1
      omega
  have hindex : ∀ e : ExpirationIndexEntry,
      e ∈ (PruneExpiredGrants st t pruner).expirationIndex ↔
        e ∈ st.expirationIndex ∧ t < e.expiration := by
    intro e
    simp only [PruneExpiredGrants, GrantStore.deleteGrants_index, List.mem_filter,
      List.all_eq_true, bne_iff_ne, ne_eq]
    constructor
    · rintro ⟨he, hall⟩
      refine ⟨he, ?_⟩
      by_contra hle
      exact hall e.key ((GrantStore.mem_iterateExpiring st t e.key).2
        ⟨e, he, by omega, rfl⟩) rfl
    · rintro ⟨he, hlt⟩
      refine ⟨he, ?_⟩
      intro k hk heq
      obtain ⟨g, hg, hexp⟩ := h1 e he
      exact hkeep e.key g hg (Or.inr ⟨e.expiration, hexp, hlt⟩) (heq ▸ hk)
  refine ⟨?_, ?_, ?_, hindex, Indexed_PruneExpiredGrants st t pruner hidx, fun _ => rfl, ?_⟩
  · intro key g e hget hexp hle
    have hmem : key ∈ st.iterateExpiring t :=
      (GrantStore.mem_iterateExpiring st t key).2 ⟨_, h2 key g e hget hexp, hle, rfl⟩
    simp only [PruneExpiredGrants]
    rw [GrantStore.get_deleteGrants, if_pos hmem]
  · intro key g hget hexp
    simp only [PruneExpiredGrants]
    rw [GrantStore.get_deleteGrants, if_neg (hkeep key g hget hexp)]
    exact hget
  · intro key hget
    simp only [PruneExpiredGrants]
    rw [GrantStore.get_deleteGrants]
    split
    · rfl
    · exact hget
  · intro pruner2
    have hnil : (PruneExpiredGrants st t pruner).iterateExpiring t = [] := by
      simp only [GrantStore.iterateExpiring, List.map_eq_nil_iff, List.filter_eq_nil_iff,
        decide_eq_true_eq]
      intro e he
      have := ((hindex e).1 he).2
      omega
    show (PruneExpiredGrants st t pruner).deleteGrants
      ((PruneExpiredGrants st t pruner).iterateExpiring t) = _
    rw [hnil]
    rfl

/-- Witness of C26 on a store with two grants expiring at 160 and one at 300,
pruned at 220. -/
theorem PruneExpiredGrants_spec_witness :
    (storeWithExpiringGrants.saveGrant (granterC, granteeB, bankSendAuthMsgType)
      ⟨.send tenSteak [], some 300⟩).Indexed ∧
    (PruneExpiredGrants (storeWithExpiringGrants.saveGrant
      (granterC, granteeB, bankSendAuthMsgType) ⟨.send tenSteak [], some 300⟩) 220
        "cosmos1pruner").get (granterA, granteeB, bankSendAuthMsgType) = none ∧
    (PruneExpiredGrants (storeWithExpiringGrants.saveGrant
      (granterC, granteeB, bankSendAuthMsgType) ⟨.send tenSteak [], some 300⟩) 220
        "cosmos1pruner").get (granterC, granteeB, bankSendAuthMsgType) =
      some ⟨.send tenSteak [], some 300⟩ :=
  have hidx : (storeWithExpiringGrants.saveGrant (granterC, granteeB, bankSendAuthMsgType)
      ⟨.send tenSteak [], some 300⟩).Indexed :=
    GrantStore.Indexed_saveGrant _ _ _
      (GrantStore.Indexed_saveGrant _ _ _
        (GrantStore.Indexed_saveGrant _ _ _ GrantStore.Indexed_empty))
  ⟨hidx,
    (PruneExpiredGrants_spec _ 220 "cosmos1pruner" hidx).1
      (granterA, granteeB, bankSendAuthMsgType) ⟨.send tenSteak [], some 160⟩ 160
      (by decide) rfl (by decide),
    (PruneExpiredGrants_spec _ 220 "cosmos1pruner" hidx).2.1
      (granterC, granteeB, bankSendAuthMsgType) ⟨.send tenSteak [], some 300⟩
      (by decide) (Or.inr ⟨300, rfl, by decide⟩)⟩

end CosmosSDK.Authz
